import Mathlib

/-!
# mira-toolkit: broadcast state synchronisation and bulk data collection

A shallow embedding of `mtk_broadcast_worker.c`, `mtk_bdc_signal.c`,
`mtk_bdc_request.c`, `mtk_bdc_subpacket.c` and `mtk_bulk_data_collection.c`.

Conventions of the embedding:

* machine integers are `Nat`, reduced modulo `2 ^ w` where the C code can wrap;
* a byte buffer is a `List Nat`; a read past the end of the list yields `0`
  (`List.getD _ _ 0`), so that quantifying over all lists covers whatever
  memory follows a datagram;
* `memcpy dst src n` overwrites the first `n` bytes of `dst`;
* an unpack function that returns `0` and fills its out-parameters returns
  `some` of the values, and `none` where it returns `-1`; the other functions
  return their `int` result together with the state they leave;
* the effects of a callback (timer signals, handler calls, datagrams sent,
  events posted) are returned as a list, in program order.
-/

namespace MiraToolkit

set_option autoImplicit false

/-! ## Wire codec helpers (`mtk_bdc_utils.h`) -/

/-- Macro `LITTLE_ENDIAN_STORE(buffer, v)` for a value of `width` bytes: the bytes
written, `buffer[i] = (v >> (i * 8)) & 0xff` for `i < sizeof(v)`. -/
def LITTLE_ENDIAN_STORE (width v : Nat) : List Nat :=
  (List.range width).map fun i => (v >>> (i * 8)) &&& 0xff

/-- Macro `LITTLE_ENDIAN_LOAD(p, buffer)` for a target of `width` bytes: `*p = 0` and
then `*p |= (uint64_t)buffer[i] << (i * 8)` for `i < sizeof(*p)`; the shift is
done on 64 bits and the result is stored in a variable of `width` bytes. -/
def LITTLE_ENDIAN_LOAD (width : Nat) (buffer : List Nat) : Nat :=
  (List.range width).foldl
    (fun p i => (p ||| (buffer.getD i 0 <<< (i * 8)) % 2 ^ 64) % 2 ^ (8 * width)) 0

/-- Call `memcpy(dst, src, n)`: the destination buffer after the copy. -/
def memcpy (dst src : List Nat) (n : Nat) : List Nat :=
  src.take n ++ dst.drop n

/-- Call `memcpy(dst + off, src, n)`: the destination buffer after the copy. -/
def memcpy_at (dst : List Nat) (off : Nat) (src : List Nat) (n : Nat) : List Nat :=
  dst.take off ++ memcpy (dst.drop off) src n

/-- Test `memcmp(data, header, sizeof(header)) != 0` for a two-byte header. -/
def header_differs (data header : List Nat) : Bool :=
  (data.getD 0 0 != header.getD 0 0) || (data.getD 1 0 != header.getD 1 0)

/-- The fields of `mira_net_udp_callback_metadata_t` that the code reads. -/
structure mira_net_udp_callback_metadata_t where
  source_address : Nat
  source_port : Nat
deriving DecidableEq, Repr

def MTK_BULK_DATA_COLLECTION_RX_UDP_PORT : Nat := 1520
def MTK_BULK_DATA_COLLECTION_SUBPACKET_MAX_BYTES : Nat := 330
def MTK_BULK_DATA_COLLECTION_MAX_NUMBER_OF_SUBPACKETS : Nat := 64
def MTK_BULK_DATA_COLLECTION_HEADER_SIZE : Nat := 2

/-! ## BDC signal (`mtk_bdc_signal.c`) -/

def lpsig_header : List Nat := [0x54, 0xab]

/-- Event data of `event_bdc_signaled_ready`. -/
structure mtk_bdc_event_signaled_data_t where
  n_sub_packets : Nat
  packet_id : Nat
  src : Nat
  src_port : Nat
deriving DecidableEq, Repr

/-- Function `lpsig_pack_buffer`: the 5 bytes written to `buffer`. -/
def lpsig_pack_buffer (packet_id n_sub_packets : Nat) : List Nat :=
  lpsig_header ++ LITTLE_ENDIAN_STORE 2 packet_id ++ LITTLE_ENDIAN_STORE 1 n_sub_packets

/-- Function `lpsig_unpack_buffer`; `len` is the `uint8_t` parameter. The result is
`(n_sub_packets, packet_id)`. -/
def lpsig_unpack_buffer (buffer : List Nat) (len : Nat) : Option (Nat × Nat) :=
  if len ≠ 2 + 1 + 2 then none
  else
    let buffer := buffer.drop 2
    let packet_id := LITTLE_ENDIAN_LOAD 2 buffer
    let buffer := buffer.drop 2
    let n_sub_packets := LITTLE_ENDIAN_LOAD 1 buffer
    some (n_sub_packets, packet_id)

/-- Function `mtk_bdcsig_handle_data`: the event posted, if any. `data_len` is a
`uint16_t`; it is converted to the `uint8_t` parameter of
`lpsig_unpack_buffer` at the call. -/
def mtk_bdcsig_handle_data (data : List Nat) (data_len : Nat)
    (metadata : mira_net_udp_callback_metadata_t) : Option mtk_bdc_event_signaled_data_t :=
  if data_len < MTK_BULK_DATA_COLLECTION_HEADER_SIZE then none
  else if header_differs data lpsig_header then none
  else
    match lpsig_unpack_buffer data (data_len % 2 ^ 8) with
    | none => none
    | some (n_sub_packets, packet_id) =>
      some { n_sub_packets := n_sub_packets, packet_id := packet_id,
             src := metadata.source_address, src_port := metadata.source_port }

/-! ## BDC request (`mtk_bdc_request.c`) -/

def lpreq_header : List Nat := [0xf2, 0x2a]

/-- Event data of `event_bdc_requested`. -/
structure mtk_bdc_event_requested_data_t where
  packet_id : Nat
  mask : Nat
  period_ms : Nat
  src : Nat
  src_port : Nat
deriving DecidableEq, Repr

/-- Function `lpreq_pack_buffer`: the 14 bytes written to `buffer`. -/
def lpreq_pack_buffer (packet_id mask period_ms : Nat) : List Nat :=
  lpreq_header ++ LITTLE_ENDIAN_STORE 2 packet_id ++ LITTLE_ENDIAN_STORE 8 mask ++
    LITTLE_ENDIAN_STORE 2 period_ms

/-- Function `lpreq_unpack_buffer`; `len` is the `uint8_t` parameter. The result is
`(packet_id, mask, period_ms)`. -/
def lpreq_unpack_buffer (buffer : List Nat) (len : Nat) : Option (Nat × Nat × Nat) :=
  if len ≠ 2 + 2 + 8 + 2 then none
  else
    let buffer := buffer.drop 2
    let packet_id := LITTLE_ENDIAN_LOAD 2 buffer
    let buffer := buffer.drop 2
    let mask := LITTLE_ENDIAN_LOAD 8 buffer
    let buffer := buffer.drop 8
    let period_ms := LITTLE_ENDIAN_LOAD 2 buffer
    some (packet_id, mask, period_ms)

/-- Function `mtk_bdcreq_handle_data`: the event posted, if any. `data_len` is a
`uint16_t`; it is converted to the `uint8_t` parameter of
`lpreq_unpack_buffer` at the call. -/
def mtk_bdcreq_handle_data (data : List Nat) (data_len : Nat)
    (metadata : mira_net_udp_callback_metadata_t) : Option mtk_bdc_event_requested_data_t :=
  if header_differs data lpreq_header then none
  else
    match lpreq_unpack_buffer data (data_len % 2 ^ 8) with
    | none => none
    | some (packet_id, mask, period) =>
      some { packet_id := packet_id, mask := mask, period_ms := period,
             src := metadata.source_address, src_port := metadata.source_port }

/-! ## BDC sub-packet (`mtk_bdc_subpacket.c`) -/

def lpsp_header : List Nat := [0x1f, 0xb3]

/-- Event data of `event_bdc_subpacket_received`. `payload` is the buffer the
event points to (the static buffer of `mtk_bdcsp_handle_data`), of which
`payload_len` bytes belong to the sub-packet. -/
structure mtk_bdc_event_subpacket_data_t where
  packet_id : Nat
  sub_packet_index : Nat
  n_sub_packets : Nat
  payload_len : Nat
  payload : List Nat
  src : Nat
  src_port : Nat
deriving DecidableEq, Repr

/-- Function `lpsp_pack_buffer`: the `8 + payload_len` bytes written to `buffer`. -/
def lpsp_pack_buffer (packet_id sub_packet_index n_sub_packets : Nat)
    (payload : List Nat) (payload_len : Nat) : List Nat :=
  lpsp_header ++ LITTLE_ENDIAN_STORE 2 packet_id ++ LITTLE_ENDIAN_STORE 1 sub_packet_index ++
    LITTLE_ENDIAN_STORE 1 n_sub_packets ++ LITTLE_ENDIAN_STORE 2 payload_len ++
    payload.take payload_len

/-- The out-parameters of `lpsp_unpack_buffer` when it returns `0`. `payload`
is the destination buffer after the copy. -/
structure lpsp_unpacked where
  packet_id : Nat
  sub_packet_index : Nat
  n_sub_packets : Nat
  payload_len : Nat
  payload : List Nat
deriving DecidableEq, Repr

/-- Function `lpsp_unpack_buffer`; `payload` is the destination buffer before the call,
`buf_len` the `uint16_t` parameter. The fields are loaded before the length is
checked. -/
def lpsp_unpack_buffer (payload : List Nat) (buffer : List Nat) (buf_len : Nat) :
    Option lpsp_unpacked :=
  let buffer := buffer.drop 2
  let packet_id := LITTLE_ENDIAN_LOAD 2 buffer
  let buffer := buffer.drop 2
  let sub_packet_index := LITTLE_ENDIAN_LOAD 1 buffer
  let buffer := buffer.drop 1
  let n_sub_packets := LITTLE_ENDIAN_LOAD 1 buffer
  let buffer := buffer.drop 1
  let payload_len := LITTLE_ENDIAN_LOAD 2 buffer
  let buffer := buffer.drop 2
  if buf_len ≠ 2 + 2 + 1 + 1 + 2 + payload_len then none
  else
    some { packet_id := packet_id, sub_packet_index := sub_packet_index,
           n_sub_packets := n_sub_packets, payload_len := payload_len,
           payload := memcpy payload buffer payload_len }

/-- Function `mtk_bdcsp_handle_data`: the event posted, if any. `payload` is the content
of the function's static payload buffer before the call. -/
def mtk_bdcsp_handle_data (payload : List Nat) (data : List Nat) (data_len : Nat)
    (metadata : mira_net_udp_callback_metadata_t) : Option mtk_bdc_event_subpacket_data_t :=
  if data_len < MTK_BULK_DATA_COLLECTION_HEADER_SIZE then none
  else if header_differs data lpsp_header then none
  else
    match lpsp_unpack_buffer payload data data_len with
    | none => none
    | some u =>
      some { packet_id := u.packet_id, sub_packet_index := u.sub_packet_index,
             n_sub_packets := u.n_sub_packets, payload_len := u.payload_len,
             payload := u.payload,
             src := metadata.source_address, src_port := metadata.source_port }

/-! ## Broadcast worker (`mtk_broadcast_worker.c`) -/

/-- Modelled from the spec: the state of a Trickle timer (`struct
mtk_trickle_timer` of `mtk_trickle_timer.h`, which is not among the sources):
`i_min`, `i_max`, `k`, the current interval `i_cur` (or the sentinel
*Stopped*), the count `c` of consistent hearings, `t_send` and `t_end`. -/
structure mtk_trickle_timer where
  i_min : Nat
  i_max : Nat
  k : Nat
  i_cur : Nat
  c : Nat
  t_send : Nat
  t_end : Nat
deriving DecidableEq, Repr

/-- The part of `mtk_trickle_timer.h` that the broadcast worker uses and whose
code is not among the sources, taken as a parameter: the sentinel
`MTK_TRICKLE_TIMER_IS_STOPPED` and the effect of
`mtk_trickle_timer_inconsistency` and `mtk_trickle_timer_consistency` on the
timer they are given. -/
structure trickle_timer_api where
  MTK_TRICKLE_TIMER_IS_STOPPED : Nat
  mtk_trickle_timer_inconsistency : mtk_trickle_timer → mtk_trickle_timer
  mtk_trickle_timer_consistency : mtk_trickle_timer → mtk_trickle_timer

/-- Modelled from the spec: a Trickle timer implementation following section
4.1, used to evaluate the worker on concrete inputs. `consistency` increments
`c`; `inconsistency` sets `i_cur = i_min` and restarts the interval when
`i_cur > i_min` and does nothing otherwise. The restart re-picks `t_send` and
`t_end` from the clock and the random generator, which are left out. -/
def spec_trickle_timer : trickle_timer_api where
  MTK_TRICKLE_TIMER_IS_STOPPED := 0
  mtk_trickle_timer_inconsistency := fun t =>
    if t.i_cur > t.i_min then { t with i_cur := t.i_min, c := 0 } else t
  mtk_trickle_timer_consistency := fun t => { t with c := t.c + 1 }

/-- Type `mtk_int_broadcast_worker_t`. The `next` pointer is the order of the list
of workers that starts at `broadcast_ctx_base`; `data` is the buffer the
`data` pointer refers to; `update_handler` and `storage` are kept as opaque
handles. -/
structure mtk_int_broadcast_worker_t where
  id : Nat
  version : Nat
  data : List Nat
  size : Nat
  timer : mtk_trickle_timer
  update_handler : Nat
  storage : Nat
deriving DecidableEq, Repr

/-- What a callback of the broadcast worker does besides changing the worker:
signals to the Trickle timer of an item, a call of an item's update handler
with its arguments, and a datagram handed to `mira_net_udp_send_to`. -/
inductive broadcast_effect where
  | inconsistency (id : Nat)
  | consistency (id : Nat)
  | update_handler (handler id : Nat) (data : List Nat) (size : Nat)
      (metadata : mira_net_udp_callback_metadata_t) (storage : Nat)
  | udp_send_to (addr port : Nat) (buf : List Nat) (len : Nat)
deriving DecidableEq, Repr

/-- The value of `(int32_t)x` for a `uint32_t` `x`. -/
def to_int32 (x : Nat) : Int :=
  if x % 2 ^ 32 < 2 ^ 31 then (x % 2 ^ 32 : Nat) else ((x % 2 ^ 32 : Nat) : Int) - 2 ^ 32

/-- The `uint32_t` difference `a - b`. -/
def sub_u32 (a b : Nat) : Nat :=
  (a % 2 ^ 32 + 2 ^ 32 - b % 2 ^ 32) % 2 ^ 32

/-- The little-endian `uint32_t` that `broadcast_udp_callback` assembles from
`data_u8[off] .. data_u8[off + 3]`. -/
def read_u32_le (data_u8 : List Nat) (off : Nat) : Nat :=
  ((data_u8.getD off 0 <<< 0) ||| (data_u8.getD (off + 1) 0 <<< 8) |||
    (data_u8.getD (off + 2) 0 <<< 16) ||| (data_u8.getD (off + 3) 0 <<< 24)) % 2 ^ 32

/-- The body of `broadcast_udp_callback` once the walk over the list has
stopped at `ctx` (lines 99-126): the worker after the call and the effects. -/
def broadcast_udp_input (api : trickle_timer_api) (ctx : mtk_int_broadcast_worker_t)
    (version : Nat) (data : List Nat) (data_len : Nat)
    (metadata : mira_net_udp_callback_metadata_t) :
    mtk_int_broadcast_worker_t × List broadcast_effect :=
  if ctx.timer.i_cur = api.MTK_TRICKLE_TIMER_IS_STOPPED then (ctx, [])
  else if to_int32 (sub_u32 version ctx.version) > 0 then
    let size := data_len - 8
    let ctx1 : mtk_int_broadcast_worker_t :=
      { ctx with version := version, size := size,
                 data := memcpy ctx.data (data.drop 8) size,
                 timer := api.mtk_trickle_timer_inconsistency ctx.timer }
    (ctx1, [broadcast_effect.inconsistency ctx1.id,
            broadcast_effect.update_handler ctx1.update_handler ctx1.id ctx1.data ctx1.size
              metadata ctx1.storage])
  else if version ≠ ctx.version then
    ({ ctx with timer := api.mtk_trickle_timer_inconsistency ctx.timer },
     [broadcast_effect.inconsistency ctx.id])
  else
    ({ ctx with timer := api.mtk_trickle_timer_consistency ctx.timer },
     [broadcast_effect.consistency ctx.id])

/-- The walk `while (ctx != NULL && ctx->id != id) ctx = ctx->next` of
`broadcast_udp_callback` over the list of workers, followed by the body on the
worker it stops at. -/
def broadcast_udp_walk (api : trickle_timer_api) (id version : Nat) (data : List Nat)
    (data_len : Nat) (metadata : mira_net_udp_callback_metadata_t) :
    List mtk_int_broadcast_worker_t → List mtk_int_broadcast_worker_t × List broadcast_effect
  | [] => ([], [])
  | ctx :: next =>
    if ctx.id ≠ id then
      let r := broadcast_udp_walk api id version data data_len metadata next
      (ctx :: r.1, r.2)
    else
      let r := broadcast_udp_input api ctx version data data_len metadata
      (r.1 :: next, r.2)

/-- Function `broadcast_udp_callback`: `broadcast_ctx_base` is the list of registered
workers, `data` and `data_len` the datagram. Returns the list of workers after
the call and the effects. -/
def broadcast_udp_callback (api : trickle_timer_api)
    (broadcast_ctx_base : List mtk_int_broadcast_worker_t) (data : List Nat) (data_len : Nat)
    (metadata : mira_net_udp_callback_metadata_t) :
    List mtk_int_broadcast_worker_t × List broadcast_effect :=
  if data_len < 8 then (broadcast_ctx_base, [])
  else
    let id := read_u32_le data 0
    let version := read_u32_le data 4
    broadcast_udp_walk api id version data data_len metadata broadcast_ctx_base

/-- The state of the network as returned by `mira_net_get_state` of the
network library: the worker only tests it against
`MIRA_NET_STATE_NOT_ASSOCIATED`, every other value is `other_state`. -/
inductive mira_net_state_t where
  | MIRA_NET_STATE_NOT_ASSOCIATED
  | other_state (code : Nat)
deriving DecidableEq, Repr

/-- Function `broadcast_trickle_callback`: `ctx` is the worker behind `ptr`, `supress`
the flag passed by the timer, `broadcast_dest_addr` and `broadcast_udp_port`
the globals set at initialisation and `net_state` the value of
`mira_net_get_state()`. The function changes nothing in `ctx`; the result is
the list of datagrams handed to `mira_net_udp_send_to`. The frame is built in
`buf[256]`, of which the first `8 + ctx->size` bytes are sent. -/
def broadcast_trickle_callback (broadcast_dest_addr broadcast_udp_port : Nat)
    (net_state : mira_net_state_t) (ctx : mtk_int_broadcast_worker_t) (supress : Nat) :
    List broadcast_effect :=
  if ctx.version = 0 then []
  else
    let buf : List Nat :=
      [(ctx.id >>> 0) &&& 0xff, (ctx.id >>> 8) &&& 0xff, (ctx.id >>> 16) &&& 0xff,
       (ctx.id >>> 24) &&& 0xff, (ctx.version >>> 0) &&& 0xff, (ctx.version >>> 8) &&& 0xff,
       (ctx.version >>> 16) &&& 0xff, (ctx.version >>> 24) &&& 0xff] ++ ctx.data.take ctx.size
    if net_state ≠ mira_net_state_t.MIRA_NET_STATE_NOT_ASSOCIATED then
      [broadcast_effect.udp_send_to broadcast_dest_addr broadcast_udp_port buf (8 + ctx.size)]
    else []

/-! ## Bulk data collection (`mtk_bulk_data_collection.c`) -/

/-- Type `mtk_bulk_data_collection_packet_t`; `payload` is the buffer the pointer
refers to (the source on the sender, the destination on the receiver). -/
structure mtk_bulk_data_collection_packet_t where
  payload : List Nat
  len : Nat
  node_addr : Nat
  node_port : Nat
  id : Nat
  period_ms : Nat
  mask : Nat
  num_sub_packets : Nat
deriving DecidableEq, Repr

/-- Type `sub_packet_t`; `payload` is `none` for `NULL` and otherwise the offset of
the pointer into the payload of the large packet. -/
structure sub_packet_t where
  index : Nat
  len : Nat
  payload : Option Nat
deriving DecidableEq, Repr

/-- What the bulk data collection processes do besides changing their state:
a datagram handed to `mira_net_udp_send_to` and the post of
`event_bdc_received`. -/
inductive bdc_effect where
  | udp_send_to (addr port : Nat) (buf : List Nat) (len : Nat)
  | post_event_bdc_received
deriving DecidableEq, Repr

def LP_MAX_NUM_RETRANSMISSION_REQUESTS : Int := 4

def FAULT_RATE_PERCENT : Nat := 0

def UINT64_MAX : Nat := 2 ^ 64 - 1

/-- Value of `(((uint64_t)1) << n) - 1` on 64 bits. -/
def low_bits_u64 (n : Nat) : Nat :=
  ((1 <<< n) % 2 ^ 64 + 2 ^ 64 - 1) % 2 ^ 64

/-- Function `mtk_bulk_data_collection_send_whole_mask_get`: the return value and the
value stored in `*mask`. -/
def mtk_bulk_data_collection_send_whole_mask_get (n_sub_packets : Nat) : Int × Nat :=
  if n_sub_packets > MTK_BULK_DATA_COLLECTION_MAX_NUMBER_OF_SUBPACKETS then (-1, 0)
  else if n_sub_packets = 64 then (0, UINT64_MAX)
  else (0, low_bits_u64 n_sub_packets)

/-- Function `mtk_bulk_data_collection_n_sub_packets_get`; the result is a `uint8_t`. -/
def mtk_bulk_data_collection_n_sub_packets_get (n_bytes : Nat) : Nat :=
  (n_bytes / MTK_BULK_DATA_COLLECTION_SUBPACKET_MAX_BYTES +
    (if n_bytes % MTK_BULK_DATA_COLLECTION_SUBPACKET_MAX_BYTES > 0 then 1 else 0)) % 2 ^ 8

/-- Function `mtk_bulk_data_collection_register_tx`: the return value and the large
packet after the call. `payload` is `none` for a `NULL` pointer. -/
def mtk_bulk_data_collection_register_tx (large_packet : mtk_bulk_data_collection_packet_t)
    (packet_id : Nat) (payload : Option (List Nat)) (len : Nat) :
    Int × mtk_bulk_data_collection_packet_t :=
  match payload with
  | none => (-1, large_packet)
  | some payload =>
    if len = 0 then (-1, large_packet)
    else if len > MTK_BULK_DATA_COLLECTION_SUBPACKET_MAX_BYTES *
        MTK_BULK_DATA_COLLECTION_MAX_NUMBER_OF_SUBPACKETS then (-1, large_packet)
    else
      (0, { large_packet with
              payload := payload, len := len, id := packet_id,
              num_sub_packets :=
                (len / MTK_BULK_DATA_COLLECTION_SUBPACKET_MAX_BYTES +
                  (if len % MTK_BULK_DATA_COLLECTION_SUBPACKET_MAX_BYTES ≠ 0 then 1 else 0))
                  % 2 ^ 8 })

/-- The `for` loop of `pick_next_to_send` from index `i` on; the first argument
bounds the number of iterations left (the loop stops at `i = 64`). -/
def pick_next_to_send_loop (lp : mtk_bulk_data_collection_packet_t) :
    Nat → Nat → sub_packet_t → sub_packet_t
  | 0, _, sp => sp
  | fuel + 1, i, sp =>
    if sp.payload = none ∧ i < MTK_BULK_DATA_COLLECTION_MAX_NUMBER_OF_SUBPACKETS ∧
        i < lp.num_sub_packets then
      let sp1 : sub_packet_t :=
        if ((1 <<< i) % 2 ^ 64) &&& lp.mask ≠ 0 then
          { index := i,
            payload := some (i * MTK_BULK_DATA_COLLECTION_SUBPACKET_MAX_BYTES),
            len :=
              if i = lp.num_sub_packets - 1 then
                if lp.len % MTK_BULK_DATA_COLLECTION_SUBPACKET_MAX_BYTES = 0 then
                  MTK_BULK_DATA_COLLECTION_SUBPACKET_MAX_BYTES
                else lp.len % MTK_BULK_DATA_COLLECTION_SUBPACKET_MAX_BYTES
              else MTK_BULK_DATA_COLLECTION_SUBPACKET_MAX_BYTES }
        else sp
      pick_next_to_send_loop lp fuel (i + 1) sp1
    else sp

/-- Function `pick_next_to_send`: the sub-packet starts zero-initialised with a `NULL`
payload. -/
def pick_next_to_send (lp : mtk_bulk_data_collection_packet_t) : sub_packet_t :=
  pick_next_to_send_loop lp MTK_BULK_DATA_COLLECTION_MAX_NUMBER_OF_SUBPACKETS 0
    { index := 0, len := 0, payload := none }

/-- Function `mtk_bdcsp_send`: the return value and the datagram handed to
`mira_net_udp_send_to`, whose outcome is `send_ok` (`MIRA_SUCCESS` or not).
`data` is the memory that the `data` pointer refers to. -/
def mtk_bdcsp_send (send_ok : Bool) (dst dst_port packet_id sub_packet_index n_sub_packets : Nat)
    (data : List Nat) (data_len : Nat) : Int × List bdc_effect :=
  let sub_packet_frame :=
    lpsp_pack_buffer packet_id sub_packet_index n_sub_packets data data_len
  (if send_ok then 0 else -1,
   [bdc_effect.udp_send_to dst dst_port sub_packet_frame (2 + 2 + 1 + 1 + 2 + data_len)])

/-- Function `next_sub_packet_send`: the return value, the large packet after the call
and the effects. `udp_connection` tells whether `large_packet_udp_connection`
is set (not `NULL`). -/
def next_sub_packet_send (udp_connection send_ok : Bool)
    (large_packet : mtk_bulk_data_collection_packet_t) :
    Int × mtk_bulk_data_collection_packet_t × List bdc_effect :=
  if ¬ udp_connection then (-1, large_packet, [])
  else
    let sub_packet := pick_next_to_send large_packet
    if sub_packet.len > MTK_BULK_DATA_COLLECTION_SUBPACKET_MAX_BYTES then (-1, large_packet, [])
    else
      let r := mtk_bdcsp_send send_ok large_packet.node_addr large_packet.node_port
        large_packet.id sub_packet.index large_packet.num_sub_packets
        (match sub_packet.payload with
         | none => []
         | some off => large_packet.payload.drop off)
        sub_packet.len
      if r.1 ≥ 0 then
        (r.1, { large_packet with
                  mask := large_packet.mask &&&
                    (UINT64_MAX - (1 <<< sub_packet.index) % 2 ^ 64) }, r.2)
      else (r.1, large_packet, r.2)

/-- The `while` loop of `mtk_bulk_data_collection_send_proc`, one iteration per
expiry of the pacing timer. `send_ok k` is the outcome of the `k`-th call of
`mira_net_udp_send_to`, `step` the number of the next call. The first argument
bounds the number of iterations; `none` means that the loop has not left
within that bound. -/
def send_proc_loop (udp_connection : Bool) (send_ok : Nat → Bool) :
    Nat → Nat → mtk_bulk_data_collection_packet_t → Int →
    Option (mtk_bulk_data_collection_packet_t × Int × List bdc_effect)
  | 0, _, large_packet, sub_packet_send_status =>
    if large_packet.mask ≠ 0 ∧ sub_packet_send_status ≥ 0 then none
    else some (large_packet, sub_packet_send_status, [])
  | fuel + 1, step, large_packet, sub_packet_send_status =>
    if large_packet.mask ≠ 0 ∧ sub_packet_send_status ≥ 0 then
      let r := next_sub_packet_send udp_connection (send_ok step) large_packet
      match send_proc_loop udp_connection send_ok fuel (step + 1) r.2.1 r.1 with
      | none => none
      | some (lp, status, effects) => some (lp, status, r.2.2 ++ effects)
    else some (large_packet, sub_packet_send_status, [])

/-- Process `mtk_bulk_data_collection_send_proc` started on `large_packet`: the large
packet when the process ends, the value of `large_packet_currently_sending`
then, and the effects. -/
def mtk_bulk_data_collection_send_proc (udp_connection : Bool) (send_ok : Nat → Bool)
    (fuel : Nat) (large_packet : mtk_bulk_data_collection_packet_t) :
    Option (mtk_bulk_data_collection_packet_t × Bool × List bdc_effect) :=
  match send_proc_loop udp_connection send_ok fuel 0 large_packet 0 with
  | none => none
  | some (lp, _, effects) => some (lp, false, effects)

/-- The sender between two events: the flag `large_packet_currently_sending`
and, when the send process is waiting at
`PROCESS_WAIT_EVENT_UNTIL(etimer_expired(&timer))`, the large packet behind its
static pointer `large_packet` together with its `sub_packet_send_status`
(`none` when the process is not running). -/
structure send_proc_state where
  large_packet_currently_sending : Bool
  waiting : Option (mtk_bulk_data_collection_packet_t × Int)
deriving DecidableEq, Repr

/-- The sender after `mtk_bulk_data_collection_init`: the flag is cleared and
the process has not been started. -/
def send_proc_state_start : send_proc_state :=
  { large_packet_currently_sending := false, waiting := none }

/-- Process `mtk_bulk_data_collection_send_proc` from the test of its `while`
condition to its next wait or to its end: either one call of
`next_sub_packet_send` after which the process waits for the pacing timer, or
the lines after the loop, which clear `large_packet_currently_sending`.
Returns the sender, the large packet and the effects. -/
def send_proc_while (udp_connection send_ok : Bool) (currently_sending : Bool)
    (large_packet : mtk_bulk_data_collection_packet_t) (sub_packet_send_status : Int) :
    send_proc_state × mtk_bulk_data_collection_packet_t × List bdc_effect :=
  if large_packet.mask ≠ 0 ∧ sub_packet_send_status ≥ 0 then
    let r := next_sub_packet_send udp_connection send_ok large_packet
    ({ large_packet_currently_sending := currently_sending, waiting := some (r.2.1, r.1) },
     r.2.1, r.2.2)
  else ({ large_packet_currently_sending := false, waiting := none }, large_packet, [])

/-- Process `mtk_bulk_data_collection_send_proc` from `PROCESS_BEGIN` to its
first wait or to its end, which is what `process_start` runs before it
returns: the flag is set, the status is 0, then the loop is entered. -/
def send_proc_begin (udp_connection send_ok : Bool)
    (large_packet : mtk_bulk_data_collection_packet_t) :
    send_proc_state × mtk_bulk_data_collection_packet_t × List bdc_effect :=
  send_proc_while udp_connection send_ok true large_packet 0

/-- The expiry of the pacing timer: the waiting process goes on from the test
of the `while` condition; nothing happens when no process is waiting. -/
def send_proc_timer_expired (udp_connection send_ok : Bool) (s : send_proc_state) :
    send_proc_state × List bdc_effect :=
  match s.waiting with
  | none => (s, [])
  | some (large_packet, sub_packet_send_status) =>
    let r := send_proc_while udp_connection send_ok s.large_packet_currently_sending
      large_packet sub_packet_send_status
    (r.1, r.2.2)

/-- Function `mtk_bulk_data_collection_send`: the return value, the sender, the
passed large packet and the effects after the call. `process_exit` removes a
process that is waiting, `process_start` runs the new one up to its first
wait; `send_ok` is the outcome of the `mira_net_udp_send_to` call made
there. -/
def mtk_bulk_data_collection_send (udp_connection send_ok : Bool) (s : send_proc_state)
    (large_packet : mtk_bulk_data_collection_packet_t) :
    Int × send_proc_state × mtk_bulk_data_collection_packet_t × List bdc_effect :=
  if s.large_packet_currently_sending then (-1, s, large_packet, [])
  else
    let r := send_proc_begin udp_connection send_ok large_packet
    (0, r.1, r.2.1, r.2.2)

/-- What happens to the sender: a call of `mtk_bulk_data_collection_send` or the
expiry of the pacing timer, each with the outcome of the send it makes. -/
inductive sender_event where
  | send (large_packet : mtk_bulk_data_collection_packet_t) (send_ok : Bool)
  | timer_expired (send_ok : Bool)
deriving DecidableEq, Repr

/-- The sender after one event. -/
def sender_step (udp_connection : Bool) (s : send_proc_state) : sender_event → send_proc_state
  | sender_event.send large_packet send_ok =>
    (mtk_bulk_data_collection_send udp_connection send_ok s large_packet).2.1
  | sender_event.timer_expired send_ok => (send_proc_timer_expired udp_connection send_ok s).1

/-- The sender after a sequence of events. -/
def sender_run (udp_connection : Bool) : send_proc_state → List sender_event → send_proc_state
  | s, [] => s
  | s, e :: es => sender_run udp_connection (sender_step udp_connection s e) es

/-- Function `mtk_bdcreq_send`: the return value and the datagram handed to
`mira_net_udp_send_to`, whose outcome is `send_ok`. -/
def mtk_bdcreq_send (send_ok : Bool) (dst dst_port packet_id sub_packet_mask
    sub_packet_period_ms : Nat) : Int × List bdc_effect :=
  (if send_ok then 0 else -1,
   [bdc_effect.udp_send_to dst dst_port
      (lpreq_pack_buffer packet_id sub_packet_mask sub_packet_period_ms) (2 + 2 + 8 + 2)])

/-- Function `request_for_missing_subpackets`. -/
def request_for_missing_subpackets (send_ok : Bool) (lp : mtk_bulk_data_collection_packet_t) :
    List bdc_effect :=
  let received_mask := lp.mask
  let new_request_mask := received_mask ^^^ UINT64_MAX
  let new_request_mask :=
    if lp.num_sub_packets < 64 then new_request_mask &&& low_bits_u64 lp.num_sub_packets
    else new_request_mask
  (mtk_bdcreq_send send_ok lp.node_addr lp.node_port lp.id new_request_mask lp.period_ms).2

/-- Function `lp_fault_injected` for the draw `random` of `mira_random_generate()`. -/
def lp_fault_injected (random : Nat) : Bool :=
  decide (random < FAULT_RATE_PERCENT * (2 ^ 16 - 1) / 100)

/-- What wakes `mtk_bulk_data_collection_receive_proc` from its wait: the
timeout timer has expired (whatever the event), or it has not and the event is
`event_bdc_subpacket_received` with data `ed`; `random` is the draw of
`mira_random_generate()` in `lp_fault_injected` and `send_ok` the outcome of
`mira_net_udp_send_to` in the request. -/
inductive receive_event where
  | timeout (send_ok : Bool)
  | subpacket (ed : mtk_bdc_event_subpacket_data_t) (random : Nat)
deriving DecidableEq, Repr

/-- Where `mtk_bulk_data_collection_receive_proc` stands: waiting in its loop,
left through `PROCESS_EXIT()` (no event posted), or ended after the loop with
`event_bdc_received` posted. -/
inductive receive_status where
  | waiting
  | exited
  | ended
deriving DecidableEq, Repr

/-- The static variables of `mtk_bulk_data_collection_receive_proc` together
with the large packet `lp` points to. -/
structure receive_proc_state where
  lp : mtk_bulk_data_collection_packet_t
  re_tx_requests_left : Int
  status : receive_status
deriving DecidableEq, Repr

/-- Process `mtk_bulk_data_collection_receive_proc` at its start on `lp`. -/
def receive_proc_start (lp : mtk_bulk_data_collection_packet_t) : receive_proc_state :=
  { lp := lp, re_tx_requests_left := LP_MAX_NUM_RETRANSMISSION_REQUESTS,
    status := receive_status.waiting }

/-- One pass of the `while (!rx_done)` loop of
`mtk_bulk_data_collection_receive_proc` on the event that wakes it, followed by
the post of `event_bdc_received` when the loop is left. A shift of a 64-bit
value by 64 or more is taken to give 0. -/
def receive_proc_step (s : receive_proc_state) (e : receive_event) :
    receive_proc_state × List bdc_effect :=
  match s.status with
  | receive_status.waiting =>
    match e with
    | receive_event.timeout send_ok =>
      if s.re_tx_requests_left > 0 then
        ({ s with re_tx_requests_left := s.re_tx_requests_left - 1 },
         request_for_missing_subpackets send_ok s.lp)
      else ({ s with status := receive_status.exited }, [])
    | receive_event.subpacket ed random =>
      if lp_fault_injected random then (s, [])
      else if ed.packet_id ≠ s.lp.id then ({ s with status := receive_status.exited }, [])
      else
        let sub_packet_received_mask_bit := (1 <<< ed.sub_packet_index) % 2 ^ 64
        if s.lp.mask &&& sub_packet_received_mask_bit ≠ 0 then (s, [])
        else
          let offset_in_dst_payload :=
            (ed.sub_packet_index * MTK_BULK_DATA_COLLECTION_SUBPACKET_MAX_BYTES) % 2 ^ 16
          let lp1 : mtk_bulk_data_collection_packet_t :=
            { s.lp with
                mask := s.lp.mask ||| sub_packet_received_mask_bit,
                payload := memcpy_at s.lp.payload offset_in_dst_payload ed.payload ed.payload_len,
                len := (s.lp.len + ed.payload_len) % 2 ^ 16 }
          let all_done_mask :=
            if ed.n_sub_packets = 64 then UINT64_MAX else low_bits_u64 ed.n_sub_packets
          if lp1.mask = all_done_mask then
            ({ s with lp := lp1, status := receive_status.ended },
             [bdc_effect.post_event_bdc_received])
          else ({ s with lp := lp1 }, [])
  | _ => (s, [])

/-- The receive process run over a list of events, with the effects in order. -/
def receive_proc_run (s : receive_proc_state) :
    List receive_event → receive_proc_state × List bdc_effect
  | [] => (s, [])
  | e :: es =>
    let r := receive_proc_step s e
    let r2 := receive_proc_run r.1 es
    (r2.1, r.2 ++ r2.2)

/-- A sub-packet datagram received on the UDP connection and handed on as an
event: `mtk_bdcsp_handle_data` on the datagram, with `payload` the content of
its static buffer, and the event it posts waking the receive process. -/
def subpacket_frame_event (payload : List Nat) (metadata : mira_net_udp_callback_metadata_t)
    (random : Nat) (frame : List Nat) : Option receive_event :=
  (mtk_bdcsp_handle_data payload frame frame.length metadata).map
    fun ed => receive_event.subpacket ed random

/-! ## A transfer: the sender's datagrams delivered to the receive process -/

/-- The datagrams among the effects of a process, in the order sent. -/
def sent_frames : List bdc_effect → List (List Nat)
  | [] => []
  | bdc_effect.udp_send_to _ _ buf _ :: effects => buf :: sent_frames effects
  | bdc_effect.post_event_bdc_received :: effects => sent_frames effects

/-- Datagrams arriving one after the other on the receiver: each goes through
`mtk_bdcsp_handle_data` (whose static payload buffer holds `payload` before
the first one) and the event posted, if any, wakes the receive process before
the next datagram arrives. A delivery is a datagram with the draw of
`mira_random_generate()` made when its event is handled. The result is the
static payload buffer, the state of the receive process and its effects. -/
def deliver_subpacket_frames (metadata : mira_net_udp_callback_metadata_t) :
    List Nat → receive_proc_state → List (List Nat × Nat) →
    List Nat × receive_proc_state × List bdc_effect
  | payload, s, [] => (payload, s, [])
  | payload, s, (frame, random) :: rest =>
    match mtk_bdcsp_handle_data payload frame frame.length metadata with
    | none => deliver_subpacket_frames metadata payload s rest
    | some ed =>
      let r := receive_proc_step s (receive_event.subpacket ed random)
      let r2 := deliver_subpacket_frames metadata ed.payload r.1 rest
      (r2.1, r2.2.1, r.2 ++ r2.2.2)

/-! ## Broadcast item table (`mtk_broadcast.c`) and worker registration -/

/-- The rest of `mtk_trickle_timer.h` that the worker calls and whose code is
not among the sources, taken as a parameter: the effect of
`mtk_trickle_timer_config`, `mtk_trickle_timer_set`, `mtk_trickle_timer_stop`
and `mtk_trickle_timer_reset_event` on the timer they are given (the callback
and context handed to `set` are always `broadcast_trickle_callback` and the
worker), and the number `CLOCK_SECOND` of clock ticks per second. -/
structure trickle_timer_ops where
  CLOCK_SECOND : Nat
  mtk_trickle_timer_config : mtk_trickle_timer → Nat → Nat → Nat → mtk_trickle_timer
  mtk_trickle_timer_set : mtk_trickle_timer → mtk_trickle_timer
  mtk_trickle_timer_stop : mtk_trickle_timer → mtk_trickle_timer
  mtk_trickle_timer_reset_event : mtk_trickle_timer → mtk_trickle_timer

/-- Modelled from the spec: the timer operations of section 4.1 that go with
`spec_trickle_timer`. `config` sets the parameters and leaves the timer
stopped, `set` and `reset_event` start an interval of length `i_min` with
`c = 0`, `stop` sets `i_cur` to the sentinel. The choice of `t_send` and
`t_end` from the clock and the random generator is left out. -/
def spec_trickle_timer_ops : trickle_timer_ops where
  CLOCK_SECOND := 128
  mtk_trickle_timer_config := fun t i_min i_max k =>
    { t with i_min := i_min, i_max := i_max, k := k, i_cur := 0 }
  mtk_trickle_timer_set := fun t => { t with i_cur := t.i_min, c := 0 }
  mtk_trickle_timer_stop := fun t => { t with i_cur := 0 }
  mtk_trickle_timer_reset_event := fun t => { t with i_cur := t.i_min, c := 0 }

def MTK_INT_BROADCAST_TRICKLE_IMAX : Nat := 6
def MTK_INT_BROADCAST_TRICKLE_K : Nat := 3
def MTK_INT_BROADCAST_VERSION_INCREMENT : Nat := 0x10000
def MTK_BROADCAST_NUM_CTX : Nat := 4

/-- Type `mtk_broadcast_status_t`. -/
inductive mtk_broadcast_status_t where
  | MTK_BROADCAST_SUCCESS
  | MTK_BROADCAST_ERROR_NO_MEMORY
  | MTK_BROADCAST_ERROR_INTERNAL
  | MTK_BROADCAST_ERROR_NOT_INITIALIZED
deriving DecidableEq, Repr

/-- A slot of a static array before anything is written to it: all zero, the
`data` pointer `NULL`. -/
def zero_worker : mtk_int_broadcast_worker_t :=
  { id := 0, version := 0, data := [], size := 0,
    timer := { i_min := 0, i_max := 0, k := 0, i_cur := 0, c := 0, t_send := 0, t_end := 0 },
    update_handler := 0, storage := 0 }

/-- The file-scope variables of `mtk_broadcast.c` and `mtk_broadcast_worker.c`:
the array `broadcast_ctx` of `MTK_BROADCAST_NUM_CTX` slots, the count
`broadcast_num_ctx`, the linked list that starts at `broadcast_ctx_base`
(given as the indices of the slots it links, head first, since every worker
on it is a slot of the array), `broadcast_net_initialized`, the destination
address and port, and `udp_connection` (`none` for `NULL`). -/
structure broadcast_state where
  broadcast_ctx : List mtk_int_broadcast_worker_t
  broadcast_num_ctx : Nat
  broadcast_ctx_base : List Nat
  broadcast_net_initialized : Bool
  broadcast_dest_addr : Nat
  broadcast_udp_port : Nat
  udp_connection : Option Nat
deriving DecidableEq, Repr

/-- The state of the two files at program start. -/
def broadcast_state_start : broadcast_state :=
  { broadcast_ctx := List.replicate 4 zero_worker, broadcast_num_ctx := 0,
    broadcast_ctx_base := [], broadcast_net_initialized := false,
    broadcast_dest_addr := 0, broadcast_udp_port := 0, udp_connection := none }

/-- The worker `broadcast_ctx[i]`. -/
def ctx_at (s : broadcast_state) (i : Nat) : mtk_int_broadcast_worker_t :=
  s.broadcast_ctx.getD i zero_worker

/-- The workers on the list that starts at `broadcast_ctx_base`, head first:
the list that `broadcast_udp_callback` walks. -/
def routed_items (s : broadcast_state) : List mtk_int_broadcast_worker_t :=
  s.broadcast_ctx_base.map (ctx_at s)

/-- Function `mtk_int_broadcast_worker_init_net`: `bind_result` is what
`mira_net_udp_bind_address` returns (`none` for `NULL`) and `join_ok` whether
`mira_net_udp_multicast_group_join` returns `MIRA_SUCCESS`. -/
def mtk_int_broadcast_worker_init_net (s : broadcast_state)
    (broadcast_addr broadcast_port : Nat) (bind_result : Option Nat) (join_ok : Bool) :
    Int × broadcast_state :=
  if s.broadcast_net_initialized then (0, s)
  else
    let s1 := { s with broadcast_dest_addr := broadcast_addr,
                       broadcast_udp_port := broadcast_port,
                       udp_connection := bind_result }
    match bind_result with
    | none => (-1, s1)
    | some _ =>
      if ¬ join_ok then (-1, s1)
      else (0, { s1 with broadcast_net_initialized := true })

/-- Function `mtk_int_broadcast_worker_register`; `ctx` is `none` for `NULL` and
otherwise the index of the slot the pointer refers to. -/
def mtk_int_broadcast_worker_register (ops : trickle_timer_ops) (s : broadcast_state)
    (ctx : Option Nat) (id : Nat) (data : List Nat) (size update_handler storage : Nat) :
    Int × broadcast_state :=
  match ctx with
  | none => (-1, s)
  | some p =>
    if ¬ s.broadcast_net_initialized then (-1, s)
    else
      let timer := ops.mtk_trickle_timer_set
        (ops.mtk_trickle_timer_config (ctx_at s p).timer (ops.CLOCK_SECOND / 8)
          MTK_INT_BROADCAST_TRICKLE_IMAX MTK_INT_BROADCAST_TRICKLE_K)
      let c : mtk_int_broadcast_worker_t :=
        { id := id, version := 0, data := data, size := size, timer := timer,
          update_handler := update_handler, storage := storage }
      (0, { s with broadcast_ctx := s.broadcast_ctx.set p c,
                   broadcast_ctx_base := p :: s.broadcast_ctx_base })

/-- Function `mtk_int_broadcast_worker_update`; `data` is the memory the `data`
pointer refers to and `random` the draw of `mira_random_generate()`. -/
def mtk_int_broadcast_worker_update (ops : trickle_timer_ops) (s : broadcast_state)
    (ctx : Option Nat) (data : List Nat) (size random : Nat) : Int × broadcast_state :=
  match ctx with
  | none => (-1, s)
  | some p =>
    let c := ctx_at s p
    let version := (c.version + MTK_INT_BROADCAST_VERSION_INCREMENT) % 2 ^ 32
    let version := (version + random % MTK_INT_BROADCAST_VERSION_INCREMENT) % 2 ^ 32
    let version := if version = 0 then 1 else version
    let c1 : mtk_int_broadcast_worker_t :=
      { c with data := memcpy c.data data size, size := size, version := version,
               timer := ops.mtk_trickle_timer_reset_event c.timer }
    (0, { s with broadcast_ctx := s.broadcast_ctx.set p c1 })

/-- Function `mtk_int_broadcast_worker_pause`. -/
def mtk_int_broadcast_worker_pause (ops : trickle_timer_ops) (s : broadcast_state)
    (ctx : Option Nat) : Int × broadcast_state :=
  match ctx with
  | none => (-1, s)
  | some p =>
    let c := ctx_at s p
    if c.id = 0 then (-1, s)
    else
      (0, { s with broadcast_ctx :=
              s.broadcast_ctx.set p { c with timer := ops.mtk_trickle_timer_stop c.timer } })

/-- Function `mtk_int_broadcast_worker_resume`. -/
def mtk_int_broadcast_worker_resume (api : trickle_timer_api) (ops : trickle_timer_ops)
    (s : broadcast_state) (ctx : Option Nat) : Int × broadcast_state :=
  match ctx with
  | none => (-1, s)
  | some p =>
    let c := ctx_at s p
    if c.id = 0 then (-1, s)
    else if c.timer.i_cur ≠ api.MTK_TRICKLE_TIMER_IS_STOPPED then (-1, s)
    else
      (0, { s with broadcast_ctx :=
              s.broadcast_ctx.set p { c with timer := ops.mtk_trickle_timer_set c.timer } })

/-- Function `mtk_broadcast_init`. -/
def mtk_broadcast_init (s : broadcast_state) (broadcast_addr broadcast_udp_port : Nat)
    (bind_result : Option Nat) (join_ok : Bool) : mtk_broadcast_status_t × broadcast_state :=
  let r := mtk_int_broadcast_worker_init_net s broadcast_addr broadcast_udp_port bind_result
    join_ok
  if r.1 ≠ 0 then (mtk_broadcast_status_t.MTK_BROADCAST_ERROR_INTERNAL, r.2)
  else (mtk_broadcast_status_t.MTK_BROADCAST_SUCCESS, r.2)

/-- Function `mtk_broadcast_register`. -/
def mtk_broadcast_register (ops : trickle_timer_ops) (s : broadcast_state)
    (data_id : Nat) (data : List Nat) (size update_handler storage : Nat) :
    mtk_broadcast_status_t × broadcast_state :=
  if s.broadcast_num_ctx ≥ MTK_BROADCAST_NUM_CTX then
    (mtk_broadcast_status_t.MTK_BROADCAST_ERROR_NO_MEMORY, s)
  else
    let ctx := s.broadcast_num_ctx
    let s1 := { s with broadcast_num_ctx := s.broadcast_num_ctx + 1 }
    let r := mtk_int_broadcast_worker_register ops s1 (some ctx) data_id data size
      update_handler storage
    if r.1 ≠ 0 then (mtk_broadcast_status_t.MTK_BROADCAST_ERROR_INTERNAL, r.2)
    else (mtk_broadcast_status_t.MTK_BROADCAST_SUCCESS, r.2)

/-- The loop `for (i = 0; i < broadcast_num_ctx; i++)` of `mtk_broadcast_update`,
`mtk_broadcast_pause` and `mtk_broadcast_resume` up to its `return`: the first
index whose slot has the id `data_id`, if there is one. -/
def broadcast_ctx_find (s : broadcast_state) (data_id : Nat) : Option Nat :=
  (List.range s.broadcast_num_ctx).find? fun i => (ctx_at s i).id == data_id

/-- Function `mtk_broadcast_update`. -/
def mtk_broadcast_update (ops : trickle_timer_ops) (s : broadcast_state)
    (data_id : Nat) (data : List Nat) (size random : Nat) :
    mtk_broadcast_status_t × broadcast_state :=
  match broadcast_ctx_find s data_id with
  | some i =>
    let r := mtk_int_broadcast_worker_update ops s (some i) data size random
    if r.1 ≠ 0 then (mtk_broadcast_status_t.MTK_BROADCAST_ERROR_INTERNAL, r.2)
    else (mtk_broadcast_status_t.MTK_BROADCAST_SUCCESS, r.2)
  | none => (mtk_broadcast_status_t.MTK_BROADCAST_ERROR_NOT_INITIALIZED, s)

/-- Function `mtk_broadcast_pause`. -/
def mtk_broadcast_pause (ops : trickle_timer_ops) (s : broadcast_state) (data_id : Nat) :
    mtk_broadcast_status_t × broadcast_state :=
  match broadcast_ctx_find s data_id with
  | some i =>
    let r := mtk_int_broadcast_worker_pause ops s (some i)
    if r.1 ≠ 0 then (mtk_broadcast_status_t.MTK_BROADCAST_ERROR_INTERNAL, r.2)
    else (mtk_broadcast_status_t.MTK_BROADCAST_SUCCESS, r.2)
  | none => (mtk_broadcast_status_t.MTK_BROADCAST_ERROR_NOT_INITIALIZED, s)

/-- Function `mtk_broadcast_resume`. -/
def mtk_broadcast_resume (api : trickle_timer_api) (ops : trickle_timer_ops)
    (s : broadcast_state) (data_id : Nat) : mtk_broadcast_status_t × broadcast_state :=
  match broadcast_ctx_find s data_id with
  | some i =>
    let r := mtk_int_broadcast_worker_resume api ops s (some i)
    if r.1 ≠ 0 then (mtk_broadcast_status_t.MTK_BROADCAST_ERROR_INTERNAL, r.2)
    else (mtk_broadcast_status_t.MTK_BROADCAST_SUCCESS, r.2)
  | none => (mtk_broadcast_status_t.MTK_BROADCAST_ERROR_NOT_INITIALIZED, s)

/-- A call of the host into `mtk_broadcast.c` during start-up, with the
outcome of the network calls it makes. -/
inductive broadcast_call where
  | init (broadcast_addr broadcast_udp_port : Nat) (bind_result : Option Nat) (join_ok : Bool)
  | register (data_id : Nat) (data : List Nat) (size update_handler storage : Nat)
deriving DecidableEq, Repr

/-- The state after one call. -/
def broadcast_call_step (ops : trickle_timer_ops) (s : broadcast_state) :
    broadcast_call → broadcast_state
  | broadcast_call.init a p b j => (mtk_broadcast_init s a p b j).2
  | broadcast_call.register i d sz h st => (mtk_broadcast_register ops s i d sz h st).2

/-- The state after a sequence of calls. -/
def broadcast_run (ops : trickle_timer_ops) : broadcast_state → List broadcast_call →
    broadcast_state
  | s, [] => s
  | s, c :: cs => broadcast_run ops (broadcast_call_step ops s c) cs

/-- The `data_id` arguments of the `mtk_broadcast_register` calls of a sequence,
in order. -/
def registered_ids : List broadcast_call → List Nat
  | [] => []
  | broadcast_call.init _ _ _ _ :: cs => registered_ids cs
  | broadcast_call.register i _ _ _ _ :: cs => i :: registered_ids cs

/-- Function `broadcast_udp_callback` on the state of the two files: the walk
follows the list from `broadcast_ctx_base` to the first worker with the id of
the datagram, and the body (`broadcast_udp_input`) writes to that slot of the
table. -/
def broadcast_udp_callback_state (api : trickle_timer_api) (s : broadcast_state)
    (data : List Nat) (data_len : Nat) (metadata : mira_net_udp_callback_metadata_t) :
    broadcast_state × List broadcast_effect :=
  if data_len < 8 then (s, [])
  else
    match s.broadcast_ctx_base.find? fun p => (ctx_at s p).id == read_u32_le data 0 with
    | none => (s, [])
    | some p =>
      let r := broadcast_udp_input api (ctx_at s p) (read_u32_le data 4) data data_len metadata
      ({ s with broadcast_ctx := s.broadcast_ctx.set p r.1 }, r.2)

/-- What happens to the broadcast table while the program runs: a call of the
host into `mtk_broadcast.c`, or a datagram handed to `broadcast_udp_callback`. -/
inductive broadcast_event where
  | init (broadcast_addr broadcast_udp_port : Nat) (bind_result : Option Nat) (join_ok : Bool)
  | register (data_id : Nat) (data : List Nat) (size update_handler storage : Nat)
  | update (data_id : Nat) (data : List Nat) (size random : Nat)
  | pause (data_id : Nat)
  | resume (data_id : Nat)
  | udp_input (data : List Nat) (data_len : Nat) (metadata : mira_net_udp_callback_metadata_t)
deriving DecidableEq, Repr

/-- The state after one event. -/
def broadcast_event_step (api : trickle_timer_api) (ops : trickle_timer_ops)
    (s : broadcast_state) : broadcast_event → broadcast_state
  | broadcast_event.init a p b j => (mtk_broadcast_init s a p b j).2
  | broadcast_event.register i d sz h st => (mtk_broadcast_register ops s i d sz h st).2
  | broadcast_event.update i d sz r => (mtk_broadcast_update ops s i d sz r).2
  | broadcast_event.pause i => (mtk_broadcast_pause ops s i).2
  | broadcast_event.resume i => (mtk_broadcast_resume api ops s i).2
  | broadcast_event.udp_input d n m => (broadcast_udp_callback_state api s d n m).1

/-- The state after a sequence of events. -/
def broadcast_event_run (api : trickle_timer_api) (ops : trickle_timer_ops) :
    broadcast_state → List broadcast_event → broadcast_state
  | s, [] => s
  | s, e :: es => broadcast_event_run api ops (broadcast_event_step api ops s e) es

/-! ## Concrete inputs on which the theorems are evaluated -/

/-- A running Trickle timer at its minimum interval. -/
def example_timer : mtk_trickle_timer :=
  { i_min := 16, i_max := 6, k := 3, i_cur := 16, c := 0, t_send := 12, t_end := 16 }

/-- Node A of scenario S2: version `0x20000`, value `"X"`. -/
def example_item_x : mtk_int_broadcast_worker_t :=
  { id := 0xDEADBEEF, version := 0x20000, data := [88], size := 1, timer := example_timer,
    update_handler := 1, storage := 0 }

/-- Node A of scenario S1 after its update: value `"BBBB"`. -/
def example_item_b : mtk_int_broadcast_worker_t :=
  { id := 0xDEADBEEF, version := 0x10007, data := [66, 66, 66, 66], size := 4,
    timer := example_timer, update_handler := 1, storage := 0 }

/-- Node B of scenario S1: registered with `"AAAA"`, version 0. -/
def example_item_a : mtk_int_broadcast_worker_t :=
  { id := 0xDEADBEEF, version := 0, data := [65, 65, 65, 65], size := 4,
    timer := example_timer, update_handler := 2, storage := 5 }

/-- A paused item: its timer is stopped (for `spec_trickle_timer`). -/
def example_item_paused : mtk_int_broadcast_worker_t :=
  { id := 0xDEADBEEF, version := 0, data := [65, 65, 65, 65], size := 4,
    timer := { example_timer with i_cur := 0 }, update_handler := 2, storage := 5 }

/-- A frame for `data_id = 0xDEADBEEF` with version `0x10000` and value `"Y"`. -/
def example_frame_old : List Nat := [0xEF, 0xBE, 0xAD, 0xDE, 0, 0, 1, 0, 89]

/-- A frame for `data_id = 0xDEADBEEF` with version `0x30000` and value `"ZZ"`. -/
def example_frame_new : List Nat := [0xEF, 0xBE, 0xAD, 0xDE, 0, 0, 3, 0, 90, 90]

def example_metadata : mira_net_udp_callback_metadata_t :=
  { source_address := 7, source_port := 456 }

/-- A datagram of 270 bytes that starts with a well-formed request (packet
42, mask `0x0123456789ABCDEF`, period 500) followed by 256 more bytes. -/
def example_long_request : List Nat :=
  [0xF2, 0x2A, 0x2A, 0x00, 0xEF, 0xCD, 0xAB, 0x89, 0x67, 0x45, 0x23, 0x01, 0xF4, 0x01] ++
    List.replicate 256 0

/-- The payload of scenario S3: 700 bytes, hence three sub-packets. -/
def example_payload : List Nat := List.replicate 700 65

/-- The sender's large packet before registration. -/
def example_lp_tx : mtk_bulk_data_collection_packet_t :=
  { payload := [], len := 0, node_addr := 7, node_port := 1520, id := 0, period_ms := 200,
    mask := 0, num_sub_packets := 0 }

/-- The sender's large packet once `example_payload` (700 bytes, 3 sub-packets)
is registered as packet 42. -/
def example_lp_registered : mtk_bulk_data_collection_packet_t :=
  { payload := example_payload, len := 700, node_addr := 7, node_port := 1520, id := 42,
    period_ms := 200, mask := 0, num_sub_packets := 3 }

/-- The receiver's large packet for packet 42: nothing received, a destination
buffer of 21120 bytes. -/
def example_lp_rx : mtk_bulk_data_collection_packet_t :=
  { payload := List.replicate 21120 0, len := 0, node_addr := 9, node_port := 456, id := 42,
    period_ms := 200, mask := 0, num_sub_packets := 3 }

/-- A datagram of 261 bytes that starts with a well-formed signal (packet 42,
3 sub-packets) followed by 256 more bytes. -/
def example_long_signal : List Nat :=
  [0x54, 0xAB, 0x2A, 0x00, 0x03] ++ List.replicate 256 0

/-- A sub-packet datagram of 339 bytes: packet 42, index 0 of 1 sub-packet,
`payload_len = 331` (bytes `4b 01`), followed by 331 payload bytes. -/
def example_frame_331 : List Nat :=
  [0x1f, 0xb3, 42, 0, 0, 1, 0x4b, 0x01] ++ List.replicate 331 7

/-- A sub-packet event for packet 42 with index 63 of 64 and 331 payload
bytes. -/
def example_event_last : mtk_bdc_event_subpacket_data_t :=
  { packet_id := 42, sub_packet_index := 63, n_sub_packets := 64, payload_len := 331,
    payload := List.replicate 331 7, src := 7, src_port := 456 }

/-- A sub-packet event for packet 42 with index 64 and one payload byte. -/
def example_event_index_64 : mtk_bdc_event_subpacket_data_t :=
  { packet_id := 42, sub_packet_index := 64, n_sub_packets := 3, payload_len := 1,
    payload := [7] ++ List.replicate 329 0, src := 7, src_port := 456 }

/-- A running item whose version `0x80000001` lies in the upper half of the
32-bit range. -/
def example_item_high : mtk_int_broadcast_worker_t :=
  { id := 0xDEADBEEF, version := 0x80000001, data := [88], size := 1, timer := example_timer,
    update_handler := 1, storage := 0 }

/-- A running item with version 1. -/
def example_item_low : mtk_int_broadcast_worker_t :=
  { id := 0xDEADBEEF, version := 1, data := [87], size := 1, timer := example_timer,
    update_handler := 1, storage := 0 }

/-- A frame for `data_id = 0xDEADBEEF` with version 0 and value `"Z"`. -/
def example_frame_zero : List Nat := [0xEF, 0xBE, 0xAD, 0xDE, 0, 0, 0, 0, 90]

/-- The frame that `example_item_high` sends: version `0x80000001`, value `"X"`. -/
def example_frame_high : List Nat := [0xEF, 0xBE, 0xAD, 0xDE, 1, 0, 0, 0x80, 88]

/-- The frame that `example_item_low` sends: version 1, value `"W"`. -/
def example_frame_low : List Nat := [0xEF, 0xBE, 0xAD, 0xDE, 1, 0, 0, 0, 87]

/-- A datagram of 300 bytes for `data_id = 0xDEADBEEF` with version `0x30000`
and 292 value bytes. -/
def example_frame_300 : List Nat :=
  [0xEF, 0xBE, 0xAD, 0xDE, 0, 0, 3, 0] ++ List.replicate 292 90

/-- A run in which every size argument is within the limit: initialisation, the
registration of `0xDEADBEEF` with a 4-byte value, and the datagram of 300
bytes. -/
def example_events_long_datagram : List broadcast_event :=
  [broadcast_event.init 1 2 (some 9) true,
   broadcast_event.register 0xDEADBEEF [65, 65, 65, 65] 4 2 5,
   broadcast_event.udp_input example_frame_300 300 example_metadata]

/-- The table after a successful `mtk_broadcast_init`. -/
def example_state_init : broadcast_state :=
  (mtk_broadcast_init broadcast_state_start 1 2 (some 9) true).2

/-- The table with one running item, `data_id = 0xDEADBEEF`. -/
def example_state_one : broadcast_state :=
  (mtk_broadcast_register spec_trickle_timer_ops example_state_init 0xDEADBEEF
    [65, 65, 65, 65] 4 2 5).2

/-- Start-up calls that fill the table: `mtk_broadcast_init` and four
registrations. -/
def example_calls_full : List broadcast_call :=
  [broadcast_call.init 1 2 (some 9) true, broadcast_call.register 1 [65] 1 0 0,
   broadcast_call.register 2 [66] 1 0 0, broadcast_call.register 3 [67] 1 0 0,
   broadcast_call.register 4 [68] 1 0 0]

/-- The full table. -/
def example_state_full : broadcast_state :=
  broadcast_run spec_trickle_timer_ops broadcast_state_start example_calls_full

/-- Start-up calls in the wrong order: four registrations before
`mtk_broadcast_init`, then the initialisation. -/
def example_calls_early : List broadcast_call :=
  [broadcast_call.register 1 [65] 1 0 0, broadcast_call.register 2 [66] 1 0 0,
   broadcast_call.register 3 [67] 1 0 0, broadcast_call.register 4 [68] 1 0 0,
   broadcast_call.init 1 2 (some 9) true]

/-- Start-up calls that register the `data_id` 5 twice. -/
def example_calls_duplicate : List broadcast_call :=
  [broadcast_call.init 1 2 (some 9) true, broadcast_call.register 5 [65] 1 7 8,
   broadcast_call.register 5 [66] 1 7 8]

/-- The table with one running item whose version is `0xFFFF0000`, one
increment below the wrap. -/
def example_state_wrap : broadcast_state :=
  { example_state_one with
      broadcast_ctx :=
        example_state_one.broadcast_ctx.set 0
          { ctx_at example_state_one 0 with version := 0xFFFF0000 } }

/-! ## Auxiliary definitions used in the proofs -/

/-- The value of the first `k` bytes of `buffer` read as a little-endian number. -/
def le_value (buffer : List Nat) : Nat → Nat
  | 0 => 0
  | k + 1 => le_value buffer k + buffer.getD k 0 * 2 ^ (8 * k)

/-- The length of sub-packet `i` of a payload of `len` bytes cut into `n`
sub-packets. -/
def chunk_len (len n i : Nat) : Nat :=
  if i = n - 1 then (if len % 330 = 0 then 330 else len % 330) else 330

/-- The frame of sub-packet `i` of the large packet `lp`. -/
def tx_frame (lp : mtk_bulk_data_collection_packet_t) (i : Nat) : List Nat :=
  lpsp_pack_buffer lp.id i lp.num_sub_packets (lp.payload.drop (i * 330))
    (chunk_len lp.len lp.num_sub_packets i)

/-- The send of sub-packet `i` of the large packet `lp`. -/
def tx_effect (lp : mtk_bulk_data_collection_packet_t) (i : Nat) : bdc_effect :=
  bdc_effect.udp_send_to lp.node_addr lp.node_port (tx_frame lp i)
    (2 + 2 + 1 + 1 + 2 + chunk_len lp.len lp.num_sub_packets i)

/-- What the large packet `lp` of the receiver holds once the sub-packets with
the indices `S` of the sender's packet `tx` have been stored: the expected id,
exactly the bits of `S` in the mask, the sum of their lengths in `len`, and
their bytes at their place in a destination buffer of 21120 bytes. -/
def rx_data (tx : mtk_bulk_data_collection_packet_t) (S : List Nat)
    (lp : mtk_bulk_data_collection_packet_t) : Prop :=
  lp.id = tx.id ∧
  (∀ j, lp.mask.testBit j = decide (j ∈ S)) ∧
  lp.len = (S.map (chunk_len tx.len tx.num_sub_packets)).sum ∧
  lp.payload.length = 21120 ∧
  ∀ i ∈ S, ∀ t < chunk_len tx.len tx.num_sub_packets i,
    lp.payload[i * 330 + t]? = tx.payload[i * 330 + t]?

/-- What holds of the table after start-up calls whose registrations had the
ids `ids` (latest first): the array has its four slots, the count does not
exceed them, the list links occupied slots only, and the ids of the items on
the list are among `ids`, in the same order. -/
def broadcast_table_inv (s : broadcast_state) (ids : List Nat) : Prop :=
  s.broadcast_ctx.length = 4 ∧ s.broadcast_num_ctx ≤ 4 ∧
  (∀ i ∈ s.broadcast_ctx_base, i < s.broadcast_num_ctx) ∧
  ((routed_items s).map fun c => c.id).Sublist ids

/-- Whether an event of the receive process is a timeout. -/
def is_timeout : receive_event → Bool
  | receive_event.timeout _ => true
  | receive_event.subpacket _ _ => false

/-- The size that an event hands to the table stays within the documented
limit: a `size` argument of at most 230, a datagram of at most 8 + 230 bytes. -/
def within_size_limit : broadcast_event → Prop
  | broadcast_event.register _ _ size _ _ => size ≤ 230
  | broadcast_event.update _ _ size _ => size ≤ 230
  | broadcast_event.udp_input _ data_len _ => data_len ≤ 238
  | _ => True

/-- Every slot of the table holds a size of at most 230. -/
def sizes_bounded (s : broadcast_state) : Prop :=
  ∀ c ∈ s.broadcast_ctx, c.size ≤ 230

/-- The length of sub-packet `i` in the words of the specification: `SUB_MAX`
for every sub-packet except the last, which is
`len - (num_sub_packets - 1) * SUB_MAX`. -/
def spec_sub_packet_len (len num_sub_packets i : Nat) : Nat :=
  if i < num_sub_packets - 1 then 330 else len - (num_sub_packets - 1) * 330

/-- The bytes that sub-packet `i` covers in the words of the specification:
`[i * SUB_MAX, min((i + 1) * SUB_MAX, len))`, as start and end. -/
def spec_sub_packet_range (len i : Nat) : Nat × Nat :=
  (i * 330, min ((i + 1) * 330) len)

/-! ## Little-endian load and store -/

theorem le_value_lt (buffer : List Nat) (k : Nat) (hb : ∀ i < k, buffer.getD i 0 < 256) :
    le_value buffer k < 2 ^ (8 * k) := by
  induction k with
  | zero => simp [le_value]
  | succ k ih =>
    have h1 := ih (fun i hi => hb i (Nat.lt_succ_of_lt hi))
    have h2 := hb k (Nat.lt_succ_self k)
    have h3 : 2 ^ (8 * (k + 1)) = 256 * 2 ^ (8 * k) := by
      rw [Nat.mul_succ, Nat.pow_add]; ring
    simp only [le_value, h3]
    nlinarith [Nat.mul_le_mul_right (2 ^ (8 * k)) (Nat.le_of_lt_succ (Nat.succ_lt_succ h2))]

theorem load_fold_eq (width : Nat) (hw : width ≤ 8) (buffer : List Nat) (k : Nat)
    (hk : k ≤ width) (hb : ∀ i < k, buffer.getD i 0 < 256) :
    (List.range k).foldl
      (fun p i => (p ||| (buffer.getD i 0 <<< (i * 8)) % 2 ^ 64) % 2 ^ (8 * width)) 0
      = le_value buffer k := by
  induction k with
  | zero => simp [le_value]
  | succ k ih =>
    have hb1 : ∀ i < k, buffer.getD i 0 < 256 := fun i hi => hb i (Nat.lt_succ_of_lt hi)
    rw [List.range_succ, List.foldl_append, ih (Nat.le_of_succ_le hk) hb1]
    have h1 := le_value_lt buffer k hb1
    have h2 := le_value_lt buffer (k + 1) hb
    have hpw : 2 ^ (8 * (k + 1)) ≤ 2 ^ (8 * width) :=
      Nat.pow_le_pow_right (by norm_num) (by omega)
    have hp64 : 2 ^ (8 * (k + 1)) ≤ 2 ^ 64 :=
      Nat.pow_le_pow_right (by norm_num) (by omega)
    have h3 : buffer.getD k 0 <<< (k * 8) = 2 ^ (8 * k) * buffer.getD k 0 := by
      rw [Nat.shiftLeft_eq, Nat.mul_comm k 8, Nat.mul_comm]
    have h4 : le_value buffer (k + 1) = 2 ^ (8 * k) * buffer.getD k 0 + le_value buffer k := by
      simp only [le_value]; ring
    have h5 : 2 ^ (8 * k) * buffer.getD k 0 < 2 ^ 64 := by
      have : 2 ^ (8 * k) * buffer.getD k 0 ≤ le_value buffer (k + 1) := by omega
      omega
    simp only [List.foldl_cons, List.foldl_nil]
    rw [h3, Nat.mod_eq_of_lt h5, Nat.or_comm, ← Nat.mul_add_lt_is_or h1, ← h4]
    exact Nat.mod_eq_of_lt (by omega)

theorem LITTLE_ENDIAN_LOAD_eq (width : Nat) (hw : width ≤ 8) (buffer : List Nat)
    (hb : ∀ i < width, buffer.getD i 0 < 256) :
    LITTLE_ENDIAN_LOAD width buffer = le_value buffer width :=
  load_fold_eq width hw buffer width (Nat.le_refl _) hb

theorem LITTLE_ENDIAN_STORE_length (width v : Nat) :
    (LITTLE_ENDIAN_STORE width v).length = width := by
  simp [LITTLE_ENDIAN_STORE]

theorem LITTLE_ENDIAN_STORE_getD (width v : Nat) (rest : List Nat) (i : Nat) (hi : i < width) :
    (LITTLE_ENDIAN_STORE width v ++ rest).getD i 0 = v / 2 ^ (8 * i) % 256 := by
  rw [List.getD_append _ _ _ _ (by simpa [LITTLE_ENDIAN_STORE] using hi)]
  rw [List.getD_eq_getElem _ _ (by simpa [LITTLE_ENDIAN_STORE] using hi)]
  simp only [LITTLE_ENDIAN_STORE, List.getElem_map, List.getElem_range]
  rw [Nat.shiftRight_eq_div_pow, Nat.mul_comm i 8]
  exact Nat.and_pow_two_sub_one_eq_mod _ 8

theorem le_value_store (width v : Nat) (rest : List Nat) (k : Nat) (hk : k ≤ width) :
    le_value (LITTLE_ENDIAN_STORE width v ++ rest) k = v % 2 ^ (8 * k) := by
  induction k with
  | zero => simp [le_value, Nat.mod_one]
  | succ k ih =>
    have h3 : 2 ^ (8 * (k + 1)) = (2 ^ 8) ^ (k + 1) := by rw [← Nat.pow_mul]
    have h4 : 2 ^ (8 * k) = (2 ^ 8) ^ k := by rw [← Nat.pow_mul]
    simp only [le_value]
    rw [ih (Nat.le_of_succ_le hk), LITTLE_ENDIAN_STORE_getD width v rest k hk, h3,
      Nat.mod_pow_succ, h4]
    ring_nf

/-- Loading `width` bytes that were stored from `v` gives `v` back. -/
theorem LITTLE_ENDIAN_LOAD_STORE (width v : Nat) (rest : List Nat) (hw : width ≤ 8)
    (hv : v < 2 ^ (8 * width)) :
    LITTLE_ENDIAN_LOAD width (LITTLE_ENDIAN_STORE width v ++ rest) = v := by
  rw [LITTLE_ENDIAN_LOAD_eq width hw]
  · rw [le_value_store width v rest width (Nat.le_refl _)]
    exact Nat.mod_eq_of_lt hv
  · intro i hi
    rw [LITTLE_ENDIAN_STORE_getD width v rest i hi]
    exact Nat.mod_lt _ (by norm_num)

theorem LITTLE_ENDIAN_STORE_drop (width v : Nat) (rest : List Nat) :
    (LITTLE_ENDIAN_STORE width v ++ rest).drop width = rest := by
  have h := List.drop_left (LITTLE_ENDIAN_STORE width v) rest
  rwa [LITTLE_ENDIAN_STORE_length] at h

/-! ## Codec round trips -/

theorem lpreq_unpack_pack (packet_id mask period_ms : Nat) (h1 : packet_id < 2 ^ 16)
    (h2 : mask < 2 ^ 64) (h3 : period_ms < 2 ^ 16) :
    lpreq_unpack_buffer (lpreq_pack_buffer packet_id mask period_ms) 14
      = some (packet_id, mask, period_ms) := by
  have hshape : lpreq_pack_buffer packet_id mask period_ms
      = [0xf2, 0x2a] ++ (LITTLE_ENDIAN_STORE 2 packet_id ++ (LITTLE_ENDIAN_STORE 8 mask ++
          (LITTLE_ENDIAN_STORE 2 period_ms ++ []))) := by
    simp [lpreq_pack_buffer, lpreq_header, List.append_assoc]
  rw [hshape]
  simp only [lpreq_unpack_buffer, List.cons_append, List.nil_append, List.drop_succ_cons,
    List.drop_zero, LITTLE_ENDIAN_STORE_drop]
  rw [LITTLE_ENDIAN_LOAD_STORE 2 packet_id _ (by norm_num) h1,
    LITTLE_ENDIAN_LOAD_STORE 8 mask _ (by norm_num) h2,
    LITTLE_ENDIAN_LOAD_STORE 2 period_ms _ (by norm_num) h3]
  simp

theorem lpsig_unpack_pack (packet_id n_sub_packets : Nat) (h1 : packet_id < 2 ^ 16)
    (h2 : n_sub_packets < 2 ^ 8) :
    lpsig_unpack_buffer (lpsig_pack_buffer packet_id n_sub_packets) 5
      = some (n_sub_packets, packet_id) := by
  have hshape : lpsig_pack_buffer packet_id n_sub_packets
      = [0x54, 0xab] ++ (LITTLE_ENDIAN_STORE 2 packet_id ++
          (LITTLE_ENDIAN_STORE 1 n_sub_packets ++ [])) := by
    simp [lpsig_pack_buffer, lpsig_header, List.append_assoc]
  rw [hshape]
  simp only [lpsig_unpack_buffer, List.cons_append, List.nil_append, List.drop_succ_cons,
    List.drop_zero, LITTLE_ENDIAN_STORE_drop]
  rw [LITTLE_ENDIAN_LOAD_STORE 2 packet_id _ (by norm_num) h1,
    LITTLE_ENDIAN_LOAD_STORE 1 n_sub_packets _ (by norm_num) h2]
  simp

theorem lpsp_pack_buffer_length (packet_id sub_packet_index n_sub_packets : Nat)
    (payload : List Nat) (payload_len : Nat) (h : payload_len ≤ payload.length) :
    (lpsp_pack_buffer packet_id sub_packet_index n_sub_packets payload payload_len).length
      = 8 + payload_len := by
  simp [lpsp_pack_buffer, lpsp_header, LITTLE_ENDIAN_STORE_length, Nat.min_eq_left h]
  omega

theorem lpsp_unpack_pack (dst : List Nat) (packet_id sub_packet_index n_sub_packets : Nat)
    (payload : List Nat) (payload_len : Nat) (h1 : packet_id < 2 ^ 16)
    (h2 : sub_packet_index < 2 ^ 8) (h3 : n_sub_packets < 2 ^ 8) (h4 : payload_len < 2 ^ 16)
    (h5 : payload_len ≤ payload.length) :
    lpsp_unpack_buffer dst
        (lpsp_pack_buffer packet_id sub_packet_index n_sub_packets payload payload_len)
        (8 + payload_len)
      = some { packet_id := packet_id, sub_packet_index := sub_packet_index,
               n_sub_packets := n_sub_packets, payload_len := payload_len,
               payload := payload.take payload_len ++ dst.drop payload_len } := by
  have hshape : lpsp_pack_buffer packet_id sub_packet_index n_sub_packets payload payload_len
      = [0x1f, 0xb3] ++ (LITTLE_ENDIAN_STORE 2 packet_id ++
          (LITTLE_ENDIAN_STORE 1 sub_packet_index ++ (LITTLE_ENDIAN_STORE 1 n_sub_packets ++
            (LITTLE_ENDIAN_STORE 2 payload_len ++ payload.take payload_len)))) := by
    simp [lpsp_pack_buffer, lpsp_header, List.append_assoc]
  rw [hshape]
  simp only [lpsp_unpack_buffer, List.cons_append, List.nil_append, List.drop_succ_cons,
    List.drop_zero, LITTLE_ENDIAN_STORE_drop]
  rw [LITTLE_ENDIAN_LOAD_STORE 2 packet_id _ (by norm_num) h1,
    LITTLE_ENDIAN_LOAD_STORE 1 sub_packet_index _ (by norm_num) h2,
    LITTLE_ENDIAN_LOAD_STORE 1 n_sub_packets _ (by norm_num) h3,
    LITTLE_ENDIAN_LOAD_STORE 2 payload_len _ (by norm_num) h4]
  have hlen : (payload.take payload_len).length = payload_len := by
    simp [Nat.min_eq_left h5]
  have htake : (payload.take payload_len).take payload_len = payload.take payload_len := by
    simp
  simp [memcpy, htake, show 2 + 2 + 1 + 1 + 2 + payload_len = 8 + payload_len by omega]

/-! ## Broadcast worker -/

theorem testBit_byte (v k j : Nat) :
    ((v >>> k) &&& 0xff).testBit j = (decide (j < 8) && v.testBit (k + j)) := by
  have h : (0xff : Nat) = 2 ^ 8 - 1 := by norm_num
  rw [h, Nat.testBit_and, Nat.testBit_shiftRight, Nat.testBit_two_pow_sub_one, Bool.and_comm]

theorem u32_of_bytes (v : Nat) (hv : v < 2 ^ 32) :
    ((((v >>> 0) &&& 0xff) <<< 0) ||| (((v >>> 8) &&& 0xff) <<< 8) |||
      (((v >>> 16) &&& 0xff) <<< 16) ||| (((v >>> 24) &&& 0xff) <<< 24)) % 2 ^ 32 = v := by
  apply Nat.eq_of_testBit_eq
  intro j
  simp only [Nat.testBit_mod_two_pow, Nat.testBit_or, Nat.testBit_shiftLeft, testBit_byte]
  by_cases h32 : j < 32
  · by_cases h8 : j < 8
    · have e0 : 0 + (j - 0) = j := by omega
      have : ¬ (j ≥ 8) := by omega
      have : ¬ (j ≥ 16) := by omega
      have : ¬ (j ≥ 24) := by omega
      simp [*]
    · by_cases h16 : j < 16
      · have e1 : 8 + (j - 8) = j := by omega
        have : j - 8 < 8 := by omega
        have : ¬ (j ≥ 16) := by omega
        have : ¬ (j ≥ 24) := by omega
        have : 8 ≤ j := by omega
        simp [*]
      · by_cases h24 : j < 24
        · have e1 : 16 + (j - 16) = j := by omega
          have : j - 16 < 8 := by omega
          have : ¬ (j - 8 < 8) := by omega
          have : ¬ (j ≥ 24) := by omega
          have : 16 ≤ j := by omega
          simp [*]
        · have e1 : 24 + (j - 24) = j := by omega
          have : j - 24 < 8 := by omega
          have : ¬ (j - 8 < 8) := by omega
          have : ¬ (j - 16 < 8) := by omega
          have : 24 ≤ j := by omega
          simp [*]
  · have hf : v.testBit j = false :=
      Nat.testBit_lt_two_pow (Nat.lt_of_lt_of_le hv (Nat.pow_le_pow_right (by norm_num) (by omega)))
    simp [h32, hf]
theorem broadcast_udp_walk_no_match (api : trickle_timer_api) (id version : Nat)
    (data : List Nat) (data_len : Nat) (metadata : mira_net_udp_callback_metadata_t)
    (base : List mtk_int_broadcast_worker_t) (h : ∀ c ∈ base, c.id ≠ id) :
    broadcast_udp_walk api id version data data_len metadata base = (base, []) := by
  induction base with
  | nil => rfl
  | cons c next ih =>
    have hc : c.id ≠ id := h c (List.mem_cons_self _ _)
    have hn : ∀ d ∈ next, d.id ≠ id := fun d hd => h d (List.mem_cons_of_mem _ hd)
    simp [broadcast_udp_walk, hc, ih hn]

theorem broadcast_udp_walk_first_match (api : trickle_timer_api) (id version : Nat)
    (data : List Nat) (data_len : Nat) (metadata : mira_net_udp_callback_metadata_t)
    (pre : List mtk_int_broadcast_worker_t) (ctx : mtk_int_broadcast_worker_t)
    (post : List mtk_int_broadcast_worker_t) (hpre : ∀ c ∈ pre, c.id ≠ id) (hid : ctx.id = id) :
    broadcast_udp_walk api id version data data_len metadata (pre ++ ctx :: post)
      = (pre ++ (broadcast_udp_input api ctx version data data_len metadata).1 :: post,
         (broadcast_udp_input api ctx version data data_len metadata).2) := by
  induction pre with
  | nil => simp [broadcast_udp_walk, hid]
  | cons c next ih =>
    have hc : c.id ≠ id := hpre c (List.mem_cons_self _ _)
    have hn : ∀ d ∈ next, d.id ≠ id := fun d hd => hpre d (List.mem_cons_of_mem _ hd)
    simp [broadcast_udp_walk, hc, ih hn]

theorem broadcast_udp_callback_first_match (api : trickle_timer_api)
    (data : List Nat) (data_len : Nat) (metadata : mira_net_udp_callback_metadata_t)
    (pre : List mtk_int_broadcast_worker_t) (ctx : mtk_int_broadcast_worker_t)
    (post : List mtk_int_broadcast_worker_t) (h8 : 8 ≤ data_len)
    (hpre : ∀ c ∈ pre, c.id ≠ ctx.id) (hid : read_u32_le data 0 = ctx.id) :
    broadcast_udp_callback api (pre ++ ctx :: post) data data_len metadata
      = (pre ++ (broadcast_udp_input api ctx (read_u32_le data 4) data data_len metadata).1
            :: post,
         (broadcast_udp_input api ctx (read_u32_le data 4) data data_len metadata).2) := by
  have h : ¬ data_len < 8 := by omega
  simp only [broadcast_udp_callback, h, if_false]
  exact broadcast_udp_walk_first_match api _ _ data data_len metadata pre ctx post
    (by rw [hid]; exact hpre) hid.symm

theorem to_int32_sub_u32_self (v : Nat) : to_int32 (sub_u32 v v) = 0 := by
  have h : sub_u32 v v = 0 := by
    unfold sub_u32
    have : v % 2 ^ 32 + 2 ^ 32 - v % 2 ^ 32 = 2 ^ 32 := by omega
    rw [this]; norm_num
  rw [h]; decide

/-- The frame that `broadcast_trickle_callback` builds for a worker. -/
theorem broadcast_trickle_callback_sends (addr port : Nat) (net_state : mira_net_state_t)
    (ctx : mtk_int_broadcast_worker_t) (supress : Nat) (hv : ctx.version ≠ 0)
    (hn : net_state ≠ mira_net_state_t.MIRA_NET_STATE_NOT_ASSOCIATED) :
    broadcast_trickle_callback addr port net_state ctx supress
      = [broadcast_effect.udp_send_to addr port
          ([(ctx.id >>> 0) &&& 0xff, (ctx.id >>> 8) &&& 0xff, (ctx.id >>> 16) &&& 0xff,
            (ctx.id >>> 24) &&& 0xff, (ctx.version >>> 0) &&& 0xff,
            (ctx.version >>> 8) &&& 0xff, (ctx.version >>> 16) &&& 0xff,
            (ctx.version >>> 24) &&& 0xff] ++ ctx.data.take ctx.size) (8 + ctx.size)] := by
  simp [broadcast_trickle_callback, hv, hn]

theorem read_u32_le_frame_id (id version : Nat) (rest : List Nat) (h : id < 2 ^ 32) :
    read_u32_le ([(id >>> 0) &&& 0xff, (id >>> 8) &&& 0xff, (id >>> 16) &&& 0xff,
      (id >>> 24) &&& 0xff, (version >>> 0) &&& 0xff, (version >>> 8) &&& 0xff,
      (version >>> 16) &&& 0xff, (version >>> 24) &&& 0xff] ++ rest) 0 = id := by
  have := u32_of_bytes id h
  simpa [read_u32_le] using this

theorem read_u32_le_frame_version (id version : Nat) (rest : List Nat) (h : version < 2 ^ 32) :
    read_u32_le ([(id >>> 0) &&& 0xff, (id >>> 8) &&& 0xff, (id >>> 16) &&& 0xff,
      (id >>> 24) &&& 0xff, (version >>> 0) &&& 0xff, (version >>> 8) &&& 0xff,
      (version >>> 16) &&& 0xff, (version >>> 24) &&& 0xff] ++ rest) 4 = version := by
  have := u32_of_bytes version h
  simpa [read_u32_le] using this

/-- C3: for a running item that the list walk reaches (no item before it has
the same `data_id`) and a datagram of at least 8 bytes whose `data_id` matches
it, `broadcast_udp_callback` replaces the value exactly when
`(int32)(incoming_version - local_version) > 0`: then the version is the
incoming one, the size is `data_len - 8`, the value starts with the datagram's
bytes from offset 8, the timer receives `inconsistency` and the update handler
is called once; otherwise version, size and value stay and the handler is not
called. -/
theorem broadcast_udp_callback_replaces_iff_newer (api : trickle_timer_api)
    (data : List Nat) (data_len : Nat) (metadata : mira_net_udp_callback_metadata_t)
    (pre : List mtk_int_broadcast_worker_t) (ctx : mtk_int_broadcast_worker_t)
    (post : List mtk_int_broadcast_worker_t) (h8 : 8 ≤ data_len)
    (hpre : ∀ c ∈ pre, c.id ≠ ctx.id) (hid : read_u32_le data 0 = ctx.id)
    (hrun : ctx.timer.i_cur ≠ api.MTK_TRICKLE_TIMER_IS_STOPPED) :
    (to_int32 (sub_u32 (read_u32_le data 4) ctx.version) > 0 →
      broadcast_udp_callback api (pre ++ ctx :: post) data data_len metadata
        = (pre ++ { ctx with
                      version := read_u32_le data 4,
                      size := data_len - 8,
                      data := (data.drop 8).take (data_len - 8) ++ ctx.data.drop (data_len - 8),
                      timer := api.mtk_trickle_timer_inconsistency ctx.timer } :: post,
           [broadcast_effect.inconsistency ctx.id,
            broadcast_effect.update_handler ctx.update_handler ctx.id
              ((data.drop 8).take (data_len - 8) ++ ctx.data.drop (data_len - 8))
              (data_len - 8) metadata ctx.storage])) ∧
    (¬ to_int32 (sub_u32 (read_u32_le data 4) ctx.version) > 0 →
      ∃ ctx1 effects,
        broadcast_udp_callback api (pre ++ ctx :: post) data data_len metadata
          = (pre ++ ctx1 :: post, effects) ∧
        ctx1.version = ctx.version ∧ ctx1.size = ctx.size ∧ ctx1.data = ctx.data ∧
        ∀ h i d s m st, broadcast_effect.update_handler h i d s m st ∉ effects) := by
  rw [broadcast_udp_callback_first_match api data data_len metadata pre ctx post h8 hpre hid]
  constructor
  · intro hnew
    simp [broadcast_udp_input, hrun, hnew, memcpy]
  · intro hold
    by_cases hne : read_u32_le data 4 = ctx.version
    · exact ⟨_, _, rfl, by simp [broadcast_udp_input, hrun, hne, to_int32_sub_u32_self],
        by simp [broadcast_udp_input, hrun, hne, to_int32_sub_u32_self],
        by simp [broadcast_udp_input, hrun, hne, to_int32_sub_u32_self],
        by simp [broadcast_udp_input, hrun, hne, to_int32_sub_u32_self]⟩
    · exact ⟨_, _, rfl, by simp [broadcast_udp_input, hrun, hold, hne],
        by simp [broadcast_udp_input, hrun, hold, hne],
        by simp [broadcast_udp_input, hrun, hold, hne],
        by simp [broadcast_udp_input, hrun, hold, hne]⟩

/-- C4: for a running item that the list walk reaches and a matching datagram
whose version is signed-older, `(int32)(incoming - local) < 0`,
`broadcast_udp_callback` changes nothing in the item but its timer, which
receives `inconsistency` once, and does not call the update handler; and
whether the item runs or not, such a datagram leaves version, size and value
as they are. -/
theorem broadcast_udp_callback_older_keeps (api : trickle_timer_api)
    (data : List Nat) (data_len : Nat) (metadata : mira_net_udp_callback_metadata_t)
    (pre : List mtk_int_broadcast_worker_t) (ctx : mtk_int_broadcast_worker_t)
    (post : List mtk_int_broadcast_worker_t) (h8 : 8 ≤ data_len)
    (hpre : ∀ c ∈ pre, c.id ≠ ctx.id) (hid : read_u32_le data 0 = ctx.id)
    (hold : to_int32 (sub_u32 (read_u32_le data 4) ctx.version) < 0) :
    (ctx.timer.i_cur ≠ api.MTK_TRICKLE_TIMER_IS_STOPPED →
      broadcast_udp_callback api (pre ++ ctx :: post) data data_len metadata
        = (pre ++ { ctx with timer := api.mtk_trickle_timer_inconsistency ctx.timer } :: post,
           [broadcast_effect.inconsistency ctx.id])) ∧
    (∃ ctx1 effects,
      broadcast_udp_callback api (pre ++ ctx :: post) data data_len metadata
        = (pre ++ ctx1 :: post, effects) ∧
      ctx1.version = ctx.version ∧ ctx1.size = ctx.size ∧ ctx1.data = ctx.data ∧
      ∀ h i d s m st, broadcast_effect.update_handler h i d s m st ∉ effects) := by
  rw [broadcast_udp_callback_first_match api data data_len metadata pre ctx post h8 hpre hid]
  have hnot : ¬ to_int32 (sub_u32 (read_u32_le data 4) ctx.version) > 0 := by omega
  have hne : read_u32_le data 4 ≠ ctx.version := by
    intro h
    rw [h, to_int32_sub_u32_self] at hold
    exact absurd hold (by decide)
  constructor
  · intro hrun
    simp [broadcast_udp_input, hrun, hnot, hne]
  · by_cases hrun : ctx.timer.i_cur = api.MTK_TRICKLE_TIMER_IS_STOPPED
    · exact ⟨_, _, rfl, by simp [broadcast_udp_input, hrun],
        by simp [broadcast_udp_input, hrun], by simp [broadcast_udp_input, hrun],
        by simp [broadcast_udp_input, hrun]⟩
    · exact ⟨_, _, rfl, by simp [broadcast_udp_input, hrun, hnot, hne],
        by simp [broadcast_udp_input, hrun, hnot, hne],
        by simp [broadcast_udp_input, hrun, hnot, hne],
        by simp [broadcast_udp_input, hrun, hnot, hne]⟩

/-- C7: an inbound datagram that is shorter than 8 bytes, or whose `data_id`
matches no registered item, or whose matching item (the one the list walk
reaches) has a stopped timer, changes no item and has no effect: no handler
call, no `consistency`, no `inconsistency`. -/
theorem broadcast_udp_callback_ignored (api : trickle_timer_api)
    (base : List mtk_int_broadcast_worker_t) (data : List Nat) (data_len : Nat)
    (metadata : mira_net_udp_callback_metadata_t) :
    (data_len < 8 → broadcast_udp_callback api base data data_len metadata = (base, [])) ∧
    ((∀ c ∈ base, c.id ≠ read_u32_le data 0) →
      broadcast_udp_callback api base data data_len metadata = (base, [])) ∧
    (∀ pre ctx post, base = pre ++ ctx :: post → (∀ c ∈ pre, c.id ≠ ctx.id) →
      read_u32_le data 0 = ctx.id → ctx.timer.i_cur = api.MTK_TRICKLE_TIMER_IS_STOPPED →
      broadcast_udp_callback api base data data_len metadata = (base, [])) := by
  refine ⟨?_, ?_, ?_⟩
  · intro h
    simp [broadcast_udp_callback, h]
  · intro h
    by_cases h8 : data_len < 8
    · simp [broadcast_udp_callback, h8]
    · simp only [broadcast_udp_callback, h8, if_false]
      exact broadcast_udp_walk_no_match api _ _ data data_len metadata base h
  · intro pre ctx post hbase hpre hid hstop
    by_cases h8 : data_len < 8
    · simp [broadcast_udp_callback, h8]
    · subst hbase
      rw [broadcast_udp_callback_first_match api data data_len metadata pre ctx post
        (by omega) hpre hid]
      simp [broadcast_udp_input, hstop]

theorem broadcast_udp_callback_replaces_iff_newer_witness :
    broadcast_udp_callback spec_trickle_timer [example_item_x] example_frame_new 10
        example_metadata
      = ([{ example_item_x with version := 0x30000, size := 2, data := [90, 90] }],
         [broadcast_effect.inconsistency 0xDEADBEEF,
          broadcast_effect.update_handler 1 0xDEADBEEF [90, 90] 2 example_metadata 0]) :=
  (broadcast_udp_callback_replaces_iff_newer spec_trickle_timer example_frame_new 10
    example_metadata [] example_item_x [] (by decide) (by simp) (by decide) (by decide)).1
    (by decide)

theorem broadcast_udp_callback_older_keeps_witness :
    broadcast_udp_callback spec_trickle_timer [example_item_x] example_frame_old 9
        example_metadata
      = ([example_item_x], [broadcast_effect.inconsistency 0xDEADBEEF]) :=
  (broadcast_udp_callback_older_keeps spec_trickle_timer example_frame_old 9
    example_metadata [] example_item_x [] (by decide) (by simp) (by decide) (by decide)).1
    (by decide)

theorem broadcast_udp_callback_ignored_witness :
    broadcast_udp_callback spec_trickle_timer [example_item_paused] example_frame_new 10
        example_metadata = ([example_item_paused], []) :=
  (broadcast_udp_callback_ignored spec_trickle_timer [example_item_paused] example_frame_new 10
    example_metadata).2.2 [] example_item_paused [] rfl (by simp) (by decide) (by decide)

/-- C2: a sending item with version `v ≠ 0` and size `s ≤ 248` (whose buffer
holds `s` bytes) emits, when the network is associated, one frame of `8 + s`
bytes; fed to `broadcast_udp_callback` on a node where the item the walk
reaches has the same `data_id`, runs and has a version `w` with
`(int32)(v - w) > 0`, the frame leaves that item with version `v`, size `s`
and the sender's first `s` value bytes, signals `inconsistency` and calls the
update handler exactly once with that data and size. -/
theorem broadcast_frame_adopted (api : trickle_timer_api) (addr port : Nat)
    (net_state : mira_net_state_t) (sender : mtk_int_broadcast_worker_t) (supress : Nat)
    (pre : List mtk_int_broadcast_worker_t) (receiver : mtk_int_broadcast_worker_t)
    (post : List mtk_int_broadcast_worker_t) (metadata : mira_net_udp_callback_metadata_t)
    (hid32 : sender.id < 2 ^ 32) (hv32 : sender.version < 2 ^ 32) (hv : sender.version ≠ 0)
    (hs : sender.size ≤ 248) (hdata : sender.size ≤ sender.data.length)
    (hnet : net_state ≠ mira_net_state_t.MIRA_NET_STATE_NOT_ASSOCIATED)
    (hid : receiver.id = sender.id) (hpre : ∀ c ∈ pre, c.id ≠ receiver.id)
    (hrun : receiver.timer.i_cur ≠ api.MTK_TRICKLE_TIMER_IS_STOPPED)
    (hnewer : to_int32 (sub_u32 sender.version receiver.version) > 0) :
    ∃ frame,
      broadcast_trickle_callback addr port net_state sender supress
        = [broadcast_effect.udp_send_to addr port frame (8 + sender.size)] ∧
      frame.length = 8 + sender.size ∧ 8 + sender.size ≤ 256 ∧
      broadcast_udp_callback api (pre ++ receiver :: post) frame (8 + sender.size) metadata
        = (pre ++ { receiver with
                      version := sender.version,
                      size := sender.size,
                      data := sender.data.take sender.size ++ receiver.data.drop sender.size,
                      timer := api.mtk_trickle_timer_inconsistency receiver.timer } :: post,
           [broadcast_effect.inconsistency receiver.id,
            broadcast_effect.update_handler receiver.update_handler receiver.id
              (sender.data.take sender.size ++ receiver.data.drop sender.size) sender.size
              metadata receiver.storage]) ∧
      (sender.data.take sender.size ++ receiver.data.drop sender.size).take sender.size
        = sender.data.take sender.size := by
  have hf := broadcast_trickle_callback_sends addr port net_state sender supress hv hnet
  have hlen : (sender.data.take sender.size).length = sender.size := by
    simp [Nat.min_eq_left hdata]
  refine ⟨_, hf, by simp [Nat.min_eq_left hdata]; omega, by omega, ?_, ?_⟩
  · rw [broadcast_udp_callback_first_match api _ _ metadata pre receiver post (by omega) hpre
      (by rw [read_u32_le_frame_id sender.id sender.version _ hid32, hid])]
    rw [read_u32_le_frame_version sender.id sender.version _ hv32]
    have hdrop : ∀ (a b c d e f g h : Nat) (l : List Nat),
        List.drop 8 ([a, b, c, d, e, f, g, h] ++ l) = l := by
      intros; rfl
    simp only [broadcast_udp_input, hrun, hnewer, if_true, if_false, hdrop, memcpy,
      Nat.add_sub_cancel_left]
    simp
  · rw [List.take_append_of_le_length (by rw [hlen])]
    simp

theorem broadcast_frame_adopted_witness :
    ∃ frame,
      broadcast_trickle_callback 1 2 (mira_net_state_t.other_state 3) example_item_b 0
        = [broadcast_effect.udp_send_to 1 2 frame 12] ∧
      frame.length = 12 ∧ 12 ≤ 256 ∧
      broadcast_udp_callback spec_trickle_timer [example_item_a] frame 12 example_metadata
        = ([{ example_item_a with version := 0x10007, data := [66, 66, 66, 66] }],
           [broadcast_effect.inconsistency 0xDEADBEEF,
            broadcast_effect.update_handler 2 0xDEADBEEF [66, 66, 66, 66] 4 example_metadata 5]) ∧
      [66, 66, 66, 66].take 4 = [66, 66, 66, 66] :=
  broadcast_frame_adopted spec_trickle_timer 1 2 (mira_net_state_t.other_state 3)
    example_item_b 0 [] example_item_a [] example_metadata (by decide) (by decide) (by decide)
    (by decide) (by decide) (by decide) (by decide) (by simp) (by decide) (by decide)

/-- C5: `broadcast_trickle_callback` sends nothing for an item whose version is
0, whatever the suppress flag and the network state; and for any item (with a
32-bit version) every datagram it sends carries a non-zero version in bytes
4-7. -/
theorem broadcast_trickle_callback_no_version_zero (addr port : Nat)
    (net_state : mira_net_state_t) (ctx : mtk_int_broadcast_worker_t) (supress : Nat)
    (hv32 : ctx.version < 2 ^ 32) :
    (ctx.version = 0 → broadcast_trickle_callback addr port net_state ctx supress = []) ∧
    (∀ a p buf len,
      broadcast_effect.udp_send_to a p buf len ∈
          broadcast_trickle_callback addr port net_state ctx supress →
        read_u32_le buf 4 ≠ 0) := by
  constructor
  · intro h
    simp [broadcast_trickle_callback, h]
  · intro a p buf len hmem
    by_cases hv : ctx.version = 0
    · simp [broadcast_trickle_callback, hv] at hmem
    · by_cases hn : net_state = mira_net_state_t.MIRA_NET_STATE_NOT_ASSOCIATED
      · simp [broadcast_trickle_callback, hv, hn] at hmem
      · rw [broadcast_trickle_callback_sends addr port net_state ctx supress hv hn] at hmem
        simp only [List.mem_singleton, broadcast_effect.udp_send_to.injEq] at hmem
        rw [hmem.2.2.1, read_u32_le_frame_version ctx.id ctx.version _ hv32]
        exact hv

theorem broadcast_trickle_callback_no_version_zero_witness :
    broadcast_trickle_callback 1 2 (mira_net_state_t.other_state 3) example_item_a 0 = [] :=
  (broadcast_trickle_callback_no_version_zero 1 2 (mira_net_state_t.other_state 3)
    example_item_a 0 (by decide)).1 (by decide)

/-- C6 fails on the code: `broadcast_trickle_callback` never reads its
`supress` argument. Called with `supress = 1` on an item with version
`0x10007` while the network is associated, it sends the frame. -/
theorem broadcast_trickle_callback_sends_when_suppressed :
    broadcast_trickle_callback 1 2 (mira_net_state_t.other_state 3) example_item_b 1
      = [broadcast_effect.udp_send_to 1 2
          [0xEF, 0xBE, 0xAD, 0xDE, 0x07, 0x00, 0x01, 0x00, 66, 66, 66, 66] 12] := by
  decide

/-- The result of `broadcast_trickle_callback` does not depend on `supress`. -/
theorem broadcast_trickle_callback_supress_irrelevant (addr port : Nat)
    (net_state : mira_net_state_t) (ctx : mtk_int_broadcast_worker_t) (s1 s2 : Nat) :
    broadcast_trickle_callback addr port net_state ctx s1
      = broadcast_trickle_callback addr port net_state ctx s2 := rfl

/-- C8: decode undoes encode for the two fixed-size families. The request
frame of a 16-bit `packet_id`, a 64-bit `mask` and a 16-bit `period_ms` has 14
bytes, on which `lpreq_unpack_buffer` returns 0 with the same three values;
the signal frame of a 16-bit `packet_id` and an 8-bit `n_sub_packets` has 5
bytes, on which `lpsig_unpack_buffer` returns 0 with the same two values. -/
theorem fixed_size_unpack_pack (packet_id mask period_ms sig_packet_id n_sub_packets : Nat)
    (h1 : packet_id < 2 ^ 16) (h2 : mask < 2 ^ 64) (h3 : period_ms < 2 ^ 16)
    (h4 : sig_packet_id < 2 ^ 16) (h5 : n_sub_packets < 2 ^ 8) :
    (lpreq_pack_buffer packet_id mask period_ms).length = 14 ∧
    lpreq_unpack_buffer (lpreq_pack_buffer packet_id mask period_ms) 14
      = some (packet_id, mask, period_ms) ∧
    (lpsig_pack_buffer sig_packet_id n_sub_packets).length = 5 ∧
    lpsig_unpack_buffer (lpsig_pack_buffer sig_packet_id n_sub_packets) 5
      = some (n_sub_packets, sig_packet_id) :=
  ⟨by simp [lpreq_pack_buffer, lpreq_header, LITTLE_ENDIAN_STORE_length],
   lpreq_unpack_pack packet_id mask period_ms h1 h2 h3,
   by simp [lpsig_pack_buffer, lpsig_header, LITTLE_ENDIAN_STORE_length],
   lpsig_unpack_pack sig_packet_id n_sub_packets h4 h5⟩

theorem fixed_size_unpack_pack_witness :
    (lpreq_pack_buffer 42 0x0123456789ABCDEF 500).length = 14 ∧
    lpreq_unpack_buffer (lpreq_pack_buffer 42 0x0123456789ABCDEF 500) 14
      = some (42, 0x0123456789ABCDEF, 500) ∧
    (lpsig_pack_buffer 42 3).length = 5 ∧
    lpsig_unpack_buffer (lpsig_pack_buffer 42 3) 5 = some (3, 42) :=
  fixed_size_unpack_pack 42 0x0123456789ABCDEF 500 42 3 (by decide) (by decide) (by decide)
    (by decide) (by decide)

/-- C9: for a 16-bit `packet_id`, 8-bit `sub_packet_index` and `n_sub_packets`
and a payload of 0 to 330 bytes, the frame written by `lpsp_pack_buffer` has
`8 + payload length` bytes and `lpsp_unpack_buffer` called with that `buf_len`
returns 0 with the same `packet_id`, index, `n_sub_packets` and `payload_len`
and with the payload bytes at the start of the destination buffer. -/
theorem lpsp_unpack_pack_round_trip (dst : List Nat)
    (packet_id sub_packet_index n_sub_packets : Nat) (payload : List Nat)
    (h1 : packet_id < 2 ^ 16) (h2 : sub_packet_index < 2 ^ 8) (h3 : n_sub_packets < 2 ^ 8)
    (h4 : payload.length ≤ 330) :
    (lpsp_pack_buffer packet_id sub_packet_index n_sub_packets payload payload.length).length
      = 8 + payload.length ∧
    lpsp_unpack_buffer dst
        (lpsp_pack_buffer packet_id sub_packet_index n_sub_packets payload payload.length)
        (8 + payload.length)
      = some { packet_id := packet_id, sub_packet_index := sub_packet_index,
               n_sub_packets := n_sub_packets, payload_len := payload.length,
               payload := payload ++ dst.drop payload.length } ∧
    (payload ++ dst.drop payload.length).take payload.length = payload := by
  refine ⟨lpsp_pack_buffer_length _ _ _ _ _ (Nat.le_refl _), ?_, by simp⟩
  have h := lpsp_unpack_pack dst packet_id sub_packet_index n_sub_packets payload
    payload.length h1 h2 h3 (by omega) (Nat.le_refl _)
  rwa [List.take_length] at h

theorem lpsp_unpack_pack_round_trip_witness :
    (lpsp_pack_buffer 42 2 3 [7, 8, 9] 3).length = 8 + 3 ∧
    lpsp_unpack_buffer [1, 1, 1, 1, 1] (lpsp_pack_buffer 42 2 3 [7, 8, 9] 3) (8 + 3)
      = some { packet_id := 42, sub_packet_index := 2, n_sub_packets := 3, payload_len := 3,
               payload := [7, 8, 9, 1, 1] } ∧
    ([7, 8, 9] ++ [1, 1]).take 3 = [7, 8, 9] :=
  lpsp_unpack_pack_round_trip [1, 1, 1, 1, 1] 42 2 3 [7, 8, 9] (by decide) (by decide)
    (by decide) (by decide)

/-- C10 fails on the code: the length parameter of `lpreq_unpack_buffer` is a
`uint8_t`, so the 16-bit length 270 of a datagram arrives there as 14. The
handler accepts the 270-byte datagram and decodes packet 42, mask
`0x0123456789ABCDEF`, period 500; packing these gives 14 bytes, not the
datagram received. -/
theorem mtk_bdcreq_handle_data_accepts_long :
    example_long_request.length = 270 ∧
    mtk_bdcreq_handle_data example_long_request 270 example_metadata
      = some { packet_id := 42, mask := 0x0123456789ABCDEF, period_ms := 500,
               src := 7, src_port := 456 } ∧
    lpreq_unpack_buffer example_long_request (270 % 2 ^ 8)
      = some (42, 0x0123456789ABCDEF, 500) ∧
    lpreq_pack_buffer 42 0x0123456789ABCDEF 500 ≠ example_long_request := by
  have hlen : example_long_request.length = 270 := by
    rw [example_long_request, List.length_append, List.length_replicate]; rfl
  refine ⟨hlen, by decide, by decide, ?_⟩
  intro h
  have h2 := congrArg List.length h
  rw [hlen] at h2
  simp [lpreq_pack_buffer, lpreq_header, LITTLE_ENDIAN_STORE_length] at h2

/-! ## Bulk data collection: the sender -/

theorem mask_bit_test (i m : Nat) (hi : i < 64) :
    (((1 <<< i) % 2 ^ 64) &&& m ≠ 0) ↔ m.testBit i = true := by
  have h1 : (1 <<< i) % 2 ^ 64 = 2 ^ i := by
    rw [Nat.one_shiftLeft]
    exact Nat.mod_eq_of_lt (Nat.pow_lt_pow_right (by norm_num) hi)
  rw [h1, Nat.two_pow_and]
  have hpos : 0 < 2 ^ i := Nat.two_pow_pos i
  cases h : m.testBit i
  · simp
  · simp

theorem pick_next_to_send_loop_found (lp : mtk_bulk_data_collection_packet_t)
    (sp : sub_packet_t) (h : sp.payload ≠ none) (fuel i : Nat) :
    pick_next_to_send_loop lp fuel i sp = sp := by
  cases fuel with
  | zero => rfl
  | succ f => simp [pick_next_to_send_loop, h]

theorem pick_next_to_send_loop_lowest (lp : mtk_bulk_data_collection_packet_t) (k : Nat)
    (hk : k < lp.num_sub_packets) (hk64 : k < 64)
    (hlow : ∀ j < k, lp.mask.testBit j = false) (hbit : lp.mask.testBit k = true) :
    ∀ (fuel i : Nat) (sp : sub_packet_t), sp.payload = none → i ≤ k → k < i + fuel →
      pick_next_to_send_loop lp fuel i sp
        = { index := k, payload := some (k * 330),
            len := chunk_len lp.len lp.num_sub_packets k } := by
  intro fuel
  induction fuel with
  | zero => intro i sp _ h1 h2; omega
  | succ f ih =>
    intro i sp hsp h1 h2
    have hi64 : i < 64 := by omega
    have hin : i < lp.num_sub_packets := by omega
    by_cases hik : i = k
    · subst hik
      have hb := (mask_bit_test i lp.mask hi64).2 hbit
      simp only [pick_next_to_send_loop, hsp, MTK_BULK_DATA_COLLECTION_MAX_NUMBER_OF_SUBPACKETS,
        hi64, hin, and_self, if_true, hb, ne_eq, not_false_eq_true,
        MTK_BULK_DATA_COLLECTION_SUBPACKET_MAX_BYTES]
      rw [pick_next_to_send_loop_found lp _ (by simp)]
      simp [chunk_len]
    · have hlt : i < k := by omega
      have hb : ¬ (((1 <<< i) % 2 ^ 64) &&& lp.mask ≠ 0) := by
        rw [mask_bit_test i lp.mask hi64, hlow i hlt]; simp
      simp only [pick_next_to_send_loop, hsp, MTK_BULK_DATA_COLLECTION_MAX_NUMBER_OF_SUBPACKETS,
        hi64, hin, and_self, if_true, hb, if_false]
      exact ih (i + 1) sp hsp (by omega) (by omega)

theorem pick_next_to_send_lowest (lp : mtk_bulk_data_collection_packet_t) (k : Nat)
    (hk : k < lp.num_sub_packets) (hk64 : k < 64)
    (hlow : ∀ j < k, lp.mask.testBit j = false) (hbit : lp.mask.testBit k = true) :
    pick_next_to_send lp
      = { index := k, payload := some (k * 330),
          len := chunk_len lp.len lp.num_sub_packets k } :=
  pick_next_to_send_loop_lowest lp k hk hk64 hlow hbit 64 0 _ rfl (Nat.zero_le _) (by omega)

theorem chunk_len_le (len n i : Nat) : chunk_len len n i ≤ 330 := by
  unfold chunk_len
  split
  · split
    · exact Nat.le_refl _
    · exact Nat.le_of_lt (Nat.mod_lt _ (by norm_num))
  · exact Nat.le_refl _

theorem chunk_len_pos (len n i : Nat) : 0 < chunk_len len n i := by
  unfold chunk_len
  split
  · split
    · norm_num
    · omega
  · norm_num

theorem testBit_clear_bit (m k j : Nat) (hk : k < 64) :
    (m &&& (UINT64_MAX - (1 <<< k) % 2 ^ 64)).testBit j
      = (m.testBit j && (decide (j < 64) && !decide (k = j))) := by
  have hlt : 2 ^ k < 2 ^ 64 := Nat.pow_lt_pow_right (by norm_num) hk
  have h1 : (1 <<< k) % 2 ^ 64 = 2 ^ k := by
    rw [Nat.one_shiftLeft]; exact Nat.mod_eq_of_lt hlt
  have h2 : UINT64_MAX - 2 ^ k = 2 ^ 64 - (2 ^ k + 1) := by
    unfold UINT64_MAX; omega
  rw [h1, h2, Nat.testBit_and, Nat.testBit_two_pow_sub_succ hlt, Nat.testBit_two_pow]

theorem next_sub_packet_send_lowest (lp : mtk_bulk_data_collection_packet_t) (k : Nat)
    (hk : k < lp.num_sub_packets) (hk64 : k < 64)
    (hlow : ∀ j < k, lp.mask.testBit j = false) (hbit : lp.mask.testBit k = true) :
    next_sub_packet_send true true lp
      = (0, { lp with mask := lp.mask &&& (UINT64_MAX - (1 <<< k) % 2 ^ 64) },
         [tx_effect lp k]) := by
  have hle := chunk_len_le lp.len lp.num_sub_packets k
  have hnot : ¬ chunk_len lp.len lp.num_sub_packets k > 330 := by omega
  simp [next_sub_packet_send, pick_next_to_send_lowest lp k hk hk64 hlow hbit,
    MTK_BULK_DATA_COLLECTION_SUBPACKET_MAX_BYTES, hnot, mtk_bdcsp_send, tx_effect, tx_frame]

theorem eq_zero_of_testBit_false (m : Nat) (h : ∀ j, m.testBit j = false) : m = 0 := by
  apply Nat.eq_of_testBit_eq
  intro j
  rw [h j, Nat.zero_testBit]

/-- The sending loop on a mask that holds exactly the bits `k .. n - 1`: it
leaves after `n - k` sends with an empty mask, having sent the sub-packets
`k .. n - 1` in order. -/
theorem send_proc_loop_from (send_ok : Nat → Bool) (hok : ∀ t, send_ok t = true) :
    ∀ (d k fuel step : Nat) (lp : mtk_bulk_data_collection_packet_t),
      k + d = lp.num_sub_packets → lp.num_sub_packets ≤ 64 → d ≤ fuel →
      (∀ j, lp.mask.testBit j = (decide (k ≤ j) && decide (j < lp.num_sub_packets))) →
      send_proc_loop true send_ok fuel step lp 0
        = some ({ lp with mask := 0 }, 0, (List.range' k d).map (tx_effect lp)) := by
  intro d
  induction d with
  | zero =>
    intro k fuel step lp hkd _ _ hbits
    have hz : lp.mask = 0 := by
      apply eq_zero_of_testBit_false
      intro j
      rw [hbits j]
      by_cases h1 : k ≤ j
      · have : ¬ j < lp.num_sub_packets := by omega
        simp [this]
      · simp [h1]
    have hlp : ({ lp with mask := 0 } : mtk_bulk_data_collection_packet_t) = lp := by
      cases lp; simp_all
    cases fuel with
    | zero => simp [send_proc_loop, hz, hlp]
    | succ f => simp [send_proc_loop, hz, hlp]
  | succ d ih =>
    intro k fuel step lp hkd hn hfuel hbits
    have hk : k < lp.num_sub_packets := by omega
    have hk64 : k < 64 := by omega
    have hlow : ∀ j < k, lp.mask.testBit j = false := by
      intro j hj
      rw [hbits j]
      have : ¬ k ≤ j := by omega
      simp [this]
    have hbit : lp.mask.testBit k = true := by
      rw [hbits k]; simp [hk]
    have hnz : lp.mask ≠ 0 := by
      intro h0
      rw [h0, Nat.zero_testBit] at hbit
      exact absurd hbit (by decide)
    cases fuel with
    | zero => omega
    | succ f =>
      have hstep := next_sub_packet_send_lowest lp k hk hk64 hlow hbit
      have hrec := ih (k + 1) f (step + 1)
        { lp with mask := lp.mask &&& (UINT64_MAX - (1 <<< k) % 2 ^ 64) }
        (by simp only; omega) hn (by omega)
        (by
          intro j
          simp only
          rw [testBit_clear_bit lp.mask k j hk64, hbits j]
          by_cases h1 : k ≤ j
          · by_cases h2 : j < lp.num_sub_packets
            · by_cases h3 : k = j
              · have : ¬ k + 1 ≤ j := by omega
                simp [h1, h2, h3, this]
              · have h4 : k + 1 ≤ j := by omega
                have h5 : j < 64 := by omega
                simp [h1, h2, h3, h4, h5]
            · simp [h2]
          · have : ¬ k + 1 ≤ j := by omega
            simp [h1, this])
      simp only [send_proc_loop, hnz, ne_eq, not_false_eq_true, ge_iff_le, le_refl, and_self,
        if_true, hok, hstep, hrec]
      simp [List.range', tx_effect, tx_frame]

theorem low_bits_u64_eq (n : Nat) (hn : n < 64) : low_bits_u64 n = 2 ^ n - 1 := by
  have hlt : 2 ^ n < 2 ^ 64 := Nat.pow_lt_pow_right (by norm_num) hn
  have hpos : 0 < 2 ^ n := Nat.two_pow_pos n
  unfold low_bits_u64
  rw [Nat.one_shiftLeft, Nat.mod_eq_of_lt hlt]
  have h : 2 ^ n + 2 ^ 64 - 1 = (2 ^ n - 1) + 2 ^ 64 := by omega
  rw [h, Nat.add_mod_right]
  exact Nat.mod_eq_of_lt (by omega)

theorem all_done_mask_eq (n : Nat) (hn : n ≤ 64) :
    (if n = 64 then UINT64_MAX else low_bits_u64 n) = 2 ^ n - 1 := by
  by_cases h : n = 64
  · subst h; simp [UINT64_MAX]
  · rw [if_neg h, low_bits_u64_eq n (by omega)]

theorem whole_mask_get_eq (n : Nat) (hn : n ≤ 64) :
    mtk_bulk_data_collection_send_whole_mask_get n = (0, 2 ^ n - 1) := by
  have h1 : ¬ n > 64 := by omega
  unfold mtk_bulk_data_collection_send_whole_mask_get
  rw [MTK_BULK_DATA_COLLECTION_MAX_NUMBER_OF_SUBPACKETS, if_neg h1]
  by_cases h : n = 64
  · subst h; simp [UINT64_MAX]
  · rw [if_neg h, low_bits_u64_eq n (by omega)]

/-- Value of `ceil(len / 330)` as the code computes it. -/
theorem num_sub_packets_bounds (len : Nat) (h1 : 1 ≤ len) (h2 : len ≤ 21120) :
    1 ≤ (len / 330 + (if len % 330 ≠ 0 then 1 else 0)) % 2 ^ 8 ∧
    (len / 330 + (if len % 330 ≠ 0 then 1 else 0)) % 2 ^ 8 ≤ 64 ∧
    (len / 330 + (if len % 330 ≠ 0 then 1 else 0)) % 2 ^ 8
      = len / 330 + (if len % 330 ≠ 0 then 1 else 0) := by
  have hq : len / 330 ≤ 64 := by omega
  by_cases hr : len % 330 = 0
  · simp only [hr, ne_eq, not_true_eq_false, if_false, Nat.add_zero]
    have : len / 330 % 2 ^ 8 = len / 330 := Nat.mod_eq_of_lt (by omega)
    rw [this]
    omega
  · simp only [hr, ne_eq, not_false_eq_true, if_true]
    have : (len / 330 + 1) % 2 ^ 8 = len / 330 + 1 := Nat.mod_eq_of_lt (by omega)
    rw [this]
    omega

theorem register_tx_ok (lp : mtk_bulk_data_collection_packet_t) (packet_id : Nat)
    (payload : List Nat) (len : Nat) (h1 : 1 ≤ len) (h2 : len ≤ 21120) :
    mtk_bulk_data_collection_register_tx lp packet_id (some payload) len
      = (0, { lp with payload := payload, len := len, id := packet_id,
                      num_sub_packets :=
                        (len / 330 + (if len % 330 ≠ 0 then 1 else 0)) % 2 ^ 8 }) := by
  have h3 : len ≠ 0 := by omega
  have h4 : ¬ len > 330 * 64 := by omega
  simp [mtk_bulk_data_collection_register_tx, h3, h4,
    MTK_BULK_DATA_COLLECTION_SUBPACKET_MAX_BYTES,
    MTK_BULK_DATA_COLLECTION_MAX_NUMBER_OF_SUBPACKETS]

theorem sent_frames_tx_effect (lp : mtk_bulk_data_collection_packet_t) (l : List Nat) :
    sent_frames (l.map (tx_effect lp)) = l.map (tx_frame lp) := by
  induction l with
  | nil => rfl
  | cons i l ih => simp [tx_effect, sent_frames, ih]

/-- The sender of a registered packet whose mask is the whole mask: with every
send succeeding the process ends within `num_sub_packets` iterations, with an
empty mask, having sent the frames of the sub-packets `0 .. n - 1` in order. -/
theorem send_proc_whole_mask (send_ok : Nat → Bool) (hok : ∀ t, send_ok t = true)
    (lp : mtk_bulk_data_collection_packet_t) (hn : lp.num_sub_packets ≤ 64)
    (hmask : lp.mask = 2 ^ lp.num_sub_packets - 1) (fuel : Nat)
    (hfuel : lp.num_sub_packets ≤ fuel) :
    mtk_bulk_data_collection_send_proc true send_ok fuel lp
      = some ({ lp with mask := 0 }, false,
          (List.range lp.num_sub_packets).map (tx_effect lp)) := by
  have h := send_proc_loop_from send_ok hok lp.num_sub_packets 0 fuel 0 lp (by omega) hn hfuel
    (by intro j; rw [hmask, Nat.testBit_two_pow_sub_one]; simp)
  simp [mtk_bulk_data_collection_send_proc, h, List.range_eq_range']

/-! ## Bulk data collection: the receiver -/

theorem memcpy_at_length (dst : List Nat) (off : Nat) (src : List Nat) (n : Nat)
    (h1 : off + n ≤ dst.length) (h2 : n ≤ src.length) :
    (memcpy_at dst off src n).length = dst.length := by
  simp only [memcpy_at, memcpy, List.length_append, List.length_take, List.length_drop]
  omega

theorem memcpy_at_getElem? (dst : List Nat) (off : Nat) (src : List Nat) (n p : Nat)
    (h1 : off + n ≤ dst.length) (h2 : n ≤ src.length) :
    (memcpy_at dst off src n)[p]?
      = if off ≤ p ∧ p < off + n then src[p - off]? else dst[p]? := by
  have hl1 : (dst.take off).length = off := by simp; omega
  have hl2 : (src.take n).length = n := by simp; omega
  unfold memcpy_at memcpy
  by_cases hp : p < off
  · have hc : ¬ (off ≤ p ∧ p < off + n) := by omega
    rw [if_neg hc, List.getElem?_append_left (by omega), List.getElem?_take_of_lt hp]
  · rw [List.getElem?_append_right (by omega), hl1]
    by_cases hq : p < off + n
    · have hc : off ≤ p ∧ p < off + n := by omega
      rw [if_pos hc, List.getElem?_append_left (by omega),
        List.getElem?_take_of_lt (by omega)]
    · have hc : ¬ (off ≤ p ∧ p < off + n) := by omega
      rw [if_neg hc, List.getElem?_append_right (by omega), hl2, List.getElem?_drop,
        List.getElem?_drop]
      congr 1
      omega

theorem chunk_fits (len i : Nat)
    (hi : i < len / 330 + (if len % 330 ≠ 0 then 1 else 0)) :
    i * 330 + chunk_len len (len / 330 + (if len % 330 ≠ 0 then 1 else 0)) i ≤ len := by
  have hdm := Nat.div_add_mod len 330
  unfold chunk_len
  by_cases hr : len % 330 = 0
  · simp only [hr, ne_eq, not_true_eq_false, if_false, Nat.add_zero, if_true] at hi ⊢
    split <;> omega
  · simp only [hr, ne_eq, not_false_eq_true, if_true, if_false] at hi ⊢
    split <;> omega

theorem sum_chunk_len_le (len n : Nat) (S : List Nat) :
    (S.map (chunk_len len n)).sum ≤ 330 * S.length := by
  induction S with
  | nil => simp
  | cons i S ih =>
    have := chunk_len_le len n i
    simp only [List.map_cons, List.sum_cons, List.length_cons]
    omega

theorem tx_frame_shape (tx : mtk_bulk_data_collection_packet_t) (i : Nat) :
    tx_frame tx i
      = 0x1f :: 0xb3 :: (LITTLE_ENDIAN_STORE 2 tx.id ++ (LITTLE_ENDIAN_STORE 1 i ++
          (LITTLE_ENDIAN_STORE 1 tx.num_sub_packets ++
            (LITTLE_ENDIAN_STORE 2 (chunk_len tx.len tx.num_sub_packets i) ++
              (tx.payload.drop (i * 330)).take (chunk_len tx.len tx.num_sub_packets i))))) := by
  simp [tx_frame, lpsp_pack_buffer, lpsp_header, List.append_assoc]

/-- The event that `mtk_bdcsp_handle_data` posts for the frame of sub-packet
`i` of `tx`. -/
theorem mtk_bdcsp_handle_data_tx_frame (static : List Nat)
    (tx : mtk_bulk_data_collection_packet_t) (i : Nat)
    (metadata : mira_net_udp_callback_metadata_t) (hid : tx.id < 2 ^ 16)
    (hi : i < tx.num_sub_packets) (hn : tx.num_sub_packets ≤ 64)
    (hfit : i * 330 + chunk_len tx.len tx.num_sub_packets i ≤ tx.payload.length) :
    mtk_bdcsp_handle_data static (tx_frame tx i) (tx_frame tx i).length metadata
      = some { packet_id := tx.id, sub_packet_index := i, n_sub_packets := tx.num_sub_packets,
               payload_len := chunk_len tx.len tx.num_sub_packets i,
               payload := (tx.payload.drop (i * 330)).take
                   (chunk_len tx.len tx.num_sub_packets i) ++
                 static.drop (chunk_len tx.len tx.num_sub_packets i),
               src := metadata.source_address, src_port := metadata.source_port } := by
  have hle := chunk_len_le tx.len tx.num_sub_packets i
  have hfit2 : chunk_len tx.len tx.num_sub_packets i ≤ (tx.payload.drop (i * 330)).length := by
    rw [List.length_drop]; omega
  have hlen : (tx_frame tx i).length = 8 + chunk_len tx.len tx.num_sub_packets i :=
    lpsp_pack_buffer_length _ _ _ _ _ hfit2
  have hhdr : header_differs (tx_frame tx i) lpsp_header = false := by
    rw [tx_frame_shape]; rfl
  have hunpack := lpsp_unpack_pack static tx.id i tx.num_sub_packets
    (tx.payload.drop (i * 330)) (chunk_len tx.len tx.num_sub_packets i) hid (by omega) (by omega)
    (by omega) hfit2
  have h2 : ¬ 8 + chunk_len tx.len tx.num_sub_packets i < 2 := by omega
  rw [hlen]
  simp only [mtk_bdcsp_handle_data, MTK_BULK_DATA_COLLECTION_HEADER_SIZE, h2, if_false, hhdr,
    Bool.false_eq_true]
  rw [show tx_frame tx i = lpsp_pack_buffer tx.id i tx.num_sub_packets
    (tx.payload.drop (i * 330)) (chunk_len tx.len tx.num_sub_packets i) from rfl, hunpack]

theorem lp_fault_injected_false (random : Nat) : lp_fault_injected random = false := by
  simp [lp_fault_injected, FAULT_RATE_PERCENT]

theorem testBit_set_bit (m i j : Nat) (hi : i < 64) :
    (m ||| (1 <<< i) % 2 ^ 64).testBit j = (m.testBit j || decide (i = j)) := by
  have h1 : (1 <<< i) % 2 ^ 64 = 2 ^ i := by
    rw [Nat.one_shiftLeft]
    exact Nat.mod_eq_of_lt (Nat.pow_lt_pow_right (by norm_num) hi)
  rw [h1, Nat.testBit_or, Nat.testBit_two_pow]

/-- The receive process stores a sub-packet of `tx` that it does not hold yet:
the large packet then holds the sub-packets `i :: S`, and the process ends
with `event_bdc_received` posted exactly when the mask is then the whole
mask. -/
theorem receive_proc_step_store (tx : mtk_bulk_data_collection_packet_t) (S : List Nat)
    (s : receive_proc_state) (i : Nat) (rest : List Nat) (src src_port random : Nat)
    (hn : tx.num_sub_packets ≤ 64) (hi : i < tx.num_sub_packets) (hiS : i ∉ S)
    (hS : S.length ≤ 64)
    (hfit : i * 330 + chunk_len tx.len tx.num_sub_packets i ≤ tx.payload.length)
    (hw : s.status = receive_status.waiting) (hinv : rx_data tx S s.lp) :
    ∃ lp1, rx_data tx (i :: S) lp1 ∧
      receive_proc_step s (receive_event.subpacket
          { packet_id := tx.id, sub_packet_index := i, n_sub_packets := tx.num_sub_packets,
            payload_len := chunk_len tx.len tx.num_sub_packets i,
            payload := (tx.payload.drop (i * 330)).take
              (chunk_len tx.len tx.num_sub_packets i) ++ rest,
            src := src, src_port := src_port } random)
        = if lp1.mask = 2 ^ tx.num_sub_packets - 1 then
            ({ s with lp := lp1, status := receive_status.ended },
             [bdc_effect.post_event_bdc_received])
          else ({ s with lp := lp1 }, []) := by
  obtain ⟨hid, hmask, hlen, hbuf, hbytes⟩ := hinv
  have hi64 : i < 64 := by omega
  have hcl := chunk_len_le tx.len tx.num_sub_packets i
  have hoff : (i * 330) % 2 ^ 16 = i * 330 := Nat.mod_eq_of_lt (by omega)
  have hnobit : ¬ (s.lp.mask &&& (1 <<< i) % 2 ^ 64 ≠ 0) := by
    rw [Nat.and_comm, mask_bit_test i s.lp.mask hi64, hmask i]
    simp [hiS]
  have hsrclen : ((tx.payload.drop (i * 330)).take (chunk_len tx.len tx.num_sub_packets i)
      ++ rest).length ≥ chunk_len tx.len tx.num_sub_packets i := by
    simp only [List.length_append, List.length_take, List.length_drop]
    omega
  refine ⟨{ s.lp with
      mask := s.lp.mask ||| (1 <<< i) % 2 ^ 64,
      payload := memcpy_at s.lp.payload (i * 330)
        ((tx.payload.drop (i * 330)).take (chunk_len tx.len tx.num_sub_packets i) ++ rest)
        (chunk_len tx.len tx.num_sub_packets i),
      len := (s.lp.len + chunk_len tx.len tx.num_sub_packets i) % 2 ^ 16 }, ?_, ?_⟩
  · refine ⟨hid, ?_, ?_, ?_, ?_⟩
    · intro j
      simp only
      rw [testBit_set_bit _ i j hi64, hmask j]
      by_cases h1 : j ∈ S
      · simp [h1]
      · by_cases h2 : i = j
        · simp [h2]
        · have h3 : ¬ j = i := fun h => h2 h.symm
          simp [h1, h2, h3]
    · have hsum := sum_chunk_len_le tx.len tx.num_sub_packets S
      simp only [List.map_cons, List.sum_cons]
      rw [hlen, Nat.mod_eq_of_lt (by omega)]
      omega
    · simp only
      rw [memcpy_at_length _ _ _ _ (by omega) hsrclen, hbuf]
    · intro i2 hi2 t ht
      simp only
      rw [memcpy_at_getElem? _ _ _ _ _ (by omega) hsrclen]
      rcases List.mem_cons.1 hi2 with h | h
      · subst h
        have hc : i2 * 330 ≤ i2 * 330 + t ∧
            i2 * 330 + t < i2 * 330 + chunk_len tx.len tx.num_sub_packets i2 := by omega
        rw [if_pos hc, Nat.add_sub_cancel_left,
          List.getElem?_append_left (by
            simp only [List.length_take, List.length_drop]; omega),
          List.getElem?_take_of_lt ht, List.getElem?_drop]
      · have hne : i2 ≠ i := fun h2 => hiS (h2 ▸ h)
        have hcl2 := chunk_len_le tx.len tx.num_sub_packets i2
        have hc : ¬ (i * 330 ≤ i2 * 330 + t ∧
            i2 * 330 + t < i * 330 + chunk_len tx.len tx.num_sub_packets i) := by omega
        rw [if_neg hc]
        exact hbytes i2 h t ht
  · simp only [receive_proc_step, hw, lp_fault_injected_false, Bool.false_eq_true, if_false,
      hid, ne_eq, not_true_eq_false, hnobit, MTK_BULK_DATA_COLLECTION_SUBPACKET_MAX_BYTES,
      hoff, all_done_mask_eq tx.num_sub_packets hn]

theorem perm_map_exists {α β : Type} (f : α → β) {a b : List β} (h : a.Perm b) :
    ∀ l : List α, b = l.map f → ∃ σ : List α, σ.Perm l ∧ a = σ.map f := by
  induction h with
  | nil =>
    intro l hl
    exact ⟨l, List.Perm.refl l, hl⟩
  | cons x _ ih =>
    intro l hl
    obtain ⟨y, l1, rfl, hy, hl1⟩ := List.map_eq_cons_iff.1 hl.symm
    obtain ⟨σ, hσ, ha⟩ := ih l1 hl1.symm
    exact ⟨y :: σ, List.Perm.cons y hσ, by rw [List.map_cons, hy, ha]⟩
  | swap x y l0 =>
    intro l hl
    obtain ⟨u, l1, rfl, hu, hl1⟩ := List.map_eq_cons_iff.1 hl.symm
    obtain ⟨v, l2, rfl, hv, hl2⟩ := List.map_eq_cons_iff.1 hl1
    exact ⟨v :: u :: l2, List.Perm.swap u v l2, by simp [hu, hv, hl2]⟩
  | trans _ _ ih1 ih2 =>
    intro l hl
    obtain ⟨σ2, hσ2, hb⟩ := ih2 l hl
    obtain ⟨σ1, hσ1, ha⟩ := ih1 σ2 hb
    exact ⟨σ1, hσ1.trans hσ2, ha⟩

theorem nodup_lt_length_le (l : List Nat) (n : Nat) (hnd : l.Nodup) (hlt : ∀ i ∈ l, i < n) :
    l.length ≤ n := by
  have hsub : l ⊆ List.range n := fun i hi => List.mem_range.2 (hlt i hi)
  have := (List.subperm_of_subset hnd hsub).length_le
  rwa [List.length_range] at this

theorem mask_full_iff (m n : Nat) (T : List Nat) (hm : ∀ j, m.testBit j = decide (j ∈ T))
    (hT : ∀ i ∈ T, i < n) : m = 2 ^ n - 1 ↔ ∀ j < n, j ∈ T := by
  constructor
  · intro h j hj
    have h1 := hm j
    rw [h, Nat.testBit_two_pow_sub_one] at h1
    simpa [hj] using h1.symm
  · intro h
    apply Nat.eq_of_testBit_eq
    intro j
    rw [hm j, Nat.testBit_two_pow_sub_one]
    by_cases hj : j < n
    · simp [hj, h j hj]
    · have : j ∉ T := fun hjT => hj (hT j hjT)
      simp [hj, this]

theorem deliver_subpacket_frames_run (tx : mtk_bulk_data_collection_packet_t)
    (metadata : mira_net_udp_callback_metadata_t) (hid : tx.id < 2 ^ 16)
    (hn : tx.num_sub_packets ≤ 64)
    (hfit : ∀ i < tx.num_sub_packets,
      i * 330 + chunk_len tx.len tx.num_sub_packets i ≤ tx.payload.length) :
    ∀ (ds : List (List Nat × Nat)) (σ S : List Nat) (s : receive_proc_state)
      (static : List Nat),
      ds.map Prod.fst = σ.map (tx_frame tx) → (σ ++ S).Nodup →
      (∀ i ∈ σ ++ S, i < tx.num_sub_packets) → s.status = receive_status.waiting →
      rx_data tx S s.lp →
      ∃ static1 lp1, rx_data tx (σ.reverse ++ S) lp1 ∧
        ((σ ≠ [] ∧ ∀ j < tx.num_sub_packets, j ∈ σ ++ S) →
          deliver_subpacket_frames metadata static s ds
            = (static1, { s with lp := lp1, status := receive_status.ended },
               [bdc_effect.post_event_bdc_received])) ∧
        (¬ (σ ≠ [] ∧ ∀ j < tx.num_sub_packets, j ∈ σ ++ S) →
          deliver_subpacket_frames metadata static s ds
            = (static1, { s with lp := lp1 }, [])) := by
  intro ds
  induction ds with
  | nil =>
    intro σ S s static hmap _ _ _ hinv
    have hσ : σ = [] := by
      cases σ with
      | nil => rfl
      | cons a l => simp at hmap
    subst hσ
    refine ⟨static, s.lp, by simpa using hinv, ?_, ?_⟩
    · intro h; exact absurd rfl h.1
    · intro _; rfl
  | cons d ds ih =>
    intro σ S s static hmap hnd hlt hw hinv
    obtain ⟨frame, random⟩ := d
    cases σ with
    | nil => simp at hmap
    | cons i σ1 =>
      simp only [List.map_cons, List.cons.injEq] at hmap
      obtain ⟨hframe, hmap1⟩ := hmap
      subst hframe
      have hi : i < tx.num_sub_packets := hlt i (by simp)
      have hnd1 : (i :: (σ1 ++ S)).Nodup := by simpa using hnd
      have hiS : i ∉ S := fun h => (List.nodup_cons.1 hnd1).1 (List.mem_append_right _ h)
      have hndS : S.Nodup := (List.nodup_append.1 (List.nodup_cons.1 hnd1).2).2.1
      have hSlen : S.length ≤ 64 :=
        Nat.le_trans (nodup_lt_length_le S tx.num_sub_packets hndS
          (fun j hj => hlt j (by simp [hj]))) hn
      have hev := mtk_bdcsp_handle_data_tx_frame static tx i metadata hid hi hn (hfit i hi)
      obtain ⟨lp1, hinv1, hstep⟩ := receive_proc_step_store tx S s i
        (static.drop (chunk_len tx.len tx.num_sub_packets i)) metadata.source_address
        metadata.source_port random hn hi hiS hSlen (hfit i hi) hw hinv
      have hfull := mask_full_iff lp1.mask tx.num_sub_packets (i :: S) hinv1.2.1
        (fun j hj => hlt j (by
          rcases List.mem_cons.1 hj with h | h
          · simp [h]
          · simp [h]))
      have hnd2 : (σ1 ++ i :: S).Nodup := List.nodup_middle.2 hnd1
      by_cases hm : lp1.mask = 2 ^ tx.num_sub_packets - 1
      · have hall := hfull.1 hm
        have hσ1 : σ1 = [] := by
          cases σ1 with
          | nil => rfl
          | cons i2 σ2 =>
            exfalso
            have h2 : i2 < tx.num_sub_packets := hlt i2 (by simp)
            have h3 := hall i2 h2
            have h4 : i2 ∉ i :: S := by
              have := (List.nodup_append.1 hnd2).2.2
              exact fun hmem => this (List.mem_cons_self _ _) hmem
            exact h4 h3
        subst hσ1
        have hds : ds = [] := by
          cases ds with
          | nil => rfl
          | cons a l => simp at hmap1
        subst hds
        rw [if_pos hm] at hstep
        refine ⟨(tx.payload.drop (i * 330)).take (chunk_len tx.len tx.num_sub_packets i) ++
            static.drop (chunk_len tx.len tx.num_sub_packets i), lp1, by simpa using hinv1,
          ?_, ?_⟩
        · intro _
          simp only [deliver_subpacket_frames, hev, hstep, List.append_nil]
        · intro hnot
          exact absurd ⟨by simp, fun j hj => by simpa using hall j hj⟩ hnot
      · rw [if_neg hm] at hstep
        obtain ⟨static2, lp2, hinv2, hfin, hcont⟩ := ih σ1 (i :: S) { s with lp := lp1 }
          (((tx.payload.drop (i * 330)).take (chunk_len tx.len tx.num_sub_packets i) ++
            static.drop (chunk_len tx.len tx.num_sub_packets i))) hmap1 hnd2
          (fun j hj => hlt j (by
            rcases List.mem_append.1 hj with h | h
            · simp [h]
            · rcases List.mem_cons.1 h with h | h
              · simp [h]
              · simp [h])) hw hinv1
        have hmemeq : ∀ j, j ∈ σ1 ++ i :: S ↔ j ∈ i :: σ1 ++ S := by
          intro j; simp only [List.mem_append, List.mem_cons, List.cons_append]; tauto
        refine ⟨static2, lp2, by simpa using hinv2, ?_, ?_⟩
        · intro hc
          have hσ1 : σ1 ≠ [] := by
            intro h0
            subst h0
            exact hm (hfull.2 (fun j hj => by simpa using hc.2 j hj))
          have := hfin ⟨hσ1, fun j hj => (hmemeq j).2 (hc.2 j hj)⟩
          simp only [deliver_subpacket_frames, hev, hstep, List.nil_append]
          rw [this]
        · intro hc
          have hc2 : ¬ (σ1 ≠ [] ∧ ∀ j < tx.num_sub_packets, j ∈ σ1 ++ i :: S) := by
            intro h
            exact hc ⟨by simp, fun j hj => (hmemeq j).1 (h.2 j hj)⟩
          have := hcont hc2
          simp only [deliver_subpacket_frames, hev, hstep, List.nil_append]
          rw [this]

theorem sum_map_range_const (f : Nat → Nat) (c : Nat) :
    ∀ m, (∀ i < m, f i = c) → ((List.range m).map f).sum = c * m := by
  intro m
  induction m with
  | zero => intro _; simp
  | succ m ih =>
    intro h
    rw [List.sum_range_succ, ih (fun i hi => h i (Nat.lt_succ_of_lt hi)), h m (Nat.lt_succ_self m)]
    ring

theorem sum_chunk_len_range (len : Nat) (h1 : 1 ≤ len) :
    ((List.range (len / 330 + (if len % 330 ≠ 0 then 1 else 0))).map
      (chunk_len len (len / 330 + (if len % 330 ≠ 0 then 1 else 0)))).sum = len := by
  have hdm := Nat.div_add_mod len 330
  obtain ⟨m, hm⟩ : ∃ m, len / 330 + (if len % 330 ≠ 0 then 1 else 0) = m + 1 := by
    by_cases hr : len % 330 = 0
    · exact ⟨len / 330 - 1, by simp only [hr, ne_eq, not_true_eq_false, if_false]; omega⟩
    · exact ⟨len / 330, by simp only [hr, ne_eq, not_false_eq_true, if_true]⟩
  rw [hm, List.sum_range_succ,
    sum_map_range_const _ 330 m (fun i hi => by
      have : ¬ i = m + 1 - 1 := by omega
      unfold chunk_len
      rw [if_neg this])]
  by_cases hr : len % 330 = 0
  · simp only [hr, ne_eq, not_true_eq_false, if_false] at hm
    simp only [chunk_len, Nat.add_sub_cancel, if_true, hr]
    omega
  · simp only [hr, ne_eq, not_false_eq_true, if_true] at hm
    simp only [chunk_len, Nat.add_sub_cancel, if_true, hr, if_false]
    omega

theorem byte_in_chunk (len p : Nat) (hp : p < len) :
    p / 330 < len / 330 + (if len % 330 ≠ 0 then 1 else 0) ∧
    p % 330 < chunk_len len (len / 330 + (if len % 330 ≠ 0 then 1 else 0)) (p / 330) := by
  have hdm := Nat.div_add_mod len 330
  have hdp := Nat.div_add_mod p 330
  have hpm : p % 330 < 330 := Nat.mod_lt _ (by norm_num)
  unfold chunk_len
  by_cases hr : len % 330 = 0
  · simp only [hr, ne_eq, not_true_eq_false, if_false, Nat.add_zero, if_true]
    constructor
    · omega
    · split <;> omega
  · simp only [hr, ne_eq, not_false_eq_true, if_true, if_false]
    constructor
    · omega
    · split <;> omega

theorem getElem_not_mem_take (σ : List Nat) (hnd : σ.Nodup) (k : Nat) (hk : k < σ.length) :
    σ[k] ∉ σ.take k := by
  intro hmem
  obtain ⟨i, hi, heq⟩ := List.mem_take_iff_getElem.1 hmem
  have hik : i < k := Nat.lt_of_lt_of_le hi (Nat.min_le_left _ _)
  have := hnd.getElem_inj_iff.1 heq
  omega

/-- C1: a payload of 1 to 21120 bytes registered with
`mtk_bulk_data_collection_register_tx` and sent by the sending process with the
whole mask for `num_sub_packets`, every send succeeding, arrives complete:
whatever the order in which the emitted datagrams are handed to
`mtk_bdcsp_handle_data` and their events to a receive process started on the
same id with `mask = 0`, `len = 0` and a destination buffer of 21120 bytes,
the process is still waiting and has posted nothing after every proper prefix
of the deliveries, and after the last one it has ended with
`event_bdc_received` posted once, `mask` the whole mask, `len` the sender's
length and the first `len` bytes of the buffer equal to the payload. -/
theorem bulk_transfer_any_order (lp_tx lp_rx : mtk_bulk_data_collection_packet_t)
    (packet_id : Nat) (payload : List Nat) (send_ok : Nat → Bool) (fuel : Nat)
    (metadata : mira_net_udp_callback_metadata_t) (static : List Nat)
    (h1 : 1 ≤ payload.length) (h2 : payload.length ≤ 21120) (hid : packet_id < 2 ^ 16)
    (hok : ∀ t, send_ok t = true) (hfuel : 64 ≤ fuel)
    (hrx1 : lp_rx.id = packet_id) (hrx2 : lp_rx.mask = 0) (hrx3 : lp_rx.len = 0)
    (hrx4 : lp_rx.payload.length = 21120) :
    ∃ tx whole tx_end effects,
      mtk_bulk_data_collection_register_tx lp_tx packet_id (some payload) payload.length
        = (0, tx) ∧
      mtk_bulk_data_collection_send_whole_mask_get tx.num_sub_packets = (0, whole) ∧
      mtk_bulk_data_collection_send_proc true send_ok fuel { tx with mask := whole }
        = some (tx_end, false, effects) ∧
      tx_end.mask = 0 ∧ (sent_frames effects).length = tx.num_sub_packets ∧
      ∀ deliveries : List (List Nat × Nat),
        (deliveries.map Prod.fst).Perm (sent_frames effects) →
        (∀ k < deliveries.length,
          (deliver_subpacket_frames metadata static (receive_proc_start lp_rx)
            (deliveries.take k)).2.1.status = receive_status.waiting ∧
          (deliver_subpacket_frames metadata static (receive_proc_start lp_rx)
            (deliveries.take k)).2.2 = []) ∧
        (deliver_subpacket_frames metadata static (receive_proc_start lp_rx)
          deliveries).2.1.status = receive_status.ended ∧
        (deliver_subpacket_frames metadata static (receive_proc_start lp_rx)
          deliveries).2.2 = [bdc_effect.post_event_bdc_received] ∧
        (deliver_subpacket_frames metadata static (receive_proc_start lp_rx)
          deliveries).2.1.lp.mask = whole ∧
        (deliver_subpacket_frames metadata static (receive_proc_start lp_rx)
          deliveries).2.1.lp.len = payload.length ∧
        (deliver_subpacket_frames metadata static (receive_proc_start lp_rx)
          deliveries).2.1.lp.payload.take payload.length = payload := by
  obtain ⟨hn1, hn64, hneq⟩ := num_sub_packets_bounds payload.length h1 h2
  generalize hN : (payload.length / 330 + (if payload.length % 330 ≠ 0 then 1 else 0)) % 2 ^ 8
    = N at hn1 hn64 hneq
  have hreg := register_tx_ok lp_tx packet_id payload payload.length h1 h2
  rw [hN] at hreg
  have hsend := send_proc_whole_mask send_ok hok
    { lp_tx with payload := payload, len := payload.length, id := packet_id,
                 num_sub_packets := N, mask := 2 ^ N - 1 } hn64 rfl fuel (by
      show N ≤ fuel
      omega)
  have hfit : ∀ i < N, i * 330 + chunk_len payload.length N i ≤ payload.length := by
    intro i hi
    have := chunk_fits payload.length i (by rw [← hneq]; exact hi)
    rwa [← hneq] at this
  refine ⟨_, 2 ^ N - 1, _, _, hreg, whole_mask_get_eq N hn64, hsend, rfl, ?_, ?_⟩
  · rw [sent_frames_tx_effect]
    simp
  intro ds hperm
  rw [sent_frames_tx_effect] at hperm
  obtain ⟨σ, hσ, hmap⟩ := perm_map_exists _ hperm (List.range N) rfl
  have hσnd : σ.Nodup := (hσ.nodup_iff).2 (List.nodup_range N)
  have hσlt : ∀ i ∈ σ, i < N := fun i hi => List.mem_range.1 ((hσ.mem_iff).1 hi)
  have hσlen : σ.length = N := by rw [hσ.length_eq, List.length_range]
  have hdslen : ds.length = σ.length := by
    have := congrArg List.length hmap
    simpa using this
  have hrx0 : rx_data
      { lp_tx with payload := payload, len := payload.length, id := packet_id,
                   num_sub_packets := N, mask := 2 ^ N - 1 } [] (receive_proc_start lp_rx).lp := by
    refine ⟨hrx1, ?_, ?_, hrx4, ?_⟩
    · intro j
      show lp_rx.mask.testBit j = _
      rw [hrx2, Nat.zero_testBit]; simp
    · show lp_rx.len = _
      rw [hrx3]; simp
    · intro i hi; simp at hi
  have hrun := deliver_subpacket_frames_run
    { lp_tx with payload := payload, len := payload.length, id := packet_id,
                 num_sub_packets := N, mask := 2 ^ N - 1 } metadata hid hn64 hfit
  refine ⟨?_, ?_⟩
  · intro k hk
    obtain ⟨st1, lp1, _, _, hcont⟩ := hrun (ds.take k) (σ.take k) [] (receive_proc_start lp_rx)
      static (by rw [List.map_take, List.map_take, hmap])
      (by simpa using hσnd.sublist (List.take_sublist k σ))
      (fun i hi => hσlt i (List.mem_of_mem_take (by simpa using hi))) rfl hrx0
    have hkσ : k < σ.length := by omega
    have hnot : ¬ (σ.take k ≠ [] ∧ ∀ j < N, j ∈ σ.take k ++ []) := by
      intro h
      have := h.2 σ[k] (hσlt _ (List.getElem_mem hkσ))
      exact getElem_not_mem_take σ hσnd k hkσ (by simpa using this)
    rw [hcont hnot]
    exact ⟨rfl, rfl⟩
  · obtain ⟨st1, lp1, hinv, hfin, _⟩ := hrun ds σ [] (receive_proc_start lp_rx) static hmap
      (by simpa using hσnd) (fun i hi => hσlt i (by simpa using hi)) rfl hrx0
    have hfull : σ ≠ [] ∧ ∀ j < N, j ∈ σ ++ [] := by
      refine ⟨?_, fun j hj => ?_⟩
      · intro h0
        rw [h0] at hσlen
        simp at hσlen
        omega
      · simpa using (hσ.mem_iff).2 (List.mem_range.2 hj)
    rw [hfin hfull]
    obtain ⟨_, hmask, hlen, hbuf, hbytes⟩ := hinv
    have hperm2 : (σ.reverse ++ []).Perm (List.range N) := by
      simpa using (List.reverse_perm σ).trans hσ
    refine ⟨rfl, rfl, ?_, ?_, ?_⟩
    · show lp1.mask = 2 ^ N - 1
      exact (mask_full_iff lp1.mask N (σ.reverse ++ []) hmask
        (fun i hi => List.mem_range.1 ((hperm2.mem_iff).1 hi))).2
        (fun j hj => (hperm2.mem_iff).2 (List.mem_range.2 hj))
    · show lp1.len = payload.length
      rw [hlen, (hperm2.map _).sum_eq]
      have := sum_chunk_len_range payload.length h1
      rw [← hneq] at this
      exact this
    · show lp1.payload.take payload.length = payload
      apply List.ext_getElem?
      intro p
      by_cases hp : p < payload.length
      · rw [List.getElem?_take_of_lt hp]
        have hb := byte_in_chunk payload.length p hp
        rw [← hneq] at hb
        have hmem : p / 330 ∈ σ.reverse ++ [] := (hperm2.mem_iff).2 (List.mem_range.2 hb.1)
        have := hbytes (p / 330) hmem (p % 330) hb.2
        have hpe : p / 330 * 330 + p % 330 = p := by
          have := Nat.div_add_mod p 330
          omega
        rw [hpe] at this
        exact this
      · rw [List.getElem?_eq_none (by
          rw [List.length_take]; omega), List.getElem?_eq_none (by omega)]

theorem bulk_transfer_any_order_witness :
    ∃ tx whole tx_end effects,
      mtk_bulk_data_collection_register_tx example_lp_tx 42 (some example_payload)
          example_payload.length = (0, tx) ∧
      mtk_bulk_data_collection_send_whole_mask_get tx.num_sub_packets = (0, whole) ∧
      mtk_bulk_data_collection_send_proc true (fun _ => true) 64 { tx with mask := whole }
        = some (tx_end, false, effects) ∧
      tx_end.mask = 0 ∧ (sent_frames effects).length = tx.num_sub_packets ∧
      ∀ deliveries : List (List Nat × Nat),
        (deliveries.map Prod.fst).Perm (sent_frames effects) →
        (∀ k < deliveries.length,
          (deliver_subpacket_frames example_metadata [] (receive_proc_start example_lp_rx)
            (deliveries.take k)).2.1.status = receive_status.waiting ∧
          (deliver_subpacket_frames example_metadata [] (receive_proc_start example_lp_rx)
            (deliveries.take k)).2.2 = []) ∧
        (deliver_subpacket_frames example_metadata [] (receive_proc_start example_lp_rx)
          deliveries).2.1.status = receive_status.ended ∧
        (deliver_subpacket_frames example_metadata [] (receive_proc_start example_lp_rx)
          deliveries).2.2 = [bdc_effect.post_event_bdc_received] ∧
        (deliver_subpacket_frames example_metadata [] (receive_proc_start example_lp_rx)
          deliveries).2.1.lp.mask = whole ∧
        (deliver_subpacket_frames example_metadata [] (receive_proc_start example_lp_rx)
          deliveries).2.1.lp.len = example_payload.length ∧
        (deliver_subpacket_frames example_metadata [] (receive_proc_start example_lp_rx)
          deliveries).2.1.lp.payload.take example_payload.length = example_payload :=
  bulk_transfer_any_order example_lp_tx example_lp_rx 42 example_payload (fun _ => true) 64
    example_metadata []
    (by simp only [example_payload, List.length_replicate]; decide)
    (by simp only [example_payload, List.length_replicate]; decide) (by decide) (fun _ => rfl)
    (Nat.le_refl 64) rfl rfl rfl (by simp only [example_lp_rx, List.length_replicate])

/-- Scenario S3 on the sender: 700 bytes make three sub-packets, the whole mask
is `0b111`, and the last sub-packet picked when only bit 2 is left has 40 bytes
at offset 660. -/
theorem scenario_s3_sender :
    (mtk_bulk_data_collection_register_tx example_lp_tx 42 (some example_payload) 700).1 = 0 ∧
    (mtk_bulk_data_collection_register_tx example_lp_tx 42 (some example_payload)
      700).2.num_sub_packets = 3 ∧
    mtk_bulk_data_collection_send_whole_mask_get 3 = (0, 7) ∧
    pick_next_to_send
      { example_lp_tx with len := 700, id := 42, num_sub_packets := 3, mask := 4 }
      = { index := 2, len := 40, payload := some 660 } := by
  refine ⟨by decide, by decide, by decide, by decide⟩

/-! ## Wire format -/

theorem byte_of_shift (v k : Nat) : (v >>> k) &&& 0xff = v / 2 ^ k % 256 := by
  rw [Nat.shiftRight_eq_div_pow]
  exact Nat.and_pow_two_sub_one_eq_mod _ 8

theorem LITTLE_ENDIAN_STORE_one (v : Nat) : LITTLE_ENDIAN_STORE 1 v = [v % 256] := by
  simp [LITTLE_ENDIAN_STORE, List.range_succ, byte_of_shift]

theorem LITTLE_ENDIAN_STORE_two (v : Nat) :
    LITTLE_ENDIAN_STORE 2 v = [v % 256, v / 2 ^ 8 % 256] := by
  simp [LITTLE_ENDIAN_STORE, List.range_succ, byte_of_shift]

theorem LITTLE_ENDIAN_STORE_eight (v : Nat) :
    LITTLE_ENDIAN_STORE 8 v
      = [v % 256, v / 2 ^ 8 % 256, v / 2 ^ 16 % 256, v / 2 ^ 24 % 256, v / 2 ^ 32 % 256,
         v / 2 ^ 40 % 256, v / 2 ^ 48 % 256, v / 2 ^ 56 % 256] := by
  simp [LITTLE_ENDIAN_STORE, List.range_succ, byte_of_shift]

/-- C11: the request frame written by `lpreq_pack_buffer`, and handed to
`mira_net_udp_send_to` by `mtk_bdcreq_send`, has exactly 14 bytes: `0xF2`,
`0x2A`, the two bytes of `packet_id`, the eight bytes of `mask` and the two
bytes of `period_ms`, each least significant byte first; for packet 42, mask
`0x0123456789ABCDEF` and period 500 these are
`F2 2A 2A 00 EF CD AB 89 67 45 23 01 F4 01`. -/
theorem lpreq_pack_buffer_bytes (packet_id mask period_ms : Nat) (send_ok : Bool)
    (dst dst_port : Nat) :
    lpreq_pack_buffer packet_id mask period_ms
      = [0xF2, 0x2A, packet_id % 256, packet_id / 2 ^ 8 % 256,
         mask % 256, mask / 2 ^ 8 % 256, mask / 2 ^ 16 % 256, mask / 2 ^ 24 % 256,
         mask / 2 ^ 32 % 256, mask / 2 ^ 40 % 256, mask / 2 ^ 48 % 256, mask / 2 ^ 56 % 256,
         period_ms % 256, period_ms / 2 ^ 8 % 256] ∧
    (lpreq_pack_buffer packet_id mask period_ms).length = 14 ∧
    (mtk_bdcreq_send send_ok dst dst_port packet_id mask period_ms).2
      = [bdc_effect.udp_send_to dst dst_port (lpreq_pack_buffer packet_id mask period_ms) 14] ∧
    lpreq_pack_buffer 42 0x0123456789ABCDEF 500
      = [0xF2, 0x2A, 0x2A, 0x00, 0xEF, 0xCD, 0xAB, 0x89, 0x67, 0x45, 0x23, 0x01, 0xF4, 0x01] := by
  have h : lpreq_pack_buffer packet_id mask period_ms
      = [0xF2, 0x2A, packet_id % 256, packet_id / 2 ^ 8 % 256,
         mask % 256, mask / 2 ^ 8 % 256, mask / 2 ^ 16 % 256, mask / 2 ^ 24 % 256,
         mask / 2 ^ 32 % 256, mask / 2 ^ 40 % 256, mask / 2 ^ 48 % 256, mask / 2 ^ 56 % 256,
         period_ms % 256, period_ms / 2 ^ 8 % 256] := by
    simp [lpreq_pack_buffer, lpreq_header, LITTLE_ENDIAN_STORE_two, LITTLE_ENDIAN_STORE_eight]
  refine ⟨h, by rw [h]; rfl, rfl, by decide⟩

/-- C20: for `n_sub_packets <= 64`, `mtk_bulk_data_collection_send_whole_mask_get`
returns 0 and stores `2 ^ n - 1`, the mask with exactly the `n` lowest bits
set (all 64 bits for 64, nothing for 0); for `n_sub_packets > 64` it returns
`-1` and stores 0. -/
theorem send_whole_mask_get_spec (n_sub_packets : Nat) :
    (n_sub_packets ≤ 64 →
      mtk_bulk_data_collection_send_whole_mask_get n_sub_packets
        = (0, 2 ^ n_sub_packets - 1) ∧
      ∀ j, (2 ^ n_sub_packets - 1).testBit j = decide (j < n_sub_packets)) ∧
    (n_sub_packets > 64 →
      mtk_bulk_data_collection_send_whole_mask_get n_sub_packets = (-1, 0)) ∧
    mtk_bulk_data_collection_send_whole_mask_get 64 = (0, 0xFFFFFFFFFFFFFFFF) ∧
    mtk_bulk_data_collection_send_whole_mask_get 0 = (0, 0) := by
  refine ⟨fun h => ⟨whole_mask_get_eq n_sub_packets h,
    fun j => Nat.testBit_two_pow_sub_one n_sub_packets j⟩, ?_, by decide, by decide⟩
  intro h
  simp [mtk_bulk_data_collection_send_whole_mask_get,
    MTK_BULK_DATA_COLLECTION_MAX_NUMBER_OF_SUBPACKETS, h]

theorem send_whole_mask_get_spec_witness :
    mtk_bulk_data_collection_send_whole_mask_get 3 = (0, 7) ∧
    mtk_bulk_data_collection_send_whole_mask_get 65 = (-1, 0) :=
  ⟨((send_whole_mask_get_spec 3).1 (by decide)).1,
   (send_whole_mask_get_spec 65).2.1 (by decide)⟩

/-- C13 fails on the code: `lpsig_unpack_buffer` and `lpreq_unpack_buffer` take
the length as a `uint8_t`, so a 16-bit `data_len` reaches the size test modulo
256. A datagram of 261 bytes that starts with a signal makes
`mtk_bdcsig_handle_data` post `event_bdc_signaled_ready`, and a datagram of
270 bytes that starts with a request makes `mtk_bdcreq_handle_data` post
`event_bdc_requested`. -/
theorem fixed_size_handlers_accept_longer :
    mtk_bdcsig_handle_data example_long_signal 261 example_metadata
      = some { n_sub_packets := 3, packet_id := 42, src := 7, src_port := 456 } ∧
    mtk_bdcreq_handle_data example_long_request 270 example_metadata
      = some { packet_id := 42, mask := 0x0123456789ABCDEF, period_ms := 500,
               src := 7, src_port := 456 } := by
  refine ⟨by decide, by decide⟩

/-- What the size tests of the fixed-size handlers amount to: a datagram with
the right header is accepted exactly when its length is 5, respectively 14,
modulo 256. -/
theorem fixed_size_handlers_accept_iff (data : List Nat) (data_len : Nat)
    (metadata : mira_net_udp_callback_metadata_t) :
    (header_differs data lpsig_header = false → 2 ≤ data_len →
      ((mtk_bdcsig_handle_data data data_len metadata).isSome ↔ data_len % 2 ^ 8 = 5)) ∧
    (header_differs data lpreq_header = false →
      ((mtk_bdcreq_handle_data data data_len metadata).isSome ↔ data_len % 2 ^ 8 = 14)) := by
  constructor
  · intro hh h2
    have h3 : ¬ data_len < 2 := by omega
    by_cases h : data_len % 256 = 5
    · simp [mtk_bdcsig_handle_data, MTK_BULK_DATA_COLLECTION_HEADER_SIZE, h3, hh,
        lpsig_unpack_buffer, h]
    · simp [mtk_bdcsig_handle_data, MTK_BULK_DATA_COLLECTION_HEADER_SIZE, h3, hh,
        lpsig_unpack_buffer, h]
  · intro hh
    by_cases h : data_len % 256 = 14
    · simp [mtk_bdcreq_handle_data, hh, lpreq_unpack_buffer, h]
    · simp [mtk_bdcreq_handle_data, hh, lpreq_unpack_buffer, h]

theorem LITTLE_ENDIAN_LOAD_two_drop (data : List Nat) (off : Nat)
    (h0 : data.getD off 0 < 256) (h1 : data.getD (off + 1) 0 < 256) :
    LITTLE_ENDIAN_LOAD 2 (data.drop off) = data.getD off 0 + 256 * data.getD (off + 1) 0 := by
  have e0 : (data.drop off).getD 0 0 = data.getD off 0 := by
    simp [List.getD_eq_getElem?_getD, List.getElem?_drop]
  have e1 : (data.drop off).getD 1 0 = data.getD (off + 1) 0 := by
    simp [List.getD_eq_getElem?_getD, List.getElem?_drop]
  rw [LITTLE_ENDIAN_LOAD_eq 2 (by norm_num) _ (by
    intro i hi
    have : i = 0 ∨ i = 1 := by omega
    rcases this with h | h
    · rw [h, e0]; exact h0
    · rw [h, e1]; exact h1)]
  simp only [le_value, e0, e1]
  omega

/-- C14: for a datagram that starts with the sub-packet header (bytes 6 and 7
being bytes), `mtk_bdcsp_handle_data` posts `event_bdc_subpacket_received`
exactly when `data_len` equals `8 + payload_len`, with `payload_len` the
little-endian 16-bit value of bytes 6 and 7; in particular it posts nothing
for a datagram of fewer than 8 bytes, whatever memory follows the datagram. -/
theorem mtk_bdcsp_handle_data_posts_iff (payload data : List Nat) (data_len : Nat)
    (metadata : mira_net_udp_callback_metadata_t)
    (hh : header_differs data lpsp_header = false)
    (h6 : data.getD 6 0 < 256) (h7 : data.getD 7 0 < 256) :
    ((mtk_bdcsp_handle_data payload data data_len metadata).isSome
      ↔ data_len = 8 + (data.getD 6 0 + 256 * data.getD 7 0)) ∧
    (data_len < 8 → mtk_bdcsp_handle_data payload data data_len metadata = none) := by
  have hpl : LITTLE_ENDIAN_LOAD 2 (List.drop 6 data)
      = data.getD 6 0 + 256 * data.getD 7 0 := LITTLE_ENDIAN_LOAD_two_drop data 6 h6 h7
  have hiff : (mtk_bdcsp_handle_data payload data data_len metadata).isSome
      ↔ data_len = 8 + (data.getD 6 0 + 256 * data.getD 7 0) := by
    by_cases h : data_len = 8 + (data.getD 6 0 + 256 * data.getD 7 0)
    · have h2 : ¬ data_len < 2 := by omega
      have h3 : ¬ data_len ≠ 8 + LITTLE_ENDIAN_LOAD 2 (List.drop 6 data) := by
        rw [hpl]; omega
      have hsome : (mtk_bdcsp_handle_data payload data data_len metadata).isSome = true := by
        simp only [mtk_bdcsp_handle_data, MTK_BULK_DATA_COLLECTION_HEADER_SIZE, h2, if_false, hh,
          Bool.false_eq_true, lpsp_unpack_buffer, List.drop_drop, Nat.reduceAdd, h3]
        rfl
      exact ⟨fun _ => h, fun _ => hsome⟩
    · have hnone : mtk_bdcsp_handle_data payload data data_len metadata = none := by
        by_cases h2 : data_len < 2
        · simp only [mtk_bdcsp_handle_data, MTK_BULK_DATA_COLLECTION_HEADER_SIZE, h2, if_true]
        · have h3 : data_len ≠ 8 + LITTLE_ENDIAN_LOAD 2 (List.drop 6 data) := by
            rw [hpl]; omega
          simp only [mtk_bdcsp_handle_data, MTK_BULK_DATA_COLLECTION_HEADER_SIZE, h2, if_false,
            hh, Bool.false_eq_true, lpsp_unpack_buffer, List.drop_drop, Nat.reduceAdd]
          rw [if_pos h3]
      exact ⟨fun hs => by rw [hnone] at hs; exact absurd hs (by simp), fun hp => absurd hp h⟩
  refine ⟨hiff, fun hlt => ?_⟩
  have hnot : ¬ (mtk_bdcsp_handle_data payload data data_len metadata).isSome := by
    rw [hiff]; omega
  simpa using hnot

theorem mtk_bdcsp_handle_data_posts_iff_witness :
    ((mtk_bdcsp_handle_data [] [0x1f, 0xb3, 42, 0, 1, 3, 2, 0, 7, 7] 10
        example_metadata).isSome ↔ 10 = 8 + (2 + 256 * 0)) ∧
    (7 < 8 → mtk_bdcsp_handle_data [] [0x1f, 0xb3, 42, 0, 1, 3, 2, 0, 7, 7] 7
        example_metadata = none) :=
  ⟨(mtk_bdcsp_handle_data_posts_iff [] [0x1f, 0xb3, 42, 0, 1, 3, 2, 0, 7, 7] 10
      example_metadata (by decide) (by decide) (by decide)).1,
   (mtk_bdcsp_handle_data_posts_iff [] [0x1f, 0xb3, 42, 0, 1, 3, 2, 0, 7, 7] 7
      example_metadata (by decide) (by decide) (by decide)).2⟩

/-! ## Broadcast item table -/

theorem find?_range'_first (p : Nat → Bool) (i : Nat) (hp : p i = true) :
    ∀ (n a : Nat), a ≤ i → i < a + n → (∀ j, a ≤ j → j < i → p j = false) →
      (List.range' a n).find? p = some i := by
  intro n
  induction n with
  | zero => intro a h1 h2 _; omega
  | succ n ih =>
    intro a h1 h2 hlow
    rw [List.range'_succ]
    by_cases hai : a = i
    · subst hai
      simp [List.find?, hp]
    · have hpa : p a = false := hlow a (Nat.le_refl a) (by omega)
      simp only [List.find?, hpa]
      exact ih (a + 1) (by omega) (by omega) (fun j hj1 hj2 => hlow j (by omega) hj2)

theorem broadcast_ctx_find_none (s : broadcast_state) (data_id : Nat)
    (h : ∀ i < s.broadcast_num_ctx, (ctx_at s i).id ≠ data_id) :
    broadcast_ctx_find s data_id = none := by
  unfold broadcast_ctx_find
  rw [List.find?_eq_none]
  intro i hi
  have := h i (List.mem_range.1 hi)
  simpa using this

theorem broadcast_ctx_find_first (s : broadcast_state) (i : Nat)
    (hi : i < s.broadcast_num_ctx)
    (hfirst : ∀ j < i, (ctx_at s j).id ≠ (ctx_at s i).id) :
    broadcast_ctx_find s (ctx_at s i).id = some i := by
  unfold broadcast_ctx_find
  rw [List.range_eq_range']
  exact find?_range'_first _ i (by simp) s.broadcast_num_ctx 0 (Nat.zero_le _) (by omega)
    (fun j _ hj => by simpa using hfirst j hj)

/-- C15: when the table already holds `MTK_BROADCAST_NUM_CTX = 4` items,
`mtk_broadcast_register` returns `MTK_BROADCAST_ERROR_NO_MEMORY` for every
argument and changes nothing: the table, the count, the list and every item
are as before. -/
theorem mtk_broadcast_register_full (ops : trickle_timer_ops) (s : broadcast_state)
    (data_id : Nat) (data : List Nat) (size update_handler storage : Nat)
    (hfull : s.broadcast_num_ctx = 4) :
    MTK_BROADCAST_NUM_CTX = 4 ∧
    mtk_broadcast_register ops s data_id data size update_handler storage
      = (mtk_broadcast_status_t.MTK_BROADCAST_ERROR_NO_MEMORY, s) := by
  refine ⟨rfl, ?_⟩
  simp [mtk_broadcast_register, MTK_BROADCAST_NUM_CTX, hfull]

/-- C16: while `mtk_broadcast_init` has not succeeded
(`broadcast_net_initialized` is not set, and a failing `mtk_broadcast_init`
leaves it so), `mtk_broadcast_register` on a table that is not full returns
`MTK_BROADCAST_ERROR_INTERNAL`, and neither the list that
`broadcast_udp_callback` walks nor any slot of the table changes. -/
theorem mtk_broadcast_register_before_init (ops : trickle_timer_ops) (s : broadcast_state)
    (data_id : Nat) (data : List Nat) (size update_handler storage : Nat)
    (hinit : s.broadcast_net_initialized = false) (hroom : s.broadcast_num_ctx < 4) :
    (mtk_broadcast_register ops s data_id data size update_handler storage).1
      = mtk_broadcast_status_t.MTK_BROADCAST_ERROR_INTERNAL ∧
    (mtk_broadcast_register ops s data_id data size update_handler storage).2.broadcast_ctx_base
      = s.broadcast_ctx_base ∧
    (mtk_broadcast_register ops s data_id data size update_handler storage).2.broadcast_ctx
      = s.broadcast_ctx ∧
    routed_items (mtk_broadcast_register ops s data_id data size update_handler storage).2
      = routed_items s ∧
    (∀ addr port bind_result join_ok,
      (mtk_broadcast_init s addr port bind_result join_ok).1
          ≠ mtk_broadcast_status_t.MTK_BROADCAST_SUCCESS →
        (mtk_broadcast_init s addr port bind_result join_ok).2.broadcast_net_initialized
          = false) := by
  have hnot : ¬ s.broadcast_num_ctx ≥ 4 := by omega
  have hreg : mtk_broadcast_register ops s data_id data size update_handler storage
      = (mtk_broadcast_status_t.MTK_BROADCAST_ERROR_INTERNAL,
         { s with broadcast_num_ctx := s.broadcast_num_ctx + 1 }) := by
    simp [mtk_broadcast_register, MTK_BROADCAST_NUM_CTX, hnot,
      mtk_int_broadcast_worker_register, hinit]
  rw [hreg]
  refine ⟨rfl, rfl, rfl, rfl, ?_⟩
  intro addr port bind_result join_ok hfail
  cases bind_result with
  | none => simp [mtk_broadcast_init, mtk_int_broadcast_worker_init_net, hinit]
  | some c =>
    cases join_ok with
    | false => simp [mtk_broadcast_init, mtk_int_broadcast_worker_init_net, hinit]
    | true =>
      exfalso
      apply hfail
      simp [mtk_broadcast_init, mtk_int_broadcast_worker_init_net, hinit]

/-- The search misses: for a `data_id` that no slot below `broadcast_num_ctx`
carries, `mtk_broadcast_update`, `mtk_broadcast_pause` and
`mtk_broadcast_resume` return `MTK_BROADCAST_ERROR_NOT_INITIALIZED` and change
nothing: every item and every timer is as before. -/
theorem mtk_broadcast_unknown_id (api : trickle_timer_api) (ops : trickle_timer_ops)
    (s : broadcast_state) (data_id : Nat) (data : List Nat) (size random : Nat)
    (h : ∀ i < s.broadcast_num_ctx, (ctx_at s i).id ≠ data_id) :
    mtk_broadcast_update ops s data_id data size random
      = (mtk_broadcast_status_t.MTK_BROADCAST_ERROR_NOT_INITIALIZED, s) ∧
    mtk_broadcast_pause ops s data_id
      = (mtk_broadcast_status_t.MTK_BROADCAST_ERROR_NOT_INITIALIZED, s) ∧
    mtk_broadcast_resume api ops s data_id
      = (mtk_broadcast_status_t.MTK_BROADCAST_ERROR_NOT_INITIALIZED, s) := by
  have hf := broadcast_ctx_find_none s data_id h
  refine ⟨?_, ?_, ?_⟩
  · simp [mtk_broadcast_update, hf]
  · simp [mtk_broadcast_pause, hf]
  · simp [mtk_broadcast_resume, hf]

/-- C19: for an item of the table that the search reaches (no slot before it
has the same id) and whose timer is not stopped, `mtk_broadcast_resume` returns
`MTK_BROADCAST_ERROR_INTERNAL` and changes nothing: the item and its timer are
as before, `mtk_trickle_timer_set` is not called. -/
theorem mtk_broadcast_resume_running (api : trickle_timer_api) (ops : trickle_timer_ops)
    (s : broadcast_state) (i : Nat) (hi : i < s.broadcast_num_ctx)
    (hfirst : ∀ j < i, (ctx_at s j).id ≠ (ctx_at s i).id)
    (hrun : (ctx_at s i).timer.i_cur ≠ api.MTK_TRICKLE_TIMER_IS_STOPPED) :
    mtk_broadcast_resume api ops s (ctx_at s i).id
      = (mtk_broadcast_status_t.MTK_BROADCAST_ERROR_INTERNAL, s) := by
  have hf := broadcast_ctx_find_first s i hi hfirst
  unfold mtk_broadcast_resume
  rw [hf]
  by_cases h0 : (ctx_at s i).id = 0
  · simp [mtk_int_broadcast_worker_resume, h0]
  · simp [mtk_int_broadcast_worker_resume, h0, hrun]

theorem mtk_broadcast_register_full_witness :
    MTK_BROADCAST_NUM_CTX = 4 ∧
    mtk_broadcast_register spec_trickle_timer_ops example_state_full 9 [70] 1 0 0
      = (mtk_broadcast_status_t.MTK_BROADCAST_ERROR_NO_MEMORY, example_state_full) :=
  mtk_broadcast_register_full spec_trickle_timer_ops example_state_full 9 [70] 1 0 0
    (by decide)

theorem mtk_broadcast_register_before_init_witness :
    (mtk_broadcast_register spec_trickle_timer_ops broadcast_state_start 5 [65] 1 7 8).1
      = mtk_broadcast_status_t.MTK_BROADCAST_ERROR_INTERNAL ∧
    (mtk_broadcast_register spec_trickle_timer_ops broadcast_state_start 5 [65] 1 7
      8).2.broadcast_ctx_base = [] :=
  ⟨(mtk_broadcast_register_before_init spec_trickle_timer_ops broadcast_state_start 5 [65] 1 7 8
      (by decide) (by decide)).1,
   (mtk_broadcast_register_before_init spec_trickle_timer_ops broadcast_state_start 5 [65] 1 7 8
      (by decide) (by decide)).2.1⟩

theorem mtk_broadcast_unknown_id_witness :
    mtk_broadcast_update spec_trickle_timer_ops example_state_one 7 [70] 1 3
      = (mtk_broadcast_status_t.MTK_BROADCAST_ERROR_NOT_INITIALIZED, example_state_one) ∧
    mtk_broadcast_pause spec_trickle_timer_ops example_state_one 7
      = (mtk_broadcast_status_t.MTK_BROADCAST_ERROR_NOT_INITIALIZED, example_state_one) ∧
    mtk_broadcast_resume spec_trickle_timer spec_trickle_timer_ops example_state_one 7
      = (mtk_broadcast_status_t.MTK_BROADCAST_ERROR_NOT_INITIALIZED, example_state_one) :=
  mtk_broadcast_unknown_id spec_trickle_timer spec_trickle_timer_ops example_state_one 7 [70] 1 3
    (by decide)

theorem mtk_broadcast_resume_running_witness :
    mtk_broadcast_resume spec_trickle_timer spec_trickle_timer_ops example_state_one 0xDEADBEEF
      = (mtk_broadcast_status_t.MTK_BROADCAST_ERROR_INTERNAL, example_state_one) :=
  mtk_broadcast_resume_running spec_trickle_timer spec_trickle_timer_ops example_state_one 0
    (by decide) (by decide) (by decide)

theorem ctx_at_set_ne (s : broadcast_state) (k i : Nat) (c : mtk_int_broadcast_worker_t)
    (n : Nat) (base : List Nat) (hne : k ≠ i) :
    ctx_at { s with broadcast_ctx := s.broadcast_ctx.set k c, broadcast_num_ctx := n,
                    broadcast_ctx_base := base } i = ctx_at s i := by
  simp [ctx_at, List.getD_eq_getElem?_getD, List.getElem?_set_ne hne]

theorem ctx_at_set_self (s : broadcast_state) (k : Nat) (c : mtk_int_broadcast_worker_t)
    (n : Nat) (base : List Nat) (hk : k < s.broadcast_ctx.length) :
    ctx_at { s with broadcast_ctx := s.broadcast_ctx.set k c, broadcast_num_ctx := n,
                    broadcast_ctx_base := base } k = c := by
  simp [ctx_at, List.getD_eq_getElem?_getD, List.getElem?_set_self hk]

theorem broadcast_table_inv_init (s : broadcast_state) (ids : List Nat)
    (addr port : Nat) (bind_result : Option Nat) (join_ok : Bool)
    (h : broadcast_table_inv s ids) :
    broadcast_table_inv (mtk_broadcast_init s addr port bind_result join_ok).2 ids := by
  have hsame : (mtk_broadcast_init s addr port bind_result join_ok).2.broadcast_ctx
        = s.broadcast_ctx ∧
      (mtk_broadcast_init s addr port bind_result join_ok).2.broadcast_num_ctx
        = s.broadcast_num_ctx ∧
      (mtk_broadcast_init s addr port bind_result join_ok).2.broadcast_ctx_base
        = s.broadcast_ctx_base := by
    unfold mtk_broadcast_init mtk_int_broadcast_worker_init_net
    cases s.broadcast_net_initialized <;> cases bind_result <;> cases join_ok <;> simp
  obtain ⟨h1, h2, h3⟩ := hsame
  unfold broadcast_table_inv routed_items ctx_at
  rw [h1, h2, h3]
  exact h

theorem broadcast_table_inv_register (ops : trickle_timer_ops) (s : broadcast_state)
    (ids : List Nat) (data_id : Nat) (data : List Nat) (size update_handler storage : Nat)
    (h : broadcast_table_inv s ids) :
    broadcast_table_inv
      (mtk_broadcast_register ops s data_id data size update_handler storage).2
      (data_id :: ids) := by
  obtain ⟨hlen, hnum, hbase, hsub⟩ := h
  by_cases hfull : s.broadcast_num_ctx ≥ 4
  · have : mtk_broadcast_register ops s data_id data size update_handler storage
        = (mtk_broadcast_status_t.MTK_BROADCAST_ERROR_NO_MEMORY, s) := by
      simp [mtk_broadcast_register, MTK_BROADCAST_NUM_CTX, hfull]
    rw [this]
    exact ⟨hlen, hnum, hbase, hsub.cons _⟩
  · by_cases hinit : s.broadcast_net_initialized = true
    · have : mtk_broadcast_register ops s data_id data size update_handler storage
          = (mtk_broadcast_status_t.MTK_BROADCAST_SUCCESS,
             { s with
                 broadcast_ctx := s.broadcast_ctx.set s.broadcast_num_ctx
                   { id := data_id, version := 0, data := data, size := size,
                     timer := ops.mtk_trickle_timer_set
                       (ops.mtk_trickle_timer_config (ctx_at s s.broadcast_num_ctx).timer
                         (ops.CLOCK_SECOND / 8) MTK_INT_BROADCAST_TRICKLE_IMAX
                         MTK_INT_BROADCAST_TRICKLE_K),
                     update_handler := update_handler, storage := storage },
                 broadcast_num_ctx := s.broadcast_num_ctx + 1,
                 broadcast_ctx_base := s.broadcast_num_ctx :: s.broadcast_ctx_base }) := by
        simp [mtk_broadcast_register, MTK_BROADCAST_NUM_CTX, hfull,
          mtk_int_broadcast_worker_register, hinit, ctx_at]
      rw [this]
      refine ⟨by simp [hlen], by simp only; omega, ?_, ?_⟩
      · intro i hi
        simp only at hi ⊢
        rcases List.mem_cons.1 hi with h1 | h1
        · omega
        · have := hbase i h1
          omega
      · unfold routed_items
        simp only [List.map_cons, List.map_map]
        rw [ctx_at_set_self s _ _ _ _ (by omega)]
        have hrest : List.map ((fun c => c.id) ∘ ctx_at
            { s with
                broadcast_ctx := s.broadcast_ctx.set s.broadcast_num_ctx
                  { id := data_id, version := 0, data := data, size := size,
                    timer := ops.mtk_trickle_timer_set
                      (ops.mtk_trickle_timer_config (ctx_at s s.broadcast_num_ctx).timer
                        (ops.CLOCK_SECOND / 8) MTK_INT_BROADCAST_TRICKLE_IMAX
                        MTK_INT_BROADCAST_TRICKLE_K),
                    update_handler := update_handler, storage := storage },
                broadcast_num_ctx := s.broadcast_num_ctx + 1,
                broadcast_ctx_base := s.broadcast_num_ctx :: s.broadcast_ctx_base })
            s.broadcast_ctx_base
            = (routed_items s).map fun c => c.id := by
          unfold routed_items
          rw [List.map_map]
          apply List.map_congr_left
          intro i hi
          have := hbase i hi
          simp only [Function.comp]
          rw [ctx_at_set_ne s _ i _ _ _ (by omega)]
        rw [hrest]
        exact hsub.cons₂ _
    · have hinit2 : s.broadcast_net_initialized = false := by
        cases hb : s.broadcast_net_initialized
        · rfl
        · exact absurd hb hinit
      have : mtk_broadcast_register ops s data_id data size update_handler storage
          = (mtk_broadcast_status_t.MTK_BROADCAST_ERROR_INTERNAL,
             { s with broadcast_num_ctx := s.broadcast_num_ctx + 1 }) := by
        simp [mtk_broadcast_register, MTK_BROADCAST_NUM_CTX, hfull,
          mtk_int_broadcast_worker_register, hinit2]
      rw [this]
      refine ⟨hlen, by simp only; omega, ?_, ?_⟩
      · intro i hi
        have := hbase i hi
        simp only
        omega
      · exact hsub.cons _

theorem broadcast_table_inv_run (ops : trickle_timer_ops) :
    ∀ (calls : List broadcast_call) (s : broadcast_state) (ids : List Nat),
      broadcast_table_inv s ids →
      broadcast_table_inv (broadcast_run ops s calls) ((registered_ids calls).reverse ++ ids) := by
  intro calls
  induction calls with
  | nil => intro s ids h; simpa [broadcast_run, registered_ids] using h
  | cons c cs ih =>
    intro s ids h
    cases c with
    | init a p b j =>
      simpa [broadcast_run, registered_ids, broadcast_call_step] using
        ih _ ids (broadcast_table_inv_init s ids a p b j h)
    | register i d sz hd st =>
      have := ih _ (i :: ids) (broadcast_table_inv_register ops s ids i d sz hd st h)
      simpa [broadcast_run, registered_ids, broadcast_call_step] using this

/-- C18 fails on the code by design: no function compares a new `data_id` with
those already registered. After `mtk_broadcast_init` and two calls of
`mtk_broadcast_register` with the `data_id` 5, both registrations have
succeeded and the table and the list each hold two items with the id 5. -/
theorem mtk_broadcast_register_accepts_duplicate :
    (mtk_broadcast_register spec_trickle_timer_ops
      (broadcast_run spec_trickle_timer_ops broadcast_state_start
        (example_calls_duplicate.take 2)) 5 [66] 1 7 8).1
      = mtk_broadcast_status_t.MTK_BROADCAST_SUCCESS ∧
    (routed_items (broadcast_run spec_trickle_timer_ops broadcast_state_start
      example_calls_duplicate)).map (fun c => c.id) = [5, 5] ∧
    (ctx_at (broadcast_run spec_trickle_timer_ops broadcast_state_start
      example_calls_duplicate) 0).id = 5 ∧
    (ctx_at (broadcast_run spec_trickle_timer_ops broadcast_state_start
      example_calls_duplicate) 1).id = 5 ∧
    ¬ ((routed_items (broadcast_run spec_trickle_timer_ops broadcast_state_start
      example_calls_duplicate)).map (fun c => c.id)).Nodup := by
  refine ⟨by decide, by decide, by decide, by decide, by decide⟩

/-- C18 as amended: after any sequence of `mtk_broadcast_init` and
`mtk_broadcast_register` calls from program start in which the registrations
are given pairwise distinct `data_id`s, no two items on the list that inbound
datagrams are routed through have the same `data_id`; the list links only
occupied slots of the table. -/
theorem routed_ids_distinct (ops : trickle_timer_ops) (calls : List broadcast_call)
    (h : (registered_ids calls).Nodup) :
    ((routed_items (broadcast_run ops broadcast_state_start calls)).map
      fun c => c.id).Nodup ∧
    ∀ i ∈ (broadcast_run ops broadcast_state_start calls).broadcast_ctx_base,
      i < (broadcast_run ops broadcast_state_start calls).broadcast_num_ctx := by
  have hstart : broadcast_table_inv broadcast_state_start [] := by
    refine ⟨by decide, by decide, ?_, ?_⟩
    · intro i hi
      simp [broadcast_state_start] at hi
    · simp [routed_items, broadcast_state_start]
  have hinv := broadcast_table_inv_run ops calls broadcast_state_start [] hstart
  obtain ⟨_, _, hbase, hsub⟩ := hinv
  refine ⟨?_, hbase⟩
  apply hsub.nodup
  simpa using h

theorem routed_ids_distinct_witness :
    ((routed_items (broadcast_run spec_trickle_timer_ops broadcast_state_start
      example_calls_full)).map fun c => c.id).Nodup ∧
    ∀ i ∈ (broadcast_run spec_trickle_timer_ops broadcast_state_start
        example_calls_full).broadcast_ctx_base,
      i < (broadcast_run spec_trickle_timer_ops broadcast_state_start
        example_calls_full).broadcast_num_ctx :=
  routed_ids_distinct spec_trickle_timer_ops example_calls_full (by decide)

/-! ## Broadcast worker: equal versions and local updates -/

/-- C30: for a running item that the list walk reaches and a matching datagram
whose version equals the local version, `broadcast_udp_callback` changes
nothing in the item but its timer, which receives `consistency` once; there is
no `inconsistency` and no handler call, whatever bytes follow the version in
the datagram. -/
theorem broadcast_udp_callback_same_version (api : trickle_timer_api)
    (data : List Nat) (data_len : Nat) (metadata : mira_net_udp_callback_metadata_t)
    (pre : List mtk_int_broadcast_worker_t) (ctx : mtk_int_broadcast_worker_t)
    (post : List mtk_int_broadcast_worker_t) (h8 : 8 ≤ data_len)
    (hpre : ∀ c ∈ pre, c.id ≠ ctx.id) (hid : read_u32_le data 0 = ctx.id)
    (hrun : ctx.timer.i_cur ≠ api.MTK_TRICKLE_TIMER_IS_STOPPED)
    (hsame : read_u32_le data 4 = ctx.version) :
    broadcast_udp_callback api (pre ++ ctx :: post) data data_len metadata
      = (pre ++ { ctx with timer := api.mtk_trickle_timer_consistency ctx.timer } :: post,
         [broadcast_effect.consistency ctx.id]) := by
  rw [broadcast_udp_callback_first_match api data data_len metadata pre ctx post h8 hpre hid,
    hsame]
  simp [broadcast_udp_input, hrun, to_int32_sub_u32_self]

theorem broadcast_udp_callback_same_version_witness :
    broadcast_udp_callback spec_trickle_timer [example_item_x]
        [0xEF, 0xBE, 0xAD, 0xDE, 0, 0, 2, 0, 90, 90, 90] 11 example_metadata
      = ([{ example_item_x with timer := { example_timer with c := 1 } }],
         [broadcast_effect.consistency 0xDEADBEEF]) :=
  broadcast_udp_callback_same_version spec_trickle_timer
    [0xEF, 0xBE, 0xAD, 0xDE, 0, 0, 2, 0, 90, 90, 90] 11 example_metadata [] example_item_x []
    (by decide) (by simp) (by decide) (by decide) (by decide)

/-- The version that `mtk_int_broadcast_worker_update` stores for the old version
`v` and the draw `r`. -/
theorem update_version_eq (v r : Nat) :
    (((v + MTK_INT_BROADCAST_VERSION_INCREMENT) % 2 ^ 32 +
        r % MTK_INT_BROADCAST_VERSION_INCREMENT) % 2 ^ 32)
      = (v + 0x10000 + r % 0x10000) % 2 ^ 32 := by
  simp only [MTK_INT_BROADCAST_VERSION_INCREMENT]
  omega

/-- C28: `mtk_int_broadcast_worker_update` on a slot of the table returns 0 and
leaves the item with the input in the first `size` bytes of its value, the
size `size`, the version `(v + 0x10000 + r mod 0x10000) mod 2 ^ 32`, or 1 when
that is 0, and the timer after `mtk_trickle_timer_reset_event`; id, handler
and storage stay. A first update from version 0 gives a version between
`0x10000` and `0x1FFFF`. -/
theorem mtk_int_broadcast_worker_update_spec (ops : trickle_timer_ops) (s : broadcast_state)
    (p : Nat) (data : List Nat) (size r : Nat) (hp : p < s.broadcast_ctx.length) :
    (mtk_int_broadcast_worker_update ops s (some p) data size r).1 = 0 ∧
    ctx_at (mtk_int_broadcast_worker_update ops s (some p) data size r).2 p
      = { ctx_at s p with
            data := data.take size ++ (ctx_at s p).data.drop size,
            size := size,
            version :=
              if ((ctx_at s p).version + 0x10000 + r % 0x10000) % 2 ^ 32 = 0 then 1
              else ((ctx_at s p).version + 0x10000 + r % 0x10000) % 2 ^ 32,
            timer := ops.mtk_trickle_timer_reset_event (ctx_at s p).timer } ∧
    (size ≤ data.length →
      (data.take size ++ (ctx_at s p).data.drop size).take size = data.take size) ∧
    ((ctx_at s p).version = 0 →
      0x10000 ≤ (ctx_at (mtk_int_broadcast_worker_update ops s (some p) data size r).2
        p).version ∧
      (ctx_at (mtk_int_broadcast_worker_update ops s (some p) data size r).2 p).version
        ≤ 0x1FFFF) := by
  have hctx : ctx_at (mtk_int_broadcast_worker_update ops s (some p) data size r).2 p
      = { ctx_at s p with
            data := data.take size ++ (ctx_at s p).data.drop size,
            size := size,
            version :=
              if ((ctx_at s p).version + 0x10000 + r % 0x10000) % 2 ^ 32 = 0 then 1
              else ((ctx_at s p).version + 0x10000 + r % 0x10000) % 2 ^ 32,
            timer := ops.mtk_trickle_timer_reset_event (ctx_at s p).timer } := by
    simp only [mtk_int_broadcast_worker_update, update_version_eq, memcpy]
    simp [ctx_at, List.getD_eq_getElem?_getD, List.getElem?_set_self hp]
  refine ⟨rfl, hctx, ?_, ?_⟩
  · intro hsz
    rw [List.take_append_of_le_length (by rw [List.length_take]; omega)]
    simp
  · intro hv
    rw [hctx]
    simp only [hv]
    have : (0 + 0x10000 + r % 0x10000) % 2 ^ 32 = 0x10000 + r % 0x10000 := by omega
    rw [this]
    have h2 : ¬ (0x10000 + r % 0x10000 = 0) := by omega
    rw [if_neg h2]
    omega

theorem mtk_int_broadcast_worker_update_spec_witness :
    (mtk_int_broadcast_worker_update spec_trickle_timer_ops example_state_one (some 0)
      [66, 66, 66, 66] 4 7).1 = 0 ∧
    ctx_at (mtk_int_broadcast_worker_update spec_trickle_timer_ops example_state_one (some 0)
      [66, 66, 66, 66] 4 7).2 0
      = { ctx_at example_state_one 0 with data := [66, 66, 66, 66], version := 0x10007 } :=
  ⟨(mtk_int_broadcast_worker_update_spec spec_trickle_timer_ops example_state_one 0
      [66, 66, 66, 66] 4 7 (by decide)).1,
   (mtk_int_broadcast_worker_update_spec spec_trickle_timer_ops example_state_one 0
      [66, 66, 66, 66] 4 7 (by decide)).2.1⟩

/-- C29: whatever the old 32-bit version `v` and the draw, the version that
`mtk_int_broadcast_worker_update` stores is not 0 and is newer than `v` under
the comparison of `broadcast_udp_callback`: `(int32)(new - v) > 0`, also when
the sum wraps around `2 ^ 32` or is replaced by 1. -/
theorem mtk_int_broadcast_worker_update_newer (ops : trickle_timer_ops) (s : broadcast_state)
    (p : Nat) (data : List Nat) (size r : Nat) (hp : p < s.broadcast_ctx.length)
    (hv : (ctx_at s p).version < 2 ^ 32) :
    (ctx_at (mtk_int_broadcast_worker_update ops s (some p) data size r).2 p).version ≠ 0 ∧
    to_int32 (sub_u32
      (ctx_at (mtk_int_broadcast_worker_update ops s (some p) data size r).2 p).version
      (ctx_at s p).version) > 0 := by
  have hctx : (ctx_at (mtk_int_broadcast_worker_update ops s (some p) data size r).2 p).version
      = if ((ctx_at s p).version + 0x10000 + r % 0x10000) % 2 ^ 32 = 0 then 1
        else ((ctx_at s p).version + 0x10000 + r % 0x10000) % 2 ^ 32 := by
    simp only [mtk_int_broadcast_worker_update, update_version_eq]
    simp [ctx_at, List.getD_eq_getElem?_getD, List.getElem?_set_self hp]
  rw [hctx]
  generalize (ctx_at s p).version = v at hv
  have hr : r % 0x10000 < 0x10000 := Nat.mod_lt _ (by norm_num)
  generalize r % 0x10000 = q at hr
  unfold to_int32 sub_u32
  split <;> constructor <;> omega

theorem mtk_int_broadcast_worker_update_newer_witness :
    (ctx_at (mtk_int_broadcast_worker_update spec_trickle_timer_ops example_state_wrap (some 0)
      [66] 1 0).2 0).version ≠ 0 ∧
    to_int32 (sub_u32
      (ctx_at (mtk_int_broadcast_worker_update spec_trickle_timer_ops example_state_wrap
        (some 0) [66] 1 0).2 0).version
      (ctx_at example_state_wrap 0).version) > 0 :=
  mtk_int_broadcast_worker_update_newer spec_trickle_timer_ops example_state_wrap 0 [66] 1 0
    (by decide) (by decide)

/-- The update of the item at version `0xFFFF0000` with the draw 0 wraps to 0 and
stores 1. -/
theorem update_wraps_to_one :
    (ctx_at (mtk_int_broadcast_worker_update spec_trickle_timer_ops example_state_wrap (some 0)
      [66] 1 0).2 0).version = 1 := by
  decide

/-! ## Bulk data collection: registration -/

/-- C21: `mtk_bulk_data_collection_register_tx` returns `-1` exactly when
`payload` is `NULL`, `len` is 0 or `len > 21120 = 64 * 330`, and then leaves
the large packet as it is; otherwise it returns 0, stores `payload`, `len` and
`packet_id` and sets `num_sub_packets` to `ceil(len / 330)`, a number from 1
to 64 that equals `mtk_bulk_data_collection_n_sub_packets_get(len)`. -/
theorem register_tx_spec (large_packet : mtk_bulk_data_collection_packet_t)
    (packet_id : Nat) (payload : Option (List Nat)) (len : Nat) :
    ((mtk_bulk_data_collection_register_tx large_packet packet_id payload len).1 = -1
      ↔ (payload = none ∨ len = 0 ∨ len > 21120)) ∧
    ((mtk_bulk_data_collection_register_tx large_packet packet_id payload len).1 = -1 →
      (mtk_bulk_data_collection_register_tx large_packet packet_id payload len).2
        = large_packet) ∧
    (∀ p, payload = some p → 1 ≤ len → len ≤ 21120 →
      mtk_bulk_data_collection_register_tx large_packet packet_id payload len
        = (0, { large_packet with
                  payload := p, len := len, id := packet_id,
                  num_sub_packets := (len + 329) / 330 }) ∧
      1 ≤ (len + 329) / 330 ∧ (len + 329) / 330 ≤ 64 ∧
      (len + 329) / 330 = mtk_bulk_data_collection_n_sub_packets_get len) ∧
    64 * 330 = 21120 := by
  have hceil : ∀ l : Nat, 1 ≤ l → l ≤ 21120 →
      (l / 330 + (if l % 330 ≠ 0 then 1 else 0)) % 2 ^ 8 = (l + 329) / 330 := by
    intro l h1 h2
    rw [(num_sub_packets_bounds l h1 h2).2.2]
    by_cases hr : l % 330 = 0
    · simp only [hr, ne_eq, not_true_eq_false, if_false]; omega
    · simp only [hr, ne_eq, not_false_eq_true, if_true]; omega
  refine ⟨?_, ?_, ?_, by norm_num⟩
  · cases payload with
    | none => simp [mtk_bulk_data_collection_register_tx]
    | some p =>
      by_cases h0 : len = 0
      · simp [mtk_bulk_data_collection_register_tx, h0]
      · by_cases h1 : len > 21120
        · simp [mtk_bulk_data_collection_register_tx, h0, h1,
            MTK_BULK_DATA_COLLECTION_SUBPACKET_MAX_BYTES,
            MTK_BULK_DATA_COLLECTION_MAX_NUMBER_OF_SUBPACKETS]
        · rw [register_tx_ok large_packet packet_id p len (by omega) (by omega)]
          simp [h0, h1]
  · cases payload with
    | none => simp [mtk_bulk_data_collection_register_tx]
    | some p =>
      by_cases h0 : len = 0
      · simp [mtk_bulk_data_collection_register_tx, h0]
      · by_cases h1 : len > 21120
        · simp [mtk_bulk_data_collection_register_tx, h0, h1,
            MTK_BULK_DATA_COLLECTION_SUBPACKET_MAX_BYTES,
            MTK_BULK_DATA_COLLECTION_MAX_NUMBER_OF_SUBPACKETS]
        · rw [register_tx_ok large_packet packet_id p len (by omega) (by omega)]
          simp
  · intro p hp h1 h2
    subst hp
    rw [register_tx_ok large_packet packet_id p len h1 h2, hceil len h1 h2]
    refine ⟨rfl, by omega, by omega, ?_⟩
    unfold mtk_bulk_data_collection_n_sub_packets_get
    rw [MTK_BULK_DATA_COLLECTION_SUBPACKET_MAX_BYTES, ← hceil len h1 h2]
    by_cases hr : len % 330 = 0
    · have : ¬ len % 330 > 0 := by omega
      simp [hr]
    · have : len % 330 > 0 := by omega
      simp [hr, this]

theorem register_tx_spec_witness :
    mtk_bulk_data_collection_register_tx example_lp_tx 42 (some example_payload) 700
      = (0, { example_lp_tx with
                payload := example_payload, len := 700, id := 42,
                num_sub_packets := (700 + 329) / 330 }) ∧
    1 ≤ (700 + 329) / 330 ∧ (700 + 329) / 330 ≤ 64 ∧
    (700 + 329) / 330 = mtk_bulk_data_collection_n_sub_packets_get 700 :=
  (register_tx_spec example_lp_tx 42 (some example_payload) 700).2.2.1 example_payload rfl
    (by decide) (by decide)

/-- The witness of C21 in numbers: 700 bytes make 3 sub-packets. -/
theorem n_sub_packets_get_700 :
    mtk_bulk_data_collection_n_sub_packets_get 700 = 3 ∧ (700 + 329) / 330 = 3 := by
  decide

/-! ## Bulk data collection: duplicates and timeouts on the receiver -/

/-- C25: a sub-packet event with the expected `packet_id` whose index bit is
already set in the mask changes nothing in the receive process: mask, `len`,
destination buffer, budget and status are as before and nothing is posted; so
any sequence of such events leaves the state, and the mask in it, as it
was. -/
theorem receive_proc_duplicate_ignored (s : receive_proc_state) :
    (∀ ed random, ed.packet_id = s.lp.id → ed.sub_packet_index < 64 →
      s.lp.mask.testBit ed.sub_packet_index = true →
      receive_proc_step s (receive_event.subpacket ed random) = (s, [])) ∧
    (∀ events : List receive_event,
      (∀ e ∈ events, ∃ ed random, e = receive_event.subpacket ed random ∧
        ed.packet_id = s.lp.id ∧ ed.sub_packet_index < 64 ∧
        s.lp.mask.testBit ed.sub_packet_index = true) →
      receive_proc_run s events = (s, [])) := by
  have hstep : ∀ ed random, ed.packet_id = s.lp.id → ed.sub_packet_index < 64 →
      s.lp.mask.testBit ed.sub_packet_index = true →
      receive_proc_step s (receive_event.subpacket ed random) = (s, []) := by
    intro ed random hid hidx hbit
    have hb : s.lp.mask &&& (1 <<< ed.sub_packet_index) % 2 ^ 64 ≠ 0 := by
      rw [Nat.and_comm]
      exact (mask_bit_test ed.sub_packet_index s.lp.mask hidx).2 hbit
    cases hst : s.status with
    | waiting =>
      simp only [receive_proc_step, hst, lp_fault_injected_false, Bool.false_eq_true, if_false,
        hid, ne_eq, not_true_eq_false, hb, not_false_eq_true, if_true]
    | exited => simp only [receive_proc_step, hst]
    | ended => simp only [receive_proc_step, hst]
  refine ⟨hstep, ?_⟩
  intro events
  induction events with
  | nil => intro _; rfl
  | cons e es ih =>
    intro h
    obtain ⟨ed, random, he, hid, hidx, hbit⟩ := h e (List.mem_cons_self _ _)
    subst he
    simp only [receive_proc_run, hstep ed random hid hidx hbit, List.nil_append]
    exact ih (fun e2 he2 => h e2 (List.mem_cons_of_mem _ he2))

theorem receive_proc_duplicate_ignored_witness :
    receive_proc_step
        { lp := { example_lp_rx with mask := 2 }, re_tx_requests_left := 4,
          status := receive_status.waiting }
        (receive_event.subpacket
          { packet_id := 42, sub_packet_index := 1, n_sub_packets := 3, payload_len := 2,
            payload := [7, 7], src := 7, src_port := 456 } 0)
      = ({ lp := { example_lp_rx with mask := 2 }, re_tx_requests_left := 4,
           status := receive_status.waiting }, []) :=
  (receive_proc_duplicate_ignored
    { lp := { example_lp_rx with mask := 2 }, re_tx_requests_left := 4,
      status := receive_status.waiting }).1
    { packet_id := 42, sub_packet_index := 1, n_sub_packets := 3, payload_len := 2,
      payload := [7, 7], src := 7, src_port := 456 } 0 rfl (by decide) (by decide)

theorem receive_proc_step_not_waiting (s : receive_proc_state) (e : receive_event)
    (h : s.status ≠ receive_status.waiting) : receive_proc_step s e = (s, []) := by
  cases hst : s.status with
  | waiting => exact absurd hst h
  | exited => simp only [receive_proc_step, hst]
  | ended => simp only [receive_proc_step, hst]

theorem receive_proc_run_not_waiting (s : receive_proc_state) (events : List receive_event)
    (h : s.status ≠ receive_status.waiting) : receive_proc_run s events = (s, []) := by
  induction events with
  | nil => rfl
  | cons e es ih =>
    simp only [receive_proc_run, receive_proc_step_not_waiting s e h, ih, List.nil_append]

theorem receive_proc_step_subpacket_facts (s : receive_proc_state)
    (ed : mtk_bdc_event_subpacket_data_t) (random : Nat) :
    (receive_proc_step s (receive_event.subpacket ed random)).1.re_tx_requests_left
      = s.re_tx_requests_left ∧
    sent_frames (receive_proc_step s (receive_event.subpacket ed random)).2 = [] ∧
    ((receive_proc_step s (receive_event.subpacket ed random)).1.status
        = receive_status.waiting →
      (receive_proc_step s (receive_event.subpacket ed random)).2 = [] ∧
      s.status = receive_status.waiting) := by
  cases hst : s.status with
  | exited => simp [receive_proc_step, hst, sent_frames]
  | ended => simp [receive_proc_step, hst, sent_frames]
  | waiting =>
    simp only [receive_proc_step, hst, lp_fault_injected_false, Bool.false_eq_true, if_false]
    split_ifs <;> simp [sent_frames, hst]

theorem receive_proc_step_timeout (s : receive_proc_state) (send_ok : Bool)
    (hw : s.status = receive_status.waiting) :
    (0 < s.re_tx_requests_left →
      ∃ mask,
        receive_proc_step s (receive_event.timeout send_ok)
          = ({ s with re_tx_requests_left := s.re_tx_requests_left - 1 },
             [bdc_effect.udp_send_to s.lp.node_addr s.lp.node_port
               (lpreq_pack_buffer s.lp.id mask s.lp.period_ms) 14])) ∧
    (s.re_tx_requests_left ≤ 0 →
      receive_proc_step s (receive_event.timeout send_ok)
        = ({ s with status := receive_status.exited }, [])) := by
  constructor
  · intro h
    refine ⟨if s.lp.num_sub_packets < 64 then
        (s.lp.mask ^^^ UINT64_MAX) &&& low_bits_u64 s.lp.num_sub_packets
      else s.lp.mask ^^^ UINT64_MAX, ?_⟩
    simp only [receive_proc_step, hw, h, if_true, request_for_missing_subpackets,
      mtk_bdcreq_send, Nat.reduceAdd]
  · intro h
    have : ¬ s.re_tx_requests_left > 0 := by omega
    simp only [receive_proc_step, hw, this, if_false]

theorem receive_proc_run_budget :
    ∀ (events : List receive_event) (s : receive_proc_state),
      s.status = receive_status.waiting → 0 ≤ s.re_tx_requests_left →
      ((sent_frames (receive_proc_run s events).2).length : Int) ≤ s.re_tx_requests_left ∧
      ((receive_proc_run s events).1.status = receive_status.waiting →
        (receive_proc_run s events).1.re_tx_requests_left
          = s.re_tx_requests_left - (events.countP is_timeout : Nat) ∧
        (sent_frames (receive_proc_run s events).2).length = events.countP is_timeout ∧
        bdc_effect.post_event_bdc_received ∉ (receive_proc_run s events).2) := by
  intro events
  induction events with
  | nil =>
    intro s _ hb
    simp [receive_proc_run, sent_frames, hb]
  | cons e es ih =>
    intro s hw hb
    cases e with
    | timeout send_ok =>
      obtain ⟨hpos, hzero⟩ := receive_proc_step_timeout s send_ok hw
      by_cases hbud : 0 < s.re_tx_requests_left
      · obtain ⟨mask, hstep⟩ := hpos hbud
        obtain ⟨h1, h2⟩ := ih { s with re_tx_requests_left := s.re_tx_requests_left - 1 } hw
          (by simp only; omega)
        simp only [receive_proc_run, hstep, List.cons_append, List.nil_append, sent_frames,
          List.length_cons, List.countP_cons, is_timeout, if_true]
        constructor
        · simp only at h1
          push_cast
          omega
        · intro hw2
          obtain ⟨h3, h4, h5⟩ := h2 hw2
          simp only at h3
          refine ⟨by rw [h3]; push_cast; omega, by rw [h4], ?_⟩
          simp only [List.mem_cons, not_or]
          exact ⟨by simp, h5⟩
      · have hstep := hzero (by omega)
        have hrun := receive_proc_run_not_waiting { s with status := receive_status.exited } es
          (by simp)
        simp only [receive_proc_run, hstep, hrun, List.nil_append, sent_frames, List.length_nil]
        constructor
        · simpa using hb
        · intro hw2
          simp at hw2
    | subpacket ed random =>
      obtain ⟨hbudget, hframes, hstill⟩ := receive_proc_step_subpacket_facts s ed random
      have happ : ∀ a b : List bdc_effect, sent_frames a = [] →
          sent_frames (a ++ b) = sent_frames b := by
        intro a
        induction a with
        | nil => intro b _; rfl
        | cons x xs ihx =>
          intro b hx
          cases x with
          | udp_send_to _ _ _ _ => simp [sent_frames] at hx
          | post_event_bdc_received =>
            simp only [List.cons_append, sent_frames] at hx ⊢
            exact ihx b hx
      by_cases hw1 : (receive_proc_step s (receive_event.subpacket ed random)).1.status
          = receive_status.waiting
      · obtain ⟨h1, h2⟩ := ih (receive_proc_step s (receive_event.subpacket ed random)).1 hw1
          (by rw [hbudget]; exact hb)
        simp only [receive_proc_run, happ _ _ hframes, List.countP_cons, is_timeout]
        rw [hbudget] at h1 h2
        refine ⟨h1, fun hw2 => ?_⟩
        obtain ⟨h3, h4, h5⟩ := h2 hw2
        refine ⟨by simpa using h3, by simpa using h4, ?_⟩
        rw [(hstill hw1).1]
        simpa using h5
      · have hrun := receive_proc_run_not_waiting _ es hw1
        simp only [receive_proc_run, hrun, List.append_nil, hframes, List.length_nil]
        constructor
        · simpa using hb
        · intro hw2
          exact absurd hw2 hw1

/-- C26: in a run of the receive process from its start, whatever sub-packet
events arrive in between, at most `LP_MAX_NUM_RETRANSMISSION_REQUESTS = 4`
requests are sent; as long as the process is still waiting it has seen at most
four timeouts, has sent exactly one request for each of them and has posted
nothing; a further timeout sends one more request when fewer than four have
been seen, and after four it makes the process exit without posting
`event_bdc_received`. -/
theorem receive_proc_exhaustion (lp : mtk_bulk_data_collection_packet_t)
    (events : List receive_event) :
    LP_MAX_NUM_RETRANSMISSION_REQUESTS = 4 ∧
    (sent_frames (receive_proc_run (receive_proc_start lp) events).2).length ≤ 4 ∧
    ((receive_proc_run (receive_proc_start lp) events).1.status = receive_status.waiting →
      events.countP is_timeout ≤ 4 ∧
      (sent_frames (receive_proc_run (receive_proc_start lp) events).2).length
        = events.countP is_timeout ∧
      bdc_effect.post_event_bdc_received ∉ (receive_proc_run (receive_proc_start lp) events).2 ∧
      (events.countP is_timeout < 4 → ∀ send_ok, ∃ mask,
        receive_proc_step (receive_proc_run (receive_proc_start lp) events).1
            (receive_event.timeout send_ok)
          = ({ (receive_proc_run (receive_proc_start lp) events).1 with
                 re_tx_requests_left :=
                   (receive_proc_run (receive_proc_start lp)
                     events).1.re_tx_requests_left - 1 },
             [bdc_effect.udp_send_to
               (receive_proc_run (receive_proc_start lp) events).1.lp.node_addr
               (receive_proc_run (receive_proc_start lp) events).1.lp.node_port
               (lpreq_pack_buffer (receive_proc_run (receive_proc_start lp) events).1.lp.id mask
                 (receive_proc_run (receive_proc_start lp) events).1.lp.period_ms) 14])) ∧
      (events.countP is_timeout = 4 → ∀ send_ok,
        receive_proc_step (receive_proc_run (receive_proc_start lp) events).1
            (receive_event.timeout send_ok)
          = ({ (receive_proc_run (receive_proc_start lp) events).1 with
                 status := receive_status.exited }, []))) := by
  obtain ⟨h1, h2⟩ := receive_proc_run_budget events (receive_proc_start lp) rfl
    (by rw [show (receive_proc_start lp).re_tx_requests_left = 4 from rfl]; decide)
  have hb : (receive_proc_start lp).re_tx_requests_left = 4 := rfl
  rw [hb] at h1 h2
  refine ⟨rfl, by omega, ?_⟩
  intro hw
  obtain ⟨h3, h4, h5⟩ := h2 hw
  refine ⟨by omega, h4, h5, ?_, ?_⟩
  · intro hlt send_ok
    exact (receive_proc_step_timeout _ send_ok hw).1 (by rw [h3]; omega)
  · intro heq send_ok
    exact (receive_proc_step_timeout _ send_ok hw).2 (by rw [h3]; omega)

theorem receive_proc_exhaustion_witness :
    receive_proc_step
        (receive_proc_run (receive_proc_start example_lp_rx)
          [receive_event.timeout true, receive_event.timeout true, receive_event.timeout true,
           receive_event.timeout true]).1
        (receive_event.timeout true)
      = ({ (receive_proc_run (receive_proc_start example_lp_rx)
            [receive_event.timeout true, receive_event.timeout true,
             receive_event.timeout true, receive_event.timeout true]).1 with
             status := receive_status.exited }, []) :=
  ((receive_proc_exhaustion example_lp_rx
    [receive_event.timeout true, receive_event.timeout true, receive_event.timeout true,
     receive_event.timeout true]).2.2 (by decide)).2.2.2.2 (by decide) true

/-- Scenario S5 on the receiver: five timeouts in a row send four requests for
the sub-packets missing, then the process exits; nothing is posted. -/
theorem scenario_s5_receiver :
    (receive_proc_run
      (receive_proc_start { example_lp_tx with id := 42, mask := 1, num_sub_packets := 3 })
      [receive_event.timeout true, receive_event.timeout true, receive_event.timeout true,
       receive_event.timeout true, receive_event.timeout true])
      = ({ lp := { example_lp_tx with id := 42, mask := 1, num_sub_packets := 3 },
           re_tx_requests_left := 0, status := receive_status.exited },
         List.replicate 4 (bdc_effect.udp_send_to 7 1520 (lpreq_pack_buffer 42 6 200) 14)) := by
  decide

/-! ## Bulk data collection: retransmission of a requested subset -/

theorem tx_effect_mask (lp : mtk_bulk_data_collection_packet_t) (m : Nat) :
    tx_effect { lp with mask := m } = tx_effect lp := by
  funext i
  rfl

/-- The sending loop on a mask whose bits all lie in `k .. n - 1`: it leaves
within `n - k` sends with an empty mask, having sent the sub-packets whose bit
is set, lowest index first. -/
theorem send_proc_loop_subset (send_ok : Nat → Bool) (hok : ∀ t, send_ok t = true) :
    ∀ (d k fuel step : Nat) (lp : mtk_bulk_data_collection_packet_t),
      k + d = lp.num_sub_packets → lp.num_sub_packets ≤ 64 → d ≤ fuel →
      (∀ j, lp.mask.testBit j = true → k ≤ j ∧ j < lp.num_sub_packets) →
      send_proc_loop true send_ok fuel step lp 0
        = some ({ lp with mask := 0 }, 0,
            ((List.range' k d).filter (fun i => lp.mask.testBit i)).map (tx_effect lp)) := by
  intro d
  induction d with
  | zero =>
    intro k fuel step lp hkd _ _ hbits
    have hz : lp.mask = 0 := by
      apply eq_zero_of_testBit_false
      intro j
      by_cases h : lp.mask.testBit j = true
      · have := hbits j h
        omega
      · simpa using h
    have hlp : ({ lp with mask := 0 } : mtk_bulk_data_collection_packet_t) = lp := by
      cases lp; simp_all
    cases fuel with
    | zero => simp [send_proc_loop, hz, hlp]
    | succ f => simp [send_proc_loop, hz, hlp]
  | succ d ih =>
    intro k fuel step lp hkd hn hfuel hbits
    have hk : k < lp.num_sub_packets := by omega
    have hk64 : k < 64 := by omega
    by_cases hbit : lp.mask.testBit k = true
    · have hlow : ∀ j < k, lp.mask.testBit j = false := by
        intro j hj
        by_cases h : lp.mask.testBit j = true
        · have := hbits j h
          omega
        · simpa using h
      have hnz : lp.mask ≠ 0 := by
        intro h0
        rw [h0, Nat.zero_testBit] at hbit
        exact absurd hbit (by decide)
      cases fuel with
      | zero => omega
      | succ f =>
        have hstep := next_sub_packet_send_lowest lp k hk hk64 hlow hbit
        have hrec := ih (k + 1) f (step + 1)
          { lp with mask := lp.mask &&& (UINT64_MAX - (1 <<< k) % 2 ^ 64) }
          (by simp only; omega) hn (by omega)
          (by
            intro j hj
            simp only at hj ⊢
            rw [testBit_clear_bit lp.mask k j hk64] at hj
            simp only [Bool.and_eq_true, decide_eq_true_eq, Bool.not_eq_true',
              decide_eq_false_iff_not] at hj
            have := hbits j hj.1
            omega)
        have hfilter :
            (List.range' (k + 1) d).filter
                (fun i => (lp.mask &&& (UINT64_MAX - (1 <<< k) % 2 ^ 64)).testBit i)
              = (List.range' (k + 1) d).filter (fun i => lp.mask.testBit i) := by
          apply List.filter_congr
          intro j hj
          rw [List.mem_range'_1] at hj
          rw [testBit_clear_bit lp.mask k j hk64]
          have h2 : j < 64 := by omega
          have h3 : ¬ k = j := by omega
          simp [h2, h3]
        simp only [tx_effect_mask] at hrec
        rw [hfilter] at hrec
        simp only [send_proc_loop, hok, hstep, hrec, List.range'_succ]
        simp [hnz, hbit]
    · have hrec := ih (k + 1) fuel step lp (by omega) hn (by omega)
        (by
          intro j hj
          have := hbits j hj
          have hne : j ≠ k := by
            intro h
            rw [h] at hj
            exact hbit hj
          omega)
      rw [hrec, List.range'_succ]
      simp [hbit]

/-- The bits of a mask that is a subset of the whole mask for `n` sub-packets
lie below `n`. -/
theorem subset_of_whole_mask (m n : Nat) (hn : n ≤ 64)
    (hsub : m &&& (mtk_bulk_data_collection_send_whole_mask_get n).2 = m) :
    ∀ j, m.testBit j = true → j < n := by
  intro j hj
  rw [whole_mask_get_eq n hn] at hsub
  rw [← hsub, Nat.testBit_and, Nat.testBit_two_pow_sub_one] at hj
  simp only [Bool.and_eq_true, decide_eq_true_eq] at hj
  exact hj.2

/-- C24: for a large packet of at most 64 sub-packets (every registered packet
is one) whose mask is a subset of the whole mask for `num_sub_packets`, with
every send succeeding, the send process ends within `num_sub_packets`
iterations with an empty mask and `large_packet_currently_sending` false,
and what it has sent is exactly one sub-packet frame for each index whose bit
is set in the mask, none for another index, in strictly increasing index
order; each call of `next_sub_packet_send` sends the sub-packet of the lowest
bit set and clears only that bit. -/
theorem send_proc_requested_subset (send_ok : Nat → Bool) (hok : ∀ t, send_ok t = true)
    (lp : mtk_bulk_data_collection_packet_t) (hn : lp.num_sub_packets ≤ 64)
    (hsub : lp.mask &&& (mtk_bulk_data_collection_send_whole_mask_get lp.num_sub_packets).2
      = lp.mask)
    (fuel : Nat) (hfuel : lp.num_sub_packets ≤ fuel) :
    mtk_bulk_data_collection_send_proc true send_ok fuel lp
      = some ({ lp with mask := 0 }, false,
          ((List.range lp.num_sub_packets).filter (fun i => lp.mask.testBit i)).map
            (tx_effect lp)) ∧
    (∀ i, i ∈ (List.range lp.num_sub_packets).filter (fun i => lp.mask.testBit i)
      ↔ lp.mask.testBit i = true) ∧
    List.Pairwise (fun i j => i < j)
      ((List.range lp.num_sub_packets).filter (fun i => lp.mask.testBit i)) ∧
    (∀ k, lp.mask.testBit k = true → (∀ j < k, lp.mask.testBit j = false) →
      next_sub_packet_send true true lp
        = (0, { lp with mask := lp.mask &&& (UINT64_MAX - (1 <<< k) % 2 ^ 64) },
           [tx_effect lp k]) ∧
      ∀ j, (lp.mask &&& (UINT64_MAX - (1 <<< k) % 2 ^ 64)).testBit j
        = (lp.mask.testBit j && !decide (k = j))) := by
  have hbits := subset_of_whole_mask lp.mask lp.num_sub_packets hn hsub
  have h := send_proc_loop_subset send_ok hok lp.num_sub_packets 0 fuel 0 lp (by omega) hn hfuel
    (fun j hj => ⟨Nat.zero_le _, hbits j hj⟩)
  refine ⟨?_, ?_, ?_, ?_⟩
  · simp [mtk_bulk_data_collection_send_proc, h, List.range_eq_range']
  · intro i
    rw [List.mem_filter, List.mem_range]
    exact ⟨fun hi => hi.2, fun hi => ⟨hbits i hi, hi⟩⟩
  · exact List.Pairwise.filter _ (List.pairwise_lt_range _)
  · intro k hbit hlow
    have hk := hbits k hbit
    refine ⟨next_sub_packet_send_lowest lp k hk (by omega) hlow hbit, ?_⟩
    intro j
    rw [testBit_clear_bit lp.mask k j (by omega)]
    by_cases hj : lp.mask.testBit j = true
    · have := hbits j hj
      have h64 : j < 64 := by omega
      simp [h64]
    · simp [hj]

theorem send_proc_requested_subset_witness :
    mtk_bulk_data_collection_send_proc true (fun _ => true) 3
        { example_lp_registered with mask := 0b010 }
      = some ({ example_lp_registered with mask := 0 }, false,
          [tx_effect example_lp_registered 1]) :=
  (send_proc_requested_subset (fun _ => true) (fun _ => rfl)
    { example_lp_registered with mask := 0b010 } (by decide) (by decide) 3 (by decide)).1

/-! ## Bulk data collection: a request mask with a bit beyond the packet -/

/-- With a mask whose only bits lie at or beyond `num_sub_packets`,
`pick_next_to_send` finds nothing and returns the zero-initialised sub-packet. -/
theorem pick_next_to_send_loop_nothing (lp : mtk_bulk_data_collection_packet_t)
    (hhigh : ∀ j < lp.num_sub_packets, lp.mask.testBit j = false) :
    ∀ (fuel i : Nat) (sp : sub_packet_t), sp.payload = none →
      pick_next_to_send_loop lp fuel i sp = sp := by
  intro fuel
  induction fuel with
  | zero => intro i sp _; rfl
  | succ f ih =>
    intro i sp hsp
    by_cases hc : i < 64 ∧ i < lp.num_sub_packets
    · have hb : ¬ (((1 <<< i) % 2 ^ 64) &&& lp.mask ≠ 0) := by
        rw [mask_bit_test i lp.mask hc.1, hhigh i hc.2]; simp
      simp only [pick_next_to_send_loop, hsp, MTK_BULK_DATA_COLLECTION_MAX_NUMBER_OF_SUBPACKETS,
        hc.1, hc.2, and_self, if_true, hb, if_false]
      exact ih (i + 1) sp hsp
    · simp only [pick_next_to_send_loop, hsp, MTK_BULK_DATA_COLLECTION_MAX_NUMBER_OF_SUBPACKETS,
        true_and]
      rw [if_neg hc]

/-- With a mask whose bit 0 is clear and whose only bits lie at or beyond
`num_sub_packets`, `next_sub_packet_send` sends an empty frame with index 0,
returns 0 and leaves the mask as it is. -/
theorem next_sub_packet_send_nothing (lp : mtk_bulk_data_collection_packet_t)
    (hhigh : ∀ j < lp.num_sub_packets, lp.mask.testBit j = false)
    (h0 : lp.mask.testBit 0 = false) (h64 : lp.mask < 2 ^ 64) :
    next_sub_packet_send true true lp
      = (0, lp,
         [bdc_effect.udp_send_to lp.node_addr lp.node_port
           (lpsp_pack_buffer lp.id 0 lp.num_sub_packets [] 0) 8]) := by
  have hp : pick_next_to_send lp = { index := 0, len := 0, payload := none } :=
    pick_next_to_send_loop_nothing lp hhigh 64 0 _ rfl
  have hm : lp.mask &&& (UINT64_MAX - (1 <<< 0) % 2 ^ 64) = lp.mask := by
    apply Nat.eq_of_testBit_eq
    intro j
    rw [testBit_clear_bit lp.mask 0 j (by norm_num)]
    by_cases hj : j < 64
    · by_cases hj0 : j = 0
      · subst hj0; simp [h0]
      · have : ¬ 0 = j := by omega
        simp [hj, this]
    · have : lp.mask.testBit j = false :=
        Nat.testBit_lt_two_pow (Nat.lt_of_lt_of_le h64 (Nat.pow_le_pow_right (by norm_num) (by omega)))
      simp [this]
  simp only [next_sub_packet_send, hp, mtk_bdcsp_send, MTK_BULK_DATA_COLLECTION_SUBPACKET_MAX_BYTES]
  have hm2 : lp.mask &&& (UINT64_MAX - 1) = lp.mask := by simpa using hm
  simp [hm2]

/-- C23: a registered packet of 700 bytes (3 sub-packets) whose mask is 8, the
bit of sub-packet 3 that the packet does not have. With every send
succeeding, each iteration of the sending loop sends an empty frame with
index 0 and leaves the mask at 8, so the loop does not leave within any number
of iterations: the mask never becomes 0 and the process never reaches the line
that clears `large_packet_currently_sending`. -/
theorem send_proc_mask_beyond_packet :
    mtk_bulk_data_collection_register_tx example_lp_tx 42 (some example_payload) 700
      = (0, example_lp_registered) ∧
    next_sub_packet_send true true { example_lp_registered with mask := 8 }
      = (0, { example_lp_registered with mask := 8 },
         [bdc_effect.udp_send_to 7 1520 [0x1f, 0xb3, 42, 0, 0, 3, 0, 0] 8]) ∧
    (∀ fuel step,
      send_proc_loop true (fun _ => true) fuel step
        { example_lp_registered with mask := 8 } 0 = none) ∧
    (∀ fuel,
      mtk_bulk_data_collection_send_proc true (fun _ => true) fuel
        { example_lp_registered with mask := 8 } = none) := by
  have hstep : next_sub_packet_send true true { example_lp_registered with mask := 8 }
      = (0, { example_lp_registered with mask := 8 },
         [bdc_effect.udp_send_to 7 1520 [0x1f, 0xb3, 42, 0, 0, 3, 0, 0] 8]) := by
    rw [next_sub_packet_send_nothing { example_lp_registered with mask := 8 }
      (by
        intro j hj
        have hj3 : j < 3 := hj
        interval_cases j <;> decide)
      (by decide) (by decide)]
    rfl
  have hloop : ∀ fuel step,
      send_proc_loop true (fun _ => true) fuel step
        { example_lp_registered with mask := 8 } 0 = none := by
    intro fuel
    induction fuel with
    | zero => intro step; rfl
    | succ f ih =>
      intro step
      have hc : ({ example_lp_registered with mask := 8 } :
          mtk_bulk_data_collection_packet_t).mask ≠ 0 ∧ (0 : Int) ≥ 0 := by decide
      simp only [send_proc_loop]
      rw [if_pos hc, hstep]
      simp only [ih (step + 1)]
  refine ⟨rfl, hstep, hloop, ?_⟩
  intro fuel
  simp only [mtk_bulk_data_collection_send_proc, hloop fuel 0]

/-! ## Bulk data collection: one send session at a time -/

theorem send_proc_while_inv (udp_connection send_ok : Bool)
    (large_packet : mtk_bulk_data_collection_packet_t) (sub_packet_send_status : Int) :
    (send_proc_while udp_connection send_ok true large_packet
        sub_packet_send_status).1.large_packet_currently_sending
      = (send_proc_while udp_connection send_ok true large_packet
        sub_packet_send_status).1.waiting.isSome := by
  unfold send_proc_while
  split <;> rfl

theorem sender_step_inv (udp_connection : Bool) (s : send_proc_state) (e : sender_event)
    (h : s.large_packet_currently_sending = s.waiting.isSome) :
    (sender_step udp_connection s e).large_packet_currently_sending
      = (sender_step udp_connection s e).waiting.isSome := by
  cases e with
  | send large_packet send_ok =>
    simp only [sender_step, mtk_bulk_data_collection_send]
    split
    · exact h
    · exact send_proc_while_inv udp_connection send_ok large_packet 0
  | timer_expired send_ok =>
    simp only [sender_step, send_proc_timer_expired]
    cases hw : s.waiting with
    | none => simpa [hw] using h
    | some w =>
      obtain ⟨lp, st⟩ := w
      have hf : s.large_packet_currently_sending = true := by rw [h, hw]; rfl
      simp only [hf]
      exact send_proc_while_inv udp_connection send_ok lp st

theorem sender_run_inv (udp_connection : Bool) :
    ∀ (events : List sender_event) (s : send_proc_state),
      s.large_packet_currently_sending = s.waiting.isSome →
      (sender_run udp_connection s events).large_packet_currently_sending
        = (sender_run udp_connection s events).waiting.isSome := by
  intro events
  induction events with
  | nil => intro s h; exact h
  | cons e es ih =>
    intro s h
    exact ih _ (sender_step_inv udp_connection s e h)

/-- C22: `mtk_bulk_data_collection_send` returns -1 exactly when
`large_packet_currently_sending` is set, and then the sender, the waiting
process and the passed large packet are as before and nothing is sent.
Otherwise it returns 0, whatever process was waiting is gone, and the new
process runs on the passed packet: with a mask that is not 0 it has made one
call of `next_sub_packet_send` on it and waits with the flag set, with a mask
of 0 it has ended at once with the flag cleared. In every state reached from
the start through calls of `mtk_bulk_data_collection_send` and expiries of the
pacing timer the flag is set exactly when a process is waiting, so a call that
succeeds never finds a session in progress. -/
theorem mtk_bulk_data_collection_send_busy (udp_connection send_ok : Bool)
    (s : send_proc_state) (large_packet : mtk_bulk_data_collection_packet_t) :
    ((mtk_bulk_data_collection_send udp_connection send_ok s large_packet).1 = -1
      ↔ s.large_packet_currently_sending = true) ∧
    (s.large_packet_currently_sending = true →
      mtk_bulk_data_collection_send udp_connection send_ok s large_packet
        = (-1, s, large_packet, [])) ∧
    (s.large_packet_currently_sending = false → large_packet.mask ≠ 0 →
      mtk_bulk_data_collection_send udp_connection send_ok s large_packet
        = (0,
           { large_packet_currently_sending := true,
             waiting := some ((next_sub_packet_send udp_connection send_ok large_packet).2.1,
               (next_sub_packet_send udp_connection send_ok large_packet).1) },
           (next_sub_packet_send udp_connection send_ok large_packet).2.1,
           (next_sub_packet_send udp_connection send_ok large_packet).2.2)) ∧
    (s.large_packet_currently_sending = false → large_packet.mask = 0 →
      mtk_bulk_data_collection_send udp_connection send_ok s large_packet
        = (0, { large_packet_currently_sending := false, waiting := none },
           large_packet, [])) ∧
    (∀ events : List sender_event,
      (sender_run udp_connection send_proc_state_start events).large_packet_currently_sending
        = (sender_run udp_connection send_proc_state_start events).waiting.isSome) := by
  refine ⟨?_, ?_, ?_, ?_, ?_⟩
  · cases hf : s.large_packet_currently_sending <;>
      simp [mtk_bulk_data_collection_send, hf]
  · intro hf
    simp [mtk_bulk_data_collection_send, hf]
  · intro hf hm
    simp [mtk_bulk_data_collection_send, hf, send_proc_begin, send_proc_while, hm]
  · intro hf hm
    simp [mtk_bulk_data_collection_send, hf, send_proc_begin, send_proc_while, hm]
  · intro events
    exact sender_run_inv udp_connection events send_proc_state_start rfl

theorem mtk_bulk_data_collection_send_busy_witness :
    mtk_bulk_data_collection_send true true
        { large_packet_currently_sending := true,
          waiting := some ({ example_lp_registered with mask := 6 }, 0) }
        { example_lp_registered with mask := 7 }
      = (-1,
         { large_packet_currently_sending := true,
           waiting := some ({ example_lp_registered with mask := 6 }, 0) },
         { example_lp_registered with mask := 7 }, []) :=
  (mtk_bulk_data_collection_send_busy true true
    { large_packet_currently_sending := true,
      waiting := some ({ example_lp_registered with mask := 6 }, 0) }
    { example_lp_registered with mask := 7 }).2.1 rfl

/-- The sender on the registered packet of 3 sub-packets with the whole mask:
the call sends sub-packet 0 and leaves the process waiting; a second call
before the process has ended returns -1; three expiries of the pacing timer
later the process has ended, the flag is cleared and a call succeeds again. -/
theorem sender_busy_then_free :
    (mtk_bulk_data_collection_send true true send_proc_state_start
        { example_lp_registered with mask := 7 }).1 = 0 ∧
    (mtk_bulk_data_collection_send true true send_proc_state_start
        { example_lp_registered with mask := 7 }).2.1
      = { large_packet_currently_sending := true,
          waiting := some ({ example_lp_registered with mask := 6 }, 0) } ∧
    (mtk_bulk_data_collection_send true true
        (sender_run true send_proc_state_start
          [sender_event.send { example_lp_registered with mask := 7 } true,
           sender_event.timer_expired true, sender_event.timer_expired true])
        { example_lp_registered with mask := 7 }).1 = -1 ∧
    sender_run true send_proc_state_start
        [sender_event.send { example_lp_registered with mask := 7 } true,
         sender_event.timer_expired true, sender_event.timer_expired true,
         sender_event.timer_expired true]
      = send_proc_state_start := by
  refine ⟨by decide, ?_, ?_, ?_⟩
  · rfl
  · rfl
  · rfl

/-! ## Broadcast item table: the size of an item -/

theorem sizes_bounded_set (l : List mtk_int_broadcast_worker_t) (p : Nat)
    (c1 : mtk_int_broadcast_worker_t) (hl : ∀ c ∈ l, c.size ≤ 230) (hc : c1.size ≤ 230) :
    ∀ c ∈ l.set p c1, c.size ≤ 230 := by
  intro c hmem
  rcases List.mem_or_eq_of_mem_set hmem with h | h
  · exact hl c h
  · rw [h]; exact hc

theorem ctx_at_size_le (s : broadcast_state) (h : sizes_bounded s) (i : Nat) :
    (ctx_at s i).size ≤ 230 := by
  unfold ctx_at
  rw [List.getD_eq_getElem?_getD]
  cases hg : s.broadcast_ctx[i]? with
  | none => simp [zero_worker]
  | some c => exact h c (List.getElem?_mem hg)

theorem worker_register_sizes (ops : trickle_timer_ops) (s : broadcast_state)
    (ctx : Option Nat) (id : Nat) (data : List Nat) (size update_handler storage : Nat)
    (h : sizes_bounded s) (hs : size ≤ 230) :
    sizes_bounded
      (mtk_int_broadcast_worker_register ops s ctx id data size update_handler storage).2 := by
  unfold mtk_int_broadcast_worker_register
  cases ctx with
  | none => exact h
  | some p =>
    by_cases hi : s.broadcast_net_initialized = true
    · simp only [hi, not_true_eq_false, if_false]
      exact sizes_bounded_set _ p _ h hs
    · simp only [hi, not_false_eq_true, if_true]
      exact h

theorem worker_update_sizes (ops : trickle_timer_ops) (s : broadcast_state)
    (ctx : Option Nat) (data : List Nat) (size random : Nat)
    (h : sizes_bounded s) (hs : size ≤ 230) :
    sizes_bounded (mtk_int_broadcast_worker_update ops s ctx data size random).2 := by
  unfold mtk_int_broadcast_worker_update
  cases ctx with
  | none => exact h
  | some p => exact sizes_bounded_set _ p _ h hs

theorem worker_pause_sizes (ops : trickle_timer_ops) (s : broadcast_state) (ctx : Option Nat)
    (h : sizes_bounded s) :
    sizes_bounded (mtk_int_broadcast_worker_pause ops s ctx).2 := by
  unfold mtk_int_broadcast_worker_pause
  cases ctx with
  | none => exact h
  | some p =>
    simp only
    split
    · exact h
    · exact sizes_bounded_set _ p _ h (ctx_at_size_le s h p)

theorem worker_resume_sizes (api : trickle_timer_api) (ops : trickle_timer_ops)
    (s : broadcast_state) (ctx : Option Nat) (h : sizes_bounded s) :
    sizes_bounded (mtk_int_broadcast_worker_resume api ops s ctx).2 := by
  unfold mtk_int_broadcast_worker_resume
  cases ctx with
  | none => exact h
  | some p =>
    simp only
    split
    · exact h
    · split
      · exact h
      · exact sizes_bounded_set _ p _ h (ctx_at_size_le s h p)

theorem broadcast_udp_input_size (api : trickle_timer_api) (ctx : mtk_int_broadcast_worker_t)
    (version : Nat) (data : List Nat) (data_len : Nat)
    (metadata : mira_net_udp_callback_metadata_t)
    (hc : ctx.size ≤ 230) (hd : data_len ≤ 238) :
    (broadcast_udp_input api ctx version data data_len metadata).1.size ≤ 230 := by
  unfold broadcast_udp_input
  split
  · exact hc
  · split
    · simp only
      omega
    · split
      · exact hc
      · exact hc

theorem sizes_bounded_step (api : trickle_timer_api) (ops : trickle_timer_ops)
    (s : broadcast_state) (e : broadcast_event) (h : sizes_bounded s)
    (he : within_size_limit e) :
    sizes_bounded (broadcast_event_step api ops s e) := by
  cases e with
  | init a p b j =>
    simp only [broadcast_event_step, mtk_broadcast_init, mtk_int_broadcast_worker_init_net]
    split <;> (try split) <;> (try split) <;> (try split) <;> exact h
  | register i d sz hd st =>
    have hs : sz ≤ 230 := he
    simp only [broadcast_event_step, mtk_broadcast_register]
    split
    · exact h
    · split <;>
        exact worker_register_sizes ops { s with broadcast_num_ctx := s.broadcast_num_ctx + 1 }
          _ i d sz hd st h hs
  | update i d sz r =>
    have hs : sz ≤ 230 := he
    simp only [broadcast_event_step, mtk_broadcast_update]
    split
    · split <;> exact worker_update_sizes ops s _ d sz r h hs
    · exact h
  | pause i =>
    simp only [broadcast_event_step, mtk_broadcast_pause]
    split
    · split <;> exact worker_pause_sizes ops s _ h
    · exact h
  | resume i =>
    simp only [broadcast_event_step, mtk_broadcast_resume]
    split
    · split <;> exact worker_resume_sizes api ops s _ h
    · exact h
  | udp_input d n m =>
    have hn : n ≤ 238 := he
    simp only [broadcast_event_step, broadcast_udp_callback_state]
    split
    · exact h
    · split
      · exact h
      · exact sizes_bounded_set _ _ _ h
          (broadcast_udp_input_size api _ _ d n m (ctx_at_size_le s h _) hn)

theorem sizes_bounded_run (api : trickle_timer_api) (ops : trickle_timer_ops) :
    ∀ (events : List broadcast_event) (s : broadcast_state), sizes_bounded s →
      (∀ e ∈ events, within_size_limit e) →
      sizes_bounded (broadcast_event_run api ops s events) := by
  intro events
  induction events with
  | nil => intro s h _; exact h
  | cons e es ih =>
    intro s h hall
    exact ih _ (sizes_bounded_step api ops s e h (hall e (List.mem_cons_self _ _)))
      (fun e1 he1 => hall e1 (List.mem_cons_of_mem _ he1))

/-- A size argument above 230:
`mtk_broadcast_register` called after a successful `mtk_broadcast_init` with
`size = 231` returns `MTK_BROADCAST_SUCCESS`, and the item it registers has
the size 231. -/
theorem mtk_broadcast_register_size_231 :
    (mtk_broadcast_register spec_trickle_timer_ops example_state_init 5
        (List.replicate 231 65) 231 0 0).1 = mtk_broadcast_status_t.MTK_BROADCAST_SUCCESS ∧
    (ctx_at (mtk_broadcast_register spec_trickle_timer_ops example_state_init 5
        (List.replicate 231 65) 231 0 0).2 0).size = 231 ∧
    ¬ (ctx_at (mtk_broadcast_register spec_trickle_timer_ops example_state_init 5
        (List.replicate 231 65) 231 0 0).2 0).size ≤ 230 := by
  refine ⟨rfl, rfl, ?_⟩
  show ¬ 231 ≤ 230
  decide

/-- The bound that callers and network keep together: in every state reached
from program start through calls of `mtk_broadcast_init`, `mtk_broadcast_register`, `mtk_broadcast_update`,
`mtk_broadcast_pause` and `mtk_broadcast_resume` whose `size` argument is at
most 230 and through datagrams of at most 238 bytes handed to
`broadcast_udp_callback`, every slot of the table, hence every registered
item, has a size of at most 230. -/
theorem broadcast_item_size_bound (api : trickle_timer_api) (ops : trickle_timer_ops)
    (events : List broadcast_event) (hall : ∀ e ∈ events, within_size_limit e) (i : Nat) :
    (ctx_at (broadcast_event_run api ops broadcast_state_start events) i).size ≤ 230 := by
  apply ctx_at_size_le
  apply sizes_bounded_run api ops events broadcast_state_start _ hall
  intro c hc
  have hz : c = zero_worker := by
    simp only [broadcast_state_start, List.mem_replicate] at hc
    exact hc.2
  rw [hz]
  simp [zero_worker]

theorem broadcast_item_size_bound_witness :
    (ctx_at (broadcast_event_run spec_trickle_timer spec_trickle_timer_ops broadcast_state_start
      [broadcast_event.init 1 2 (some 9) true,
       broadcast_event.register 0xDEADBEEF [65, 65, 65, 65] 4 2 5,
       broadcast_event.update 0xDEADBEEF [66, 66] 2 7,
       broadcast_event.udp_input example_frame_new 10 example_metadata]) 0).size ≤ 230 :=
  broadcast_item_size_bound spec_trickle_timer spec_trickle_timer_ops
    [broadcast_event.init 1 2 (some 9) true,
     broadcast_event.register 0xDEADBEEF [65, 65, 65, 65] 4 2 5,
     broadcast_event.update 0xDEADBEEF [66, 66] 2 7,
     broadcast_event.udp_input example_frame_new 10 example_metadata]
    (by
      intro e he
      simp only [List.mem_cons, List.mem_singleton, List.not_mem_nil, or_false] at he
      rcases he with h | h | h | h <;> subst h <;> simp [within_size_limit])
    0

/-! ## Broadcast item table: datagrams -/

/-- The walk of `broadcast_udp_callback` over the workers of the routing list
`base` stops at the first slot with the id of the datagram and rewrites that
slot only. -/
theorem broadcast_udp_walk_map (api : trickle_timer_api) (s : broadcast_state)
    (id version : Nat) (data : List Nat) (data_len : Nat)
    (metadata : mira_net_udp_callback_metadata_t) :
    ∀ base : List Nat, base.Nodup → (∀ p ∈ base, p < s.broadcast_ctx.length) →
      broadcast_udp_walk api id version data data_len metadata (base.map (ctx_at s))
        = match base.find? fun p => (ctx_at s p).id == id with
          | none => (base.map (ctx_at s), [])
          | some p =>
            (base.map fun q =>
               (s.broadcast_ctx.set p
                 (broadcast_udp_input api (ctx_at s p) version data data_len
                   metadata).1).getD q zero_worker,
             (broadcast_udp_input api (ctx_at s p) version data data_len metadata).2) := by
  intro base
  induction base with
  | nil => intro _ _; rfl
  | cons q rest ih =>
    intro hnd hlt
    have hnd2 := (List.nodup_cons.1 hnd)
    have hq : q < s.broadcast_ctx.length := hlt q (List.mem_cons_self _ _)
    have ih2 := ih hnd2.2 (fun p hp => hlt p (List.mem_cons_of_mem _ hp))
    by_cases hid : (ctx_at s q).id = id
    · have hb : ((ctx_at s q).id == id) = true := by simpa using hid
      have hne : ¬ (ctx_at s q).id ≠ id := by simpa using hid
      simp only [List.map_cons, broadcast_udp_walk, hne, if_false, List.find?_cons, hb]
      congr 1
      congr 1
      · simp [List.getD_eq_getElem?_getD, List.getElem?_set_self hq]
      · apply List.map_congr_left
        intro r hr
        have hrq : q ≠ r := by
          intro h
          rw [h] at hnd2
          exact hnd2.1 hr
        simp [ctx_at, List.getD_eq_getElem?_getD, List.getElem?_set_ne hrq]
    · have hb : ((ctx_at s q).id == id) = false := by simpa using hid
      have hne : (ctx_at s q).id ≠ id := hid
      simp only [List.map_cons, broadcast_udp_walk, hne, ne_eq, not_false_eq_true, if_true,
        List.find?_cons, hb, ih2]
      cases hf : rest.find? (fun p => (ctx_at s p).id == id) with
      | none => rfl
      | some p =>
        have hp : (ctx_at s p).id = id := by
          have := List.find?_some hf
          simpa using this
        have hpq : p ≠ q := by
          intro h
          rw [h] at hp
          exact hid hp
        simp only
        congr 1
        congr 1
        simp [ctx_at, List.getD_eq_getElem?_getD, List.getElem?_set_ne hpq]

/-- Function `broadcast_udp_callback` on the state agrees with the function on the
list of workers that starts at `broadcast_ctx_base`, when that list links
distinct slots of the table. -/
theorem broadcast_udp_callback_state_routed (api : trickle_timer_api) (s : broadcast_state)
    (data : List Nat) (data_len : Nat) (metadata : mira_net_udp_callback_metadata_t)
    (hnd : s.broadcast_ctx_base.Nodup)
    (hlt : ∀ p ∈ s.broadcast_ctx_base, p < s.broadcast_ctx.length) :
    (routed_items (broadcast_udp_callback_state api s data data_len metadata).1,
     (broadcast_udp_callback_state api s data data_len metadata).2)
      = broadcast_udp_callback api (routed_items s) data data_len metadata := by
  unfold broadcast_udp_callback_state broadcast_udp_callback
  by_cases h8 : data_len < 8
  · simp only [h8, if_true]
  · simp only [h8, if_false]
    unfold routed_items
    rw [broadcast_udp_walk_map api s _ _ data data_len metadata s.broadcast_ctx_base hnd hlt]
    cases hf : s.broadcast_ctx_base.find? (fun p => (ctx_at s p).id == read_u32_le data 0) with
    | none => rfl
    | some p => rfl

/-- A datagram longer than 238 bytes for a running item with an older version:
`broadcast_udp_callback` sets the size of the item to `data_len - 8`. -/
theorem broadcast_udp_callback_state_long_datagram :
    (ctx_at (broadcast_udp_callback_state spec_trickle_timer example_state_one
      ([0xEF, 0xBE, 0xAD, 0xDE, 0, 0, 3, 0] ++ List.replicate 292 90) 300
      example_metadata).1 0).size = 292 := by
  rfl

/-! ## Bulk data collection: the sub-packet that the sender picks -/

theorem num_sub_packets_ceil (len : Nat) (h1 : 1 ≤ len) (h2 : len ≤ 21120) :
    (len / 330 + (if len % 330 ≠ 0 then 1 else 0)) % 2 ^ 8 = (len + 329) / 330 := by
  rw [(num_sub_packets_bounds len h1 h2).2.2]
  by_cases hr : len % 330 = 0
  · simp only [hr, ne_eq, not_true_eq_false, if_false]; omega
  · simp only [hr, ne_eq, not_false_eq_true, if_true]; omega

theorem chunk_len_eq_spec (len i : Nat) (h1 : 1 ≤ len) (hi : i < (len + 329) / 330) :
    chunk_len len ((len + 329) / 330) i = spec_sub_packet_len len ((len + 329) / 330) i := by
  unfold chunk_len spec_sub_packet_len
  by_cases hlast : i = (len + 329) / 330 - 1
  · have hnot : ¬ i < (len + 329) / 330 - 1 := by omega
    rw [if_pos hlast, if_neg hnot]
    by_cases hr : len % 330 = 0
    · rw [if_pos hr]; omega
    · rw [if_neg hr]; omega
  · have hlt : i < (len + 329) / 330 - 1 := by omega
    rw [if_neg hlast, if_pos hlt]

/-- C31: for a large packet registered with `1 <= len <= 21120`, so that
`num_sub_packets = ceil(len / 330)`, and a mask whose lowest bit set is `k`
below `num_sub_packets`, `pick_next_to_send` returns the sub-packet with index
`k` whose payload starts at offset `k * 330` and whose length is the length of
the specification: 330 when `k < n - 1` and `len - (n - 1) * 330` when
`k = n - 1`. The sub-packet covers the bytes `[k * 330, min((k + 1) * 330,
len))`, and the last length as the code computes it, `len % 330` with 0
replaced by 330, is `len - (n - 1) * 330`. -/
theorem pick_next_to_send_refines (large_packet : mtk_bulk_data_collection_packet_t)
    (packet_id : Nat) (payload : List Nat) (len mask k : Nat)
    (h1 : 1 ≤ len) (h2 : len ≤ 21120) (hk : k < (len + 329) / 330)
    (hlow : ∀ j < k, mask.testBit j = false) (hbit : mask.testBit k = true) :
    (mtk_bulk_data_collection_register_tx large_packet packet_id (some payload)
      len).2.num_sub_packets = (len + 329) / 330 ∧
    pick_next_to_send
        { (mtk_bulk_data_collection_register_tx large_packet packet_id (some payload) len).2
            with mask := mask }
      = { index := k, payload := some (k * 330),
          len := spec_sub_packet_len len ((len + 329) / 330) k } ∧
    (k * 330, k * 330 + spec_sub_packet_len len ((len + 329) / 330) k)
      = spec_sub_packet_range len k ∧
    (if len % 330 = 0 then 330 else len % 330) = len - ((len + 329) / 330 - 1) * 330 := by
  have hreg := register_tx_ok large_packet packet_id payload len h1 h2
  have hn := num_sub_packets_ceil len h1 h2
  have hb := num_sub_packets_bounds len h1 h2
  rw [hreg]
  simp only [hn]
  refine ⟨trivial, ?_, ?_, ?_⟩
  · have hk64 : k < 64 := by
      have h64 := hb.2.1
      rw [hn] at h64
      omega
    rw [pick_next_to_send_lowest _ k hk hk64 hlow hbit]
    simp only
    rw [chunk_len_eq_spec len k h1 hk]
  · unfold spec_sub_packet_range spec_sub_packet_len
    congr 1
    by_cases hlt : k < (len + 329) / 330 - 1
    · rw [if_pos hlt]; omega
    · rw [if_neg hlt]; omega
  · by_cases hr : len % 330 = 0
    · rw [if_pos hr]; omega
    · rw [if_neg hr]; omega

theorem pick_next_to_send_refines_witness :
    pick_next_to_send
        { (mtk_bulk_data_collection_register_tx example_lp_tx 42 (some example_payload) 700).2
            with mask := 0b100 }
      = { index := 2, payload := some 660, len := 40 } :=
  (pick_next_to_send_refines example_lp_tx 42 example_payload 700 0b100 2 (by decide)
    (by decide) (by decide) (by intro j hj; interval_cases j <;> decide) (by decide)).2.1

/-! ## Bulk data collection: a sub-packet event on the receiver -/

theorem one_shiftLeft_mod (i : Nat) (hi : i < 64) : (1 <<< i) % 2 ^ 64 = 2 ^ i := by
  rw [Nat.one_shiftLeft]
  exact Nat.mod_eq_of_lt (Nat.pow_lt_pow_right (by norm_num) hi)

/-- The pass of the receive loop on a sub-packet event with the expected id
whose bit is not set yet. -/
theorem receive_proc_step_new (s : receive_proc_state) (ed : mtk_bdc_event_subpacket_data_t)
    (random : Nat) (hw : s.status = receive_status.waiting) (hid : ed.packet_id = s.lp.id)
    (hidx : ed.sub_packet_index < 64) (hbit : s.lp.mask.testBit ed.sub_packet_index = false) :
    receive_proc_step s (receive_event.subpacket ed random)
      = if s.lp.mask ||| 2 ^ ed.sub_packet_index
            = (if ed.n_sub_packets = 64 then UINT64_MAX else low_bits_u64 ed.n_sub_packets) then
          ({ s with
               lp := { s.lp with
                 mask := s.lp.mask ||| 2 ^ ed.sub_packet_index,
                 payload := memcpy_at s.lp.payload (ed.sub_packet_index * 330) ed.payload
                   ed.payload_len,
                 len := (s.lp.len + ed.payload_len) % 2 ^ 16 },
               status := receive_status.ended },
           [bdc_effect.post_event_bdc_received])
        else
          ({ s with
               lp := { s.lp with
                 mask := s.lp.mask ||| 2 ^ ed.sub_packet_index,
                 payload := memcpy_at s.lp.payload (ed.sub_packet_index * 330) ed.payload
                   ed.payload_len,
                 len := (s.lp.len + ed.payload_len) % 2 ^ 16 } }, []) := by
  have h1 := one_shiftLeft_mod ed.sub_packet_index hidx
  have hoff : (ed.sub_packet_index * 330) % 2 ^ 16 = ed.sub_packet_index * 330 :=
    Nat.mod_eq_of_lt (by omega)
  have hnobit : s.lp.mask &&& 2 ^ ed.sub_packet_index = 0 := by
    by_contra hne
    have h2 : ((1 <<< ed.sub_packet_index) % 2 ^ 64) &&& s.lp.mask ≠ 0 := by
      rw [h1, Nat.and_comm]; exact hne
    rw [mask_bit_test ed.sub_packet_index s.lp.mask hidx, hbit] at h2
    exact absurd h2 (by decide)
  simp only [receive_proc_step, hw, lp_fault_injected_false, Bool.false_eq_true, if_false, hid,
    ne_eq, not_true_eq_false, h1, hnobit, MTK_BULK_DATA_COLLECTION_SUBPACKET_MAX_BYTES, hoff]

/-- C32: for a waiting receive process and a sub-packet event with the
expected `packet_id` whose index is below 64 and whose bit is not set in the
mask, the pass sets exactly that bit and leaves the other bits of the mask,
copies `payload_len` bytes of the event's payload to the destination buffer at
offset `index * 330` and leaves every other byte of the buffer (for a copy
that lies within both buffers), and adds `payload_len` to `len`, a `uint16_t`;
id, address, port, period and number of sub-packets stay. -/
theorem receive_proc_step_stores (s : receive_proc_state) (ed : mtk_bdc_event_subpacket_data_t)
    (random : Nat) (hw : s.status = receive_status.waiting) (hid : ed.packet_id = s.lp.id)
    (hidx : ed.sub_packet_index < 64) (hbit : s.lp.mask.testBit ed.sub_packet_index = false) :
    (receive_proc_step s (receive_event.subpacket ed random)).1.lp
      = { s.lp with
            mask := s.lp.mask ||| 2 ^ ed.sub_packet_index,
            payload := memcpy_at s.lp.payload (ed.sub_packet_index * 330) ed.payload
              ed.payload_len,
            len := (s.lp.len + ed.payload_len) % 2 ^ 16 } ∧
    (∀ j, (receive_proc_step s (receive_event.subpacket ed random)).1.lp.mask.testBit j
      = (s.lp.mask.testBit j || decide (j = ed.sub_packet_index))) ∧
    (ed.sub_packet_index * 330 + ed.payload_len ≤ s.lp.payload.length →
      ed.payload_len ≤ ed.payload.length →
      (receive_proc_step s (receive_event.subpacket ed random)).1.lp.payload.length
        = s.lp.payload.length ∧
      ∀ p, (receive_proc_step s (receive_event.subpacket ed random)).1.lp.payload[p]?
        = if ed.sub_packet_index * 330 ≤ p ∧ p < ed.sub_packet_index * 330 + ed.payload_len
          then ed.payload[p - ed.sub_packet_index * 330]? else s.lp.payload[p]?) ∧
    (s.lp.len + ed.payload_len < 2 ^ 16 →
      (receive_proc_step s (receive_event.subpacket ed random)).1.lp.len
        = s.lp.len + ed.payload_len) := by
  have hlp : (receive_proc_step s (receive_event.subpacket ed random)).1.lp
      = { s.lp with
            mask := s.lp.mask ||| 2 ^ ed.sub_packet_index,
            payload := memcpy_at s.lp.payload (ed.sub_packet_index * 330) ed.payload
              ed.payload_len,
            len := (s.lp.len + ed.payload_len) % 2 ^ 16 } := by
    rw [receive_proc_step_new s ed random hw hid hidx hbit]
    split_ifs <;> rfl
  rw [hlp]
  refine ⟨rfl, ?_, ?_, ?_⟩
  · intro j
    simp only
    rw [Nat.testBit_or, Nat.testBit_two_pow]
    by_cases hj : j = ed.sub_packet_index
    · subst hj; simp
    · have hj2 : ¬ ed.sub_packet_index = j := fun h => hj h.symm
      simp [hj, hj2]
  · intro hfit hsrc
    exact ⟨memcpy_at_length _ _ _ _ hfit hsrc,
      fun p => memcpy_at_getElem? _ _ _ _ p hfit hsrc⟩
  · intro hlen
    exact Nat.mod_eq_of_lt hlen

theorem receive_proc_step_stores_witness :
    (receive_proc_step
        { lp := { example_lp_rx with mask := 0b001, len := 330 }, re_tx_requests_left := 4,
          status := receive_status.waiting }
        (receive_event.subpacket
          { packet_id := 42, sub_packet_index := 2, n_sub_packets := 3, payload_len := 40,
            payload := List.replicate 330 65, src := 9, src_port := 456 } 0)).1.lp.mask.testBit 2
      = true :=
  (receive_proc_step_stores
    { lp := { example_lp_rx with mask := 0b001, len := 330 }, re_tx_requests_left := 4,
      status := receive_status.waiting }
    { packet_id := 42, sub_packet_index := 2, n_sub_packets := 3, payload_len := 40,
      payload := List.replicate 330 65, src := 9, src_port := 456 } 0 rfl rfl (by decide)
    (by decide)).2.1 2

/-- C33: after the receive process has stored a new sub-packet (expected
`packet_id`, index below 64, bit not set before), it leaves its loop and posts
`event_bdc_received`, once, exactly when the updated mask equals
`all_done_mask`: all 64 bits when the event's `n_sub_packets` is 64 and
`2 ^ n_sub_packets - 1` when it is less. Otherwise it keeps waiting and posts
nothing. Once it has ended no later event makes it post again. -/
theorem receive_proc_step_done_iff (s : receive_proc_state)
    (ed : mtk_bdc_event_subpacket_data_t) (random : Nat)
    (hw : s.status = receive_status.waiting) (hid : ed.packet_id = s.lp.id)
    (hidx : ed.sub_packet_index < 64) (hbit : s.lp.mask.testBit ed.sub_packet_index = false)
    (hn : ed.n_sub_packets ≤ 64) :
    ((receive_proc_step s (receive_event.subpacket ed random)).1.lp.mask
        = (if ed.n_sub_packets = 64 then 2 ^ 64 - 1 else 2 ^ ed.n_sub_packets - 1) →
      (receive_proc_step s (receive_event.subpacket ed random)).1.status
        = receive_status.ended ∧
      (receive_proc_step s (receive_event.subpacket ed random)).2
        = [bdc_effect.post_event_bdc_received] ∧
      ∀ events, (receive_proc_run
        (receive_proc_step s (receive_event.subpacket ed random)).1 events).2 = []) ∧
    ((receive_proc_step s (receive_event.subpacket ed random)).1.lp.mask
        ≠ (if ed.n_sub_packets = 64 then 2 ^ 64 - 1 else 2 ^ ed.n_sub_packets - 1) →
      (receive_proc_step s (receive_event.subpacket ed random)).1.status
        = receive_status.waiting ∧
      (receive_proc_step s (receive_event.subpacket ed random)).2 = []) := by
  have hall : (if ed.n_sub_packets = 64 then UINT64_MAX else low_bits_u64 ed.n_sub_packets)
      = (if ed.n_sub_packets = 64 then 2 ^ 64 - 1 else 2 ^ ed.n_sub_packets - 1) := by
    by_cases h64 : ed.n_sub_packets = 64
    · rw [if_pos h64, if_pos h64]; rfl
    · rw [if_neg h64, if_neg h64, low_bits_u64_eq ed.n_sub_packets (by omega)]
  rw [receive_proc_step_new s ed random hw hid hidx hbit, hall]
  by_cases hdone : s.lp.mask ||| 2 ^ ed.sub_packet_index
      = (if ed.n_sub_packets = 64 then 2 ^ 64 - 1 else 2 ^ ed.n_sub_packets - 1)
  · rw [if_pos hdone]
    refine ⟨fun _ => ⟨rfl, rfl, fun events => ?_⟩, fun hne => absurd hdone hne⟩
    rw [receive_proc_run_not_waiting _ events (by simp)]
  · rw [if_neg hdone]
    exact ⟨fun heq => absurd heq hdone, fun _ => ⟨hw, rfl⟩⟩

theorem receive_proc_step_done_iff_witness :
    (receive_proc_step
        { lp := { example_lp_rx with mask := 0b011, len := 660 }, re_tx_requests_left := 4,
          status := receive_status.waiting }
        (receive_event.subpacket
          { packet_id := 42, sub_packet_index := 2, n_sub_packets := 3, payload_len := 40,
            payload := List.replicate 330 65, src := 9, src_port := 456 } 0)).2
      = [bdc_effect.post_event_bdc_received] :=
  ((receive_proc_step_done_iff
    { lp := { example_lp_rx with mask := 0b011, len := 660 }, re_tx_requests_left := 4,
      status := receive_status.waiting }
    { packet_id := 42, sub_packet_index := 2, n_sub_packets := 3, payload_len := 40,
      payload := List.replicate 330 65, src := 9, src_port := 456 } 0 rfl rfl (by decide)
    (by decide) (by decide)).1 rfl).2.1

/-- C34: for a waiting receive process, a sub-packet event whose `packet_id`
differs from the expected id (no event is discarded by fault injection,
`FAULT_RATE_PERCENT` being 0) makes the process exit: nothing is posted, the
large packet with its mask, `len` and destination buffer is as before, and no
later event changes it or posts `event_bdc_received`. -/
theorem receive_proc_step_wrong_id (s : receive_proc_state)
    (ed : mtk_bdc_event_subpacket_data_t) (random : Nat)
    (hw : s.status = receive_status.waiting) (hid : ed.packet_id ≠ s.lp.id) :
    lp_fault_injected random = false ∧
    receive_proc_step s (receive_event.subpacket ed random)
      = ({ s with status := receive_status.exited }, []) ∧
    ∀ events, receive_proc_run s (receive_event.subpacket ed random :: events)
      = ({ s with status := receive_status.exited }, []) := by
  have hstep : receive_proc_step s (receive_event.subpacket ed random)
      = ({ s with status := receive_status.exited }, []) := by
    simp only [receive_proc_step, hw, lp_fault_injected_false, Bool.false_eq_true, if_false,
      ne_eq, hid, not_false_eq_true, if_true]
  refine ⟨lp_fault_injected_false random, hstep, fun events => ?_⟩
  simp only [receive_proc_run, hstep, List.nil_append]
  rw [receive_proc_run_not_waiting _ events (by simp)]

theorem receive_proc_step_wrong_id_witness :
    receive_proc_step (receive_proc_start example_lp_rx)
        (receive_event.subpacket
          { packet_id := 43, sub_packet_index := 0, n_sub_packets := 3, payload_len := 330,
            payload := List.replicate 330 65, src := 9, src_port := 456 } 0)
      = ({ receive_proc_start example_lp_rx with status := receive_status.exited }, []) :=
  (receive_proc_step_wrong_id (receive_proc_start example_lp_rx)
    { packet_id := 43, sub_packet_index := 0, n_sub_packets := 3, payload_len := 330,
      payload := List.replicate 330 65, src := 9, src_port := 456 } 0 rfl (by decide)).2.1

/-! ## Bulk data collection: the request for the sub-packets missing -/

theorem testBit_not_u64 (m i : Nat) (hm : m < 2 ^ 64) :
    (m ^^^ UINT64_MAX).testBit i = (decide (i < 64) && !m.testBit i) := by
  unfold UINT64_MAX
  rw [Nat.testBit_xor, Nat.testBit_two_pow_sub_one]
  by_cases hi : i < 64
  · simp [hi]
  · have : m.testBit i = false :=
      Nat.testBit_lt_two_pow
        (Nat.lt_of_lt_of_le hm (Nat.pow_le_pow_right (by norm_num) (by omega)))
    simp [hi, this]

/-- C35: on a timeout with a budget above 0, for a large packet of at most 64
sub-packets, the receive process sends one request to `(node_addr,
node_port)` with the packet id, the period and the mask
`~mask & whole_mask(num_sub_packets)`, whose bit `i` is set exactly when
`i < num_sub_packets` and bit `i` of the receiver's mask is clear; the budget
goes down by 1 and the large packet, with mask, `len` and buffer, is as
before. The frame decodes to that id, mask and period. -/
theorem receive_proc_step_request (s : receive_proc_state) (send_ok : Bool)
    (hw : s.status = receive_status.waiting) (hb : 0 < s.re_tx_requests_left)
    (hn : s.lp.num_sub_packets ≤ 64) (hm : s.lp.mask < 2 ^ 64) :
    receive_proc_step s (receive_event.timeout send_ok)
      = ({ s with re_tx_requests_left := s.re_tx_requests_left - 1 },
         [bdc_effect.udp_send_to s.lp.node_addr s.lp.node_port
           (lpreq_pack_buffer s.lp.id
             ((s.lp.mask ^^^ UINT64_MAX) &&&
               (mtk_bulk_data_collection_send_whole_mask_get s.lp.num_sub_packets).2)
             s.lp.period_ms) 14]) ∧
    (∀ i, ((s.lp.mask ^^^ UINT64_MAX) &&&
        (mtk_bulk_data_collection_send_whole_mask_get s.lp.num_sub_packets).2).testBit i
      = (decide (i < s.lp.num_sub_packets) && !s.lp.mask.testBit i)) ∧
    (s.lp.id < 2 ^ 16 → s.lp.period_ms < 2 ^ 16 →
      lpreq_unpack_buffer
          (lpreq_pack_buffer s.lp.id
            ((s.lp.mask ^^^ UINT64_MAX) &&&
              (mtk_bulk_data_collection_send_whole_mask_get s.lp.num_sub_packets).2)
            s.lp.period_ms) 14
        = some (s.lp.id,
            (s.lp.mask ^^^ UINT64_MAX) &&&
              (mtk_bulk_data_collection_send_whole_mask_get s.lp.num_sub_packets).2,
            s.lp.period_ms)) := by
  have hbits : ∀ i, ((s.lp.mask ^^^ UINT64_MAX) &&&
        (mtk_bulk_data_collection_send_whole_mask_get s.lp.num_sub_packets).2).testBit i
      = (decide (i < s.lp.num_sub_packets) && !s.lp.mask.testBit i) := by
    intro i
    rw [whole_mask_get_eq s.lp.num_sub_packets hn, Nat.testBit_and,
      testBit_not_u64 s.lp.mask i hm, Nat.testBit_two_pow_sub_one]
    by_cases h1 : i < s.lp.num_sub_packets
    · have h2 : i < 64 := by omega
      simp [h1, h2]
    · simp [h1]
  have hcode : (if s.lp.num_sub_packets < 64 then
        (s.lp.mask ^^^ UINT64_MAX) &&& low_bits_u64 s.lp.num_sub_packets
      else s.lp.mask ^^^ UINT64_MAX)
      = (s.lp.mask ^^^ UINT64_MAX) &&&
          (mtk_bulk_data_collection_send_whole_mask_get s.lp.num_sub_packets).2 := by
    by_cases h64 : s.lp.num_sub_packets < 64
    · rw [if_pos h64, whole_mask_get_eq s.lp.num_sub_packets hn,
        low_bits_u64_eq s.lp.num_sub_packets h64]
    · rw [if_neg h64]
      apply Nat.eq_of_testBit_eq
      intro i
      rw [hbits i, testBit_not_u64 s.lp.mask i hm]
      have : s.lp.num_sub_packets = 64 := by omega
      rw [this]
  refine ⟨?_, hbits, ?_⟩
  · simp only [receive_proc_step, hw, gt_iff_lt, hb, if_true, request_for_missing_subpackets,
      mtk_bdcreq_send, hcode, Nat.reduceAdd]
  · intro hid hp
    apply lpreq_unpack_pack _ _ _ hid _ hp
    apply Nat.lt_of_le_of_lt Nat.and_le_left
    unfold UINT64_MAX
    exact Nat.xor_lt_two_pow hm (by norm_num)

theorem receive_proc_step_request_witness :
    receive_proc_step
        { lp := { example_lp_rx with mask := 0b101, len := 370 }, re_tx_requests_left := 4,
          status := receive_status.waiting }
        (receive_event.timeout true)
      = ({ lp := { example_lp_rx with mask := 0b101, len := 370 }, re_tx_requests_left := 3,
           status := receive_status.waiting },
         [bdc_effect.udp_send_to 9 456 (lpreq_pack_buffer 42 0b010 200) 14]) :=
  (receive_proc_step_request
    { lp := { example_lp_rx with mask := 0b101, len := 370 }, re_tx_requests_left := 4,
      status := receive_status.waiting } true rfl (by decide) (by decide) (by decide)).1

/-! ## Bulk data collection: sub-packets beyond the buffers -/

/-- Function `mtk_bdcsp_handle_data` accepts every frame that `lpsp_pack_buffer`
builds, whatever its `payload_len`. -/
theorem mtk_bdcsp_handle_data_packed (static : List Nat)
    (packet_id sub_packet_index n_sub_packets : Nat) (payload : List Nat) (payload_len : Nat)
    (metadata : mira_net_udp_callback_metadata_t) (h1 : packet_id < 2 ^ 16)
    (h2 : sub_packet_index < 2 ^ 8) (h3 : n_sub_packets < 2 ^ 8) (h4 : payload_len < 2 ^ 16)
    (h5 : payload_len ≤ payload.length) :
    mtk_bdcsp_handle_data static
        (lpsp_pack_buffer packet_id sub_packet_index n_sub_packets payload payload_len)
        (8 + payload_len) metadata
      = some { packet_id := packet_id, sub_packet_index := sub_packet_index,
               n_sub_packets := n_sub_packets, payload_len := payload_len,
               payload := payload.take payload_len ++ static.drop payload_len,
               src := metadata.source_address, src_port := metadata.source_port } := by
  have hhdr : header_differs
      (lpsp_pack_buffer packet_id sub_packet_index n_sub_packets payload payload_len)
      lpsp_header = false := by
    simp [lpsp_pack_buffer, lpsp_header, header_differs]
  have hlt : ¬ 8 + payload_len < 2 := by omega
  simp only [mtk_bdcsp_handle_data, MTK_BULK_DATA_COLLECTION_HEADER_SIZE, hlt, if_false, hhdr,
    Bool.false_eq_true]
  rw [lpsp_unpack_pack static packet_id sub_packet_index n_sub_packets payload payload_len
    h1 h2 h3 h4 h5]

theorem example_frame_331_packed :
    example_frame_331 = lpsp_pack_buffer 42 0 1 (List.replicate 331 7) 331 := by
  have hs1 : LITTLE_ENDIAN_STORE 2 42 = [42, 0] := by decide
  have hs2 : LITTLE_ENDIAN_STORE 1 0 = [0] := by decide
  have hs3 : LITTLE_ENDIAN_STORE 1 1 = [1] := by decide
  have hs4 : LITTLE_ENDIAN_STORE 2 331 = [0x4b, 0x01] := by decide
  simp only [example_frame_331, lpsp_pack_buffer, lpsp_header, hs1, hs2, hs3, hs4,
    List.take_replicate, Nat.min_self, List.cons_append, List.nil_append, List.append_assoc]

/-- C36: the datagram of 339 bytes with the sub-packet header and
`payload_len = 331` is accepted by `mtk_bdcsp_handle_data`: the length test of
`lpsp_unpack_buffer` compares `buf_len` with `8 + payload_len` only, the 331
bytes are copied into the static payload buffer of 330 bytes, and
`event_bdc_subpacket_received` is posted with `payload_len = 331`. -/
theorem mtk_bdcsp_handle_data_accepts_331 :
    example_frame_331.length = 339 ∧
    mtk_bdcsp_handle_data (List.replicate 330 0) example_frame_331 339 example_metadata
      = some { packet_id := 42, sub_packet_index := 0, n_sub_packets := 1, payload_len := 331,
               payload := List.replicate 331 7, src := 7, src_port := 456 } ∧
    MTK_BULK_DATA_COLLECTION_SUBPACKET_MAX_BYTES = 330 ∧
    (List.replicate 330 0).length < (List.replicate 331 7).length := by
  refine ⟨?_, ?_, rfl, ?_⟩
  · simp only [example_frame_331, List.length_append, List.length_replicate, List.length_cons,
      List.length_nil]
  · rw [example_frame_331_packed]
    have h := mtk_bdcsp_handle_data_packed (List.replicate 330 0) 42 0 1 (List.replicate 331 7)
      331 example_metadata (by norm_num) (by norm_num) (by norm_num) (by norm_num)
      (by simp only [List.length_replicate]; exact Nat.le_refl _)
    rw [show (339 : Nat) = 8 + 331 from rfl, h]
    simp only [List.take_replicate, List.drop_replicate, Nat.min_self, example_metadata,
      Nat.reduceSub, List.replicate_zero, List.append_nil]
  · simp only [List.length_replicate]
    decide

/-- C37: the receive process started on a destination buffer of 21120 bytes
stores the sub-packet event with the expected id, index 63 and
`payload_len = 331`: bit 63 is set, `len` becomes 331 and the copy covers the
offsets `20790 .. 21120`, one byte past the end of the buffer. It also stores
the event with index 64 and one payload byte (a shift by 64 being taken to
give 0): the mask stays 0, `len` becomes 1 and the byte is written at offset
21120, past the end of the buffer. -/
theorem receive_proc_stores_beyond_buffer :
    example_lp_rx.payload.length = 21120 ∧
    (receive_proc_step (receive_proc_start example_lp_rx)
      (receive_event.subpacket example_event_last 0)).1.lp.mask = 2 ^ 63 ∧
    (receive_proc_step (receive_proc_start example_lp_rx)
      (receive_event.subpacket example_event_last 0)).1.lp.len = 331 ∧
    (receive_proc_step (receive_proc_start example_lp_rx)
      (receive_event.subpacket example_event_last 0)).1.lp.payload
      = memcpy_at example_lp_rx.payload 20790 example_event_last.payload 331 ∧
    (memcpy_at example_lp_rx.payload 20790 example_event_last.payload 331).length = 21121 ∧
    ¬ (example_event_last.sub_packet_index * 330 + example_event_last.payload_len ≤ 21120) ∧
    (receive_proc_step (receive_proc_start example_lp_rx)
      (receive_event.subpacket example_event_index_64 0)).1.lp.mask = 0 ∧
    (receive_proc_step (receive_proc_start example_lp_rx)
      (receive_event.subpacket example_event_index_64 0)).1.lp.len = 1 ∧
    (receive_proc_step (receive_proc_start example_lp_rx)
      (receive_event.subpacket example_event_index_64 0)).1.lp.payload
      = memcpy_at example_lp_rx.payload 21120 example_event_index_64.payload 1 ∧
    (memcpy_at example_lp_rx.payload 21120 example_event_index_64.payload 1).length = 21121 ∧
    ¬ example_event_index_64.sub_packet_index < 64 := by
  have hlast := (receive_proc_step_new (receive_proc_start example_lp_rx) example_event_last 0
    rfl rfl (by decide) (by decide))
  have hne : ¬ ((receive_proc_start example_lp_rx).lp.mask
      ||| 2 ^ example_event_last.sub_packet_index
      = (if example_event_last.n_sub_packets = 64 then UINT64_MAX
         else low_bits_u64 example_event_last.n_sub_packets)) := by decide
  rw [if_neg hne] at hlast
  have h64 : receive_proc_step (receive_proc_start example_lp_rx)
      (receive_event.subpacket example_event_index_64 0)
      = ({ receive_proc_start example_lp_rx with
             lp := { example_lp_rx with
               payload := memcpy_at example_lp_rx.payload 21120
                 example_event_index_64.payload 1,
               len := 1 } }, []) := by
    simp only [receive_proc_step, receive_proc_start, lp_fault_injected_false,
      Bool.false_eq_true, if_false]
    rfl
  rw [hlast, h64]
  refine ⟨?_, rfl, rfl, rfl, ?_, by decide, rfl, rfl, rfl, ?_, by decide⟩
  · simp only [example_lp_rx, List.length_replicate]
  · simp only [memcpy_at, memcpy, example_lp_rx, example_event_last, List.length_append,
      List.length_take, List.length_drop, List.length_replicate]
    decide
  · simp only [memcpy_at, memcpy, example_lp_rx, example_event_index_64, List.length_append,
      List.length_take, List.length_drop, List.length_replicate, List.length_cons,
      List.length_nil]
    decide

/-! ## Broadcast worker: the order of versions -/

/-- C38, two versions that the comparison does not order: `0x80000001` and 1
differ by `2 ^ 31`, and `(int32)(a - b) > 0` holds in neither direction. A
node that holds one and receives the frame of the other keeps its version and
value and signals an inconsistency. -/
theorem version_order_half_range :
    (0x80000001 : Nat) ≠ 1 ∧
    ¬ (to_int32 (sub_u32 0x80000001 1) > 0) ∧
    ¬ (to_int32 (sub_u32 1 0x80000001) > 0) ∧
    broadcast_udp_callback spec_trickle_timer [example_item_low] example_frame_high 9
        example_metadata
      = ([example_item_low], [broadcast_effect.inconsistency 0xDEADBEEF]) ∧
    broadcast_udp_callback spec_trickle_timer [example_item_high] example_frame_low 9
        example_metadata
      = ([example_item_high], [broadcast_effect.inconsistency 0xDEADBEEF]) := by
  refine ⟨by decide, by decide, by decide, ?_, ?_⟩
  · decide
  · decide

/-- C38, amended: for two distinct 32-bit versions `a` and `b`,
`(int32)(a - b) > 0` and `(int32)(b - a) > 0` never hold both; exactly one of
them holds unless `a - b` is `2 ^ 31` modulo `2 ^ 32`, and then neither
holds. -/
theorem version_order_exclusive (a b : Nat) (ha : a < 2 ^ 32) (hb : b < 2 ^ 32)
    (hab : a ≠ b) :
    ¬ (to_int32 (sub_u32 a b) > 0 ∧ to_int32 (sub_u32 b a) > 0) ∧
    (sub_u32 a b ≠ 2 ^ 31 → (to_int32 (sub_u32 a b) > 0 ∨ to_int32 (sub_u32 b a) > 0)) ∧
    (sub_u32 a b = 2 ^ 31 →
      ¬ to_int32 (sub_u32 a b) > 0 ∧ ¬ to_int32 (sub_u32 b a) > 0) := by
  unfold to_int32 sub_u32
  refine ⟨?_, ?_, ?_⟩
  · split <;> split <;> omega
  · intro h
    split <;> split <;> omega
  · intro h
    split <;> split <;> omega

theorem version_order_exclusive_witness :
    ¬ (to_int32 (sub_u32 0x20000 0x10000) > 0 ∧ to_int32 (sub_u32 0x10000 0x20000) > 0) ∧
    (to_int32 (sub_u32 0x20000 0x10000) > 0 ∨ to_int32 (sub_u32 0x10000 0x20000) > 0) :=
  ⟨(version_order_exclusive 0x20000 0x10000 (by decide) (by decide) (by decide)).1,
   (version_order_exclusive 0x20000 0x10000 (by decide) (by decide) (by decide)).2.1
     (by decide)⟩

/-! ## Broadcast worker: version 0 -/

/-- A datagram whose version field is not 0 never takes an item to version 0,
and neither does a datagram for an item that keeps its version. -/
theorem broadcast_udp_input_version_ne_zero (api : trickle_timer_api)
    (ctx : mtk_int_broadcast_worker_t) (version : Nat) (data : List Nat) (data_len : Nat)
    (metadata : mira_net_udp_callback_metadata_t) (hc : ctx.version ≠ 0) (hv : version ≠ 0) :
    (broadcast_udp_input api ctx version data data_len metadata).1.version ≠ 0 := by
  unfold broadcast_udp_input
  split_ifs <;> assumption

/-- C39: the running item with version `0x80000001` receives a datagram with
its id and the version field 0. `(int32)(0 - 0x80000001)` is `0x7FFFFFFF`,
above 0, so `broadcast_udp_callback` adopts the datagram: the version of the
item becomes 0, its value is replaced and the handler is called. From then on
`broadcast_trickle_callback` sends nothing for the item. -/
theorem broadcast_udp_callback_adopts_version_zero :
    example_item_high.version ≠ 0 ∧
    to_int32 (sub_u32 0 0x80000001) = 0x7FFFFFFF ∧
    broadcast_udp_callback spec_trickle_timer [example_item_high] example_frame_zero 9
        example_metadata
      = ([{ example_item_high with version := 0, data := [90] }],
         [broadcast_effect.inconsistency 0xDEADBEEF,
          broadcast_effect.update_handler 1 0xDEADBEEF [90] 1 example_metadata 0]) ∧
    (∀ addr port net_state supress,
      broadcast_trickle_callback addr port net_state
        { example_item_high with version := 0, data := [90] } supress = []) := by
  refine ⟨by decide, by decide, by decide, ?_⟩
  intro addr port net_state supress
  rfl

/-! ## Broadcast item table: a registration that fails -/

/-- C40: `mtk_broadcast_register` called before `mtk_broadcast_init` returns
`MTK_BROADCAST_ERROR_INTERNAL` and leaves `broadcast_num_ctx` at 1 instead of
0, no item being registered. After four such calls and a successful
`mtk_broadcast_init` the table counts 4 slots, the list of registered items
is empty, and `mtk_broadcast_register` returns
`MTK_BROADCAST_ERROR_NO_MEMORY`. -/
theorem mtk_broadcast_register_failure_counts (ops : trickle_timer_ops) :
    mtk_broadcast_register ops broadcast_state_start 1 [65] 1 0 0
      = (mtk_broadcast_status_t.MTK_BROADCAST_ERROR_INTERNAL,
         { broadcast_state_start with broadcast_num_ctx := 1 }) ∧
    (broadcast_run ops broadcast_state_start example_calls_early).broadcast_num_ctx = 4 ∧
    (broadcast_run ops broadcast_state_start example_calls_early).broadcast_net_initialized
      = true ∧
    routed_items (broadcast_run ops broadcast_state_start example_calls_early) = [] ∧
    (mtk_broadcast_register ops (broadcast_run ops broadcast_state_start example_calls_early)
      5 [69] 1 0 0).1 = mtk_broadcast_status_t.MTK_BROADCAST_ERROR_NO_MEMORY := by
  refine ⟨rfl, rfl, rfl, rfl, rfl⟩

/-! ## Broadcast item table: a slot that holds no item -/

/-- C17: `mtk_broadcast_register` called before `mtk_broadcast_init` fails and
registers nothing, yet consumes slot 0, whose id is 0. No registered item has
the `data_id` 0, but the loops of `mtk_broadcast_pause`, `mtk_broadcast_resume`
and `mtk_broadcast_update` search the slots below `broadcast_num_ctx` and find
that slot: pause and resume return `MTK_BROADCAST_ERROR_INTERNAL` (the
`ctx->id == 0` test of the worker) instead of
`MTK_BROADCAST_ERROR_NOT_INITIALIZED`, and update, here with `size = 0`,
returns `MTK_BROADCAST_SUCCESS` and gives the slot a version. -/
theorem mtk_broadcast_dead_slot_found (api : trickle_timer_api) (ops : trickle_timer_ops) :
    mtk_broadcast_register ops broadcast_state_start 1 [65] 1 0 0
      = (mtk_broadcast_status_t.MTK_BROADCAST_ERROR_INTERNAL,
         { broadcast_state_start with broadcast_num_ctx := 1 }) ∧
    routed_items { broadcast_state_start with broadcast_num_ctx := 1 } = [] ∧
    mtk_broadcast_pause ops { broadcast_state_start with broadcast_num_ctx := 1 } 0
      = (mtk_broadcast_status_t.MTK_BROADCAST_ERROR_INTERNAL,
         { broadcast_state_start with broadcast_num_ctx := 1 }) ∧
    mtk_broadcast_resume api ops { broadcast_state_start with broadcast_num_ctx := 1 } 0
      = (mtk_broadcast_status_t.MTK_BROADCAST_ERROR_INTERNAL,
         { broadcast_state_start with broadcast_num_ctx := 1 }) ∧
    (mtk_broadcast_update ops { broadcast_state_start with broadcast_num_ctx := 1 } 0 [] 0 7).1
      = mtk_broadcast_status_t.MTK_BROADCAST_SUCCESS ∧
    (ctx_at (mtk_broadcast_update ops { broadcast_state_start with broadcast_num_ctx := 1 }
      0 [] 0 7).2 0).version = 0x10007 := by
  refine ⟨rfl, rfl, rfl, rfl, rfl, rfl⟩

/-! ## Broadcast item table: a datagram longer than an item -/

/-- C27: after `mtk_broadcast_init` and the registration of `0xDEADBEEF` with a
value of 4 bytes (a size argument within 230), the datagram of 300
bytes with a newer version is adopted by `broadcast_udp_callback`: the size of
the item becomes `data_len - 8 = 292`, above 230, and 292 bytes are copied to
the 4-byte value buffer. The next call of `broadcast_trickle_callback` for the
item builds a frame of 300 bytes in `buf[256]`. -/
theorem broadcast_item_size_292 :
    example_frame_300.length = 300 ∧
    (ctx_at (broadcast_event_run spec_trickle_timer spec_trickle_timer_ops
      broadcast_state_start example_events_long_datagram) 0).size = 292 ∧
    ¬ (ctx_at (broadcast_event_run spec_trickle_timer spec_trickle_timer_ops
      broadcast_state_start example_events_long_datagram) 0).size ≤ 230 ∧
    (ctx_at (broadcast_event_run spec_trickle_timer spec_trickle_timer_ops
      broadcast_state_start example_events_long_datagram) 0).data
      = memcpy [65, 65, 65, 65] (example_frame_300.drop 8) 292 ∧
    (memcpy [65, 65, 65, 65] (example_frame_300.drop 8) 292).length = 292 ∧
    (∃ buf, broadcast_trickle_callback 1 2 (mira_net_state_t.other_state 1)
        (ctx_at (broadcast_event_run spec_trickle_timer spec_trickle_timer_ops
          broadcast_state_start example_events_long_datagram) 0) 0
      = [broadcast_effect.udp_send_to 1 2 buf 300]) := by
  refine ⟨?_, rfl, ?_, rfl, ?_, ⟨_, rfl⟩⟩
  · simp only [example_frame_300, List.length_append, List.length_replicate, List.length_cons,
      List.length_nil]
  · show ¬ 292 ≤ 230
    decide
  · simp only [memcpy, example_frame_300, List.length_append, List.length_take,
      List.length_drop, List.length_replicate, List.length_cons, List.length_nil]
    decide

end MiraToolkit
